import Mathlib

/-!
# Kalman filters for CAR(1) and CARMA(p,q) processes (`src/kfilter.cpp`)

A shallow embedding of `kfilter.cpp`.

* A `double` is read as an element of an ordered field `K` (the reals in the
  theorems about `exp`): there is no rounding, and a quotient by zero is the
  field's value `x / 0 = 0` where the machine gives an infinity or a NaN.
  The exponential is a parameter, so that a theorem says what it needs of it;
  `roundedExp` is an exponential that returns exactly 1 near 0, as the
  machine function does.
* A `std::complex<double>` is the pair `Cx K` of its real and imaginary part.
* An `arma::vec` is a list, and an element access is checked as armadillo
  checks `v(i)`: outside the bounds the result is `none`, which stands for
  the exception that ends the call.  The unchecked accesses `v[i]` are read
  the same way.
* The complex vectors and matrices of the general-order filter have the sizes
  the constructor gives them (`p_`, and `p_` by `p_`), so they are functions on
  `Fin p`.
* The functions of the C++ and armadillo libraries are the fields of `Lib`,
  and those that only `Simulate` calls, with the sampler, the fields of `SimLib`.
* Counters are natural numbers; the array lengths stay far below `2^32`.
-/

set_option autoImplicit false

namespace Kfilter

/-! ## Complex numbers (`std::complex<double>`) -/

/-- Complex number given by its real and imaginary part. -/
@[ext] structure Cx (K : Type) where
  re : K
  im : K
deriving DecidableEq, Repr

namespace Cx

variable {K : Type} [Field K]

instance : Zero (Cx K) := ⟨⟨0, 0⟩⟩
instance : One (Cx K) := ⟨⟨1, 0⟩⟩
instance : Add (Cx K) := ⟨fun z w => ⟨z.re + w.re, z.im + w.im⟩⟩
instance : Neg (Cx K) := ⟨fun z => ⟨-z.re, -z.im⟩⟩
instance : Sub (Cx K) := ⟨fun z w => ⟨z.re - w.re, z.im - w.im⟩⟩
instance : Mul (Cx K) := ⟨fun z w => ⟨z.re * w.re - z.im * w.im, z.re * w.im + z.im * w.re⟩⟩

/-- Embedding of a real number (`std::complex<double>(x)`). -/
def ofReal (x : K) : Cx K := ⟨x, 0⟩

/-- Complex conjugate (`std::conj`). -/
def conj (z : Cx K) : Cx K := ⟨z.re, -z.im⟩

/-- Product of a real and a complex number (`double * std::complex<double>`). -/
def scale (r : K) (z : Cx K) : Cx K := ⟨r * z.re, r * z.im⟩

/-- Quotient of a complex number by a real (`std::complex<double> / double`). -/
def divR (z : Cx K) (r : K) : Cx K := ⟨z.re / r, z.im / r⟩

/-- Quotient of two complex numbers. -/
def div (z w : Cx K) : Cx K :=
  ⟨(z.re * w.re + z.im * w.im) / (w.re * w.re + w.im * w.im),
   (z.im * w.re - z.re * w.im) / (w.re * w.re + w.im * w.im)⟩

instance : Div (Cx K) := ⟨div⟩

/-- Integer power of a complex number (`arma::pow` on one element). -/
def pow (z : Cx K) : Nat → Cx K
  | 0 => 1
  | n + 1 => pow z n * z

@[simp] theorem zero_re : (0 : Cx K).re = 0 := rfl
@[simp] theorem zero_im : (0 : Cx K).im = 0 := rfl
@[simp] theorem one_re : (1 : Cx K).re = 1 := rfl
@[simp] theorem one_im : (1 : Cx K).im = 0 := rfl
@[simp] theorem add_re (z w : Cx K) : (z + w).re = z.re + w.re := rfl
@[simp] theorem add_im (z w : Cx K) : (z + w).im = z.im + w.im := rfl
@[simp] theorem neg_re (z : Cx K) : (-z).re = -z.re := rfl
@[simp] theorem neg_im (z : Cx K) : (-z).im = -z.im := rfl
@[simp] theorem sub_re (z w : Cx K) : (z - w).re = z.re - w.re := rfl
@[simp] theorem sub_im (z w : Cx K) : (z - w).im = z.im - w.im := rfl
@[simp] theorem mul_re (z w : Cx K) : (z * w).re = z.re * w.re - z.im * w.im := rfl
@[simp] theorem mul_im (z w : Cx K) : (z * w).im = z.re * w.im + z.im * w.re := rfl
@[simp] theorem ofReal_re (x : K) : (ofReal x).re = x := rfl
@[simp] theorem ofReal_im (x : K) : (ofReal x).im = 0 := rfl
@[simp] theorem conj_re (z : Cx K) : (conj z).re = z.re := rfl
@[simp] theorem conj_im (z : Cx K) : (conj z).im = -z.im := rfl
@[simp] theorem scale_re (r : K) (z : Cx K) : (scale r z).re = r * z.re := rfl
@[simp] theorem scale_im (r : K) (z : Cx K) : (scale r z).im = r * z.im := rfl
@[simp] theorem divR_re (z : Cx K) (r : K) : (divR z r).re = z.re / r := rfl
@[simp] theorem divR_im (z : Cx K) (r : K) : (divR z r).im = z.im / r := rfl
@[simp] theorem div_re (z w : Cx K) :
    (z / w).re = (z.re * w.re + z.im * w.im) / (w.re * w.re + w.im * w.im) := rfl
@[simp] theorem div_im (z w : Cx K) :
    (z / w).im = (z.im * w.re - z.re * w.im) / (w.re * w.re + w.im * w.im) := rfl

instance : AddCommMonoid (Cx K) where
  add_assoc a b c := by ext <;> simp [add_assoc]
  zero_add a := by ext <;> simp
  add_zero a := by ext <;> simp
  add_comm a b := by ext <;> simp [add_comm]
  nsmul := nsmulRec

/-- Complex exponential (`std::exp` on `std::complex<double>`) from the real
exponential, cosine and sine. -/
def exp (e c sn : K → K) (z : Cx K) : Cx K := ⟨e z.re * c z.im, e z.re * sn z.im⟩

end Cx

/-! ## Vectors with checked element access (`arma::vec`) -/

/-- Element read `v(i)`: `none` when `i` is outside the bounds. -/
def rd {α : Type} (v : List α) (i : Nat) : Option α := v[i]?

/-- Element write `v(i) = x`: `none` when `i` is outside the bounds. -/
def wr {α : Type} (v : List α) (i : Nat) (x : α) : Option (List α) :=
  if i < v.length then some (v.set i x) else none

/-- Index `c - 1` of an unsigned counter: for `c = 0` the subtraction wraps
around to an index beyond every array, so the access that follows fails. -/
def decr (c : Nat) : Option Nat := if c = 0 then none else some (c - 1)

/-- Repeat a fallible step `n` times (`for` loop around a call). -/
def iterM {α : Type} (f : α → Option α) : Nat → α → Option α
  | 0, a => some a
  | n + 1, a => (f a).bind (iterM f n)

/-! ## Library functions -/

/-- Functions of `<cmath>`, `<complex>` and armadillo that the filter calls:
the real exponential, cosine and sine (which give the complex exponential),
the constant `arma::datum::pi`, the solver `arma::solve`, and whether
`arma::symmatu` conjugates the entries it reflects (it depends on the library
version). -/
structure Lib (K : Type) where
  exp : K → K
  cos : K → K
  sin : K → K
  pi : K
  solve : (p : Nat) → (Fin p → Fin p → Cx K) → (Fin p → Cx K) → (Fin p → Cx K)
  symmatu_conj : Bool

section
variable {K : Type} [LinearOrderedField K]

/-! ## The order-1 filter -/

/-- Members of `KalmanFilter1`: the parameters, the time series (`dt_` holds
the gaps between successive times), the filter output and the position. -/
structure KalmanFilter1 (K : Type) where
  sigsqr_ : K
  omega_ : K
  time_ : List K
  y_ : List K
  yerr_ : List K
  dt_ : List K
  mean_ : List K
  var_ : List K
  current_index_ : Nat

/-- `KalmanFilter1::Reset`. -/
def KalmanFilter1.Reset (s : KalmanFilter1 K) : Option (KalmanFilter1 K) := do
  let mean ← wr s.mean_ 0 0
  let e0 ← rd s.yerr_ 0
  let var ← wr s.var_ 0 (s.sigsqr_ / (2 * s.omega_) + e0 * e0)
  pure { s with mean_ := mean, var_ := var, current_index_ := 1 }

/-- `KalmanFilter1::Update`; `exp` is the real exponential.  The function does
not change `current_index_`. -/
def KalmanFilter1.Update (exp : K → K) (s : KalmanFilter1 K) : Option (KalmanFilter1 K) := do
  let c := s.current_index_
  let c1 ← decr c
  let dt ← rd s.dt_ c1
  let rho := exp (-1 * s.omega_ * dt)
  let vprev ← rd s.var_ c1
  let eprev ← rd s.yerr_ c1
  let previous_var := vprev - eprev * eprev
  let var_ratio := previous_var / vprev
  let mprev ← rd s.mean_ c1
  let yprev ← rd s.y_ c1
  let mean ← wr s.mean_ c (rho * mprev + rho * var_ratio * (yprev - mprev))
  let var ← wr s.var_ c
    (s.sigsqr_ / (2 * s.omega_) * (1 - rho * rho) + rho * rho * previous_var * (1 - var_ratio))
  let ec ← rd s.yerr_ c
  let vc ← rd var c
  let var ← wr var c (vc + ec * ec)
  pure { s with mean_ := mean, var_ := var }

/-- The scan `while (time > time_i) { i++; time_i = time_(i); }` of the
interpolation branch of `KalmanFilter1::Predict`, entered with the values of
`i` and `time_i`: the final `i` and `time_i`, or `none` when `time_(i)` is read
outside the bounds. -/
def KalmanFilter1.Predict.scan (time_ : List K) (time : K) (i : Nat) (time_i : K) :
    Option (Nat × K) :=
  if time > time_i then
    if h : i + 1 < time_.length then
      KalmanFilter1.Predict.scan time_ time (i + 1) time_[i + 1]
    else none
  else some (i, time_i)
termination_by time_.length - i

/-- The values of `back_mean` and `back_var` that `KalmanFilter1::Predict`
derives from the observation of index `j` (lines 63 to 68 with `j = ny - 1`,
lines 79 to 84 with `j = i - 1`: the same statements). -/
def KalmanFilter1.Predict.back (exp : K → K) (s : KalmanFilter1 K) (time : K) (j : Nat) :
    Option (K × K) := do
  let tprev ← rd s.time_ j
  let dt := time - tprev
  let rho := exp (-dt * s.omega_)
  let vprev ← rd s.var_ j
  let eprev ← rd s.yerr_ j
  let previous_var := vprev - eprev * eprev
  let var_ratio := previous_var / vprev
  let mprev ← rd s.mean_ j
  let yprev ← rd s.y_ j
  pure (rho * mprev + rho * var_ratio * (yprev - mprev),
    s.sigsqr_ / (2 * s.omega_) * (1 - rho * rho) + rho * rho * previous_var * (1 - var_ratio))

/-- The values of `forward_mean` and `forward_var` that
`KalmanFilter1::Predict` derives from the observation of index `j` at the time
`time_j` (lines 57 to 59 with `j = 0`, lines 85 to 88 with `j = i`). -/
def KalmanFilter1.Predict.forward (exp : K → K) (s : KalmanFilter1 K) (time time_j : K)
    (j : Nat) : Option (K × K) := do
  let dt := time_j - time
  let rho := exp (-dt * s.omega_)
  let yj ← rd s.y_ j
  let vj ← rd s.var_ j
  pure (yj / rho, vj / rho / rho)

/-- The branches of `KalmanFilter1::Predict`: the values of `back_mean`,
`back_var`, `forward_mean` and `forward_var`, in this order. -/
def KalmanFilter1.Predict.sides (exp : K → K) (s : KalmanFilter1 K) (time : K) :
    Option (K × K × K × K) := do
  let ny := s.y_.length
  let t0 ← rd s.time_ 0
  if time < t0 then do
    let f ← KalmanFilter1.Predict.forward exp s time t0 0
    pure (0, s.sigsqr_ / (2 * s.omega_), f.1, f.2)
  else do
    let n1 ← decr ny
    let tl ← rd s.time_ n1
    if time > tl then do
      let b ← KalmanFilter1.Predict.back exp s time n1
      pure (b.1, b.2, 0, 10 ^ 300)
    else do
      let r ← KalmanFilter1.Predict.scan s.time_ time 0 t0
      let i1 ← decr r.1
      let b ← KalmanFilter1.Predict.back exp s time i1
      let f ← KalmanFilter1.Predict.forward exp s time r.2 r.1
      pure (b.1, b.2, f.1, f.2)

/-- `KalmanFilter1::Predict`: the pair of the predicted mean and variance;
`exp` is the real exponential. -/
def KalmanFilter1.Predict (exp : K → K) (s : KalmanFilter1 K) (time : K) : Option (K × K) := do
  let b ← KalmanFilter1.Predict.sides exp s time
  let ypredict_var := 1 / (1 / b.2.1 + 1 / b.2.2.2)
  let ypredict_mean := ypredict_var * (b.1 / b.2.1 + b.2.2.1 / b.2.2.2)
  pure (ypredict_mean, ypredict_var)

/-! ## Roots of the autoregressive polynomial -/

/-- Body of `KalmanFilterp::ARRoots` for a given initial value of the local
vector `ar_roots`. -/
def ARRoots.body (pi : K) (omega : List K) (ar_roots : List (Cx K)) : Option (List (Cx K)) := do
  let p := omega.length
  let ar_roots ← (List.range (p / 2)).foldlM (fun (ar : List (Cx K)) i => do
      let lorentz_cent ← rd omega (2 * i)
      let lorentz_width ← rd omega (2 * i + 1)
      let ar ← wr ar (2 * i) ⟨-lorentz_width, lorentz_cent⟩
      let z ← rd ar (2 * i)
      wr ar (2 * i + 1) (Cx.conj z)) ar_roots
  let ar_roots ← if p % 2 = 1 then do
      let lorentz_width ← rd omega (p + 1)
      wr ar_roots (p - 1) ⟨-lorentz_width, 0⟩
    else pure ar_roots
  pure (ar_roots.map (Cx.scale (2 * pi)))

/-- `KalmanFilterp::ARRoots`: the local `arma::cx_vec ar_roots;` is declared
without a size, so it starts empty. -/
def ARRoots (pi : K) (omega : List K) : Option (List (Cx K)) :=
  ARRoots.body pi omega []

/-! ## The general-order filter -/

/-- Members of `KalmanFilterp` for autoregressive order `p`: the parameters
(`ma_coefs_` is the row of length `p` that `Reset` multiplies with `EigenMat`),
the time series with the gaps `dt_`, the filter output `mean_`, `var_`, and
the state of the recursion. -/
structure KalmanFilterp (K : Type) (p : Nat) where
  sigsqr_ : K
  ar_roots_ : Fin p → Cx K
  ma_coefs_ : Fin p → K
  time_ : List K
  y_ : List K
  yerr_ : List K
  dt_ : List K
  mean_ : List K
  var_ : List K
  current_index_ : Nat
  state_vector_ : Fin p → Cx K
  StateVar_ : Fin p → Fin p → Cx K
  PredictionVar_ : Fin p → Fin p → Cx K
  kalman_gain_ : Fin p → Cx K
  rho_ : Fin p → Cx K
  rotated_ma_coefs_ : Fin p → Cx K
  innovation_ : K
  state_const_ : Fin p → Cx K
  state_slope_ : Fin p → Cx K
  yconst_ : K
  yslope_ : K

variable {p : Nat}

/-- Scalar `arma::as_scalar(r * v)` of a row and a column. -/
def dot (r v : Fin p → Cx K) : Cx K := ∑ i, r i * v i

/-- Scalar `arma::as_scalar(r * M * r.t())`; `.t()` conjugates. -/
def quad (r : Fin p → Cx K) (M : Fin p → Fin p → Cx K) : Cx K :=
  ∑ j, (∑ i, r i * M i j) * Cx.conj (r j)

/-- Kalman gain `PredictionVar_ * rotated_ma_coefs_.t() / v`. -/
def gain (PV : Fin p → Fin p → Cx K) (r : Fin p → Cx K) (v : K) : Fin p → Cx K :=
  fun i => Cx.divR (∑ j, PV i j * Cx.conj (r j)) v

/-- Update `PredictionVar_ -= v * (kalman_gain_ * kalman_gain_.t())`. -/
def shrink (PV : Fin p → Fin p → Cx K) (g : Fin p → Cx K) (v : K) : Fin p → Fin p → Cx K :=
  fun i j => PV i j - Cx.scale v (g i * Cx.conj (g j))

/-- Decay factors `arma::exp(ar_roots_ * dt)`. -/
def decay (L : Lib K) (roots : Fin p → Cx K) (dt : K) : Fin p → Cx K :=
  fun i => Cx.exp L.exp L.cos L.sin (Cx.scale dt (roots i))

/-- Update `PredictionVar_ = (rho_ * rho_.t()) % (PredictionVar_ - StateVar_) + StateVar_`. -/
def propagate (rho : Fin p → Cx K) (PV SV : Fin p → Fin p → Cx K) : Fin p → Fin p → Cx K :=
  fun i j => (rho i * Cx.conj (rho j)) * (PV i j - SV i j) + SV i j

/-- The matrix `EigenMat` of `KalmanFilterp::Reset` once its rows are
assigned: row 0 is ones, row 1 the roots, row `i ≥ 2` their `i`-th powers. -/
def EigenMat (ar_roots : Fin p → Cx K) : Fin p → Fin p → Cx K := fun i j =>
  if i.val = 0 then 1 else if i.val = 1 then ar_roots j else Cx.pow (ar_roots j) i.val

/-- The vector `Rvector` of `KalmanFilterp::Reset`: zeros, and 1 at `p_-1`. -/
def Rvector : Fin p → Cx K := fun i => if i.val = p - 1 then 1 else 0

/-- The product `ma_coefs_ * EigenMat` of a real row and a complex matrix. -/
def rotate (ma_coefs : Fin p → K) (E : Fin p → Fin p → Cx K) : Fin p → Cx K :=
  fun j => ∑ i, Cx.scale (ma_coefs i) (E i j)

/-- The stationary covariance of `KalmanFilterp::Reset` (lines 165 to 172):
the loop assigns the upper triangle of `StateVar_`, and `arma::symmatu`
reflects it to the lower one, conjugating or not. -/
def stationary (sigsqr : K) (Jvector ar_roots : Fin p → Cx K)
    (StateVar : Fin p → Fin p → Cx K) (do_conj : Bool) : Fin p → Fin p → Cx K :=
  let upper : Fin p → Fin p → Cx K := fun i j =>
    if i ≤ j then
      Cx.scale (-sigsqr) (Jvector i) * Cx.conj (Jvector j) / (ar_roots i + Cx.conj (ar_roots j))
    else StateVar i j
  fun i j =>
    if i ≤ j then upper i j
    else if do_conj then Cx.conj (upper j i) else upper j i

/-- `KalmanFilterp::Reset`.  The rows 0 and 1 of the `p_` by `p_` matrix
`EigenMat` are assigned without a test on `p_`: for `p_ < 2` the access
`EigenMat.row(1)` is outside the matrix. -/
def KalmanFilterp.Reset (L : Lib K) (s : KalmanFilterp K p) : Option (KalmanFilterp K p) :=
  if 0 < p then
    if 1 < p then do
      let Jvector := L.solve p (EigenMat s.ar_roots_) Rvector
      let rotated_ma_coefs := rotate s.ma_coefs_ (EigenMat s.ar_roots_)
      let StateVar := stationary s.sigsqr_ Jvector s.ar_roots_ s.StateVar_ L.symmatu_conj
      let mean ← wr s.mean_ 0 0
      let var ← wr s.var_ 0 (quad rotated_ma_coefs StateVar).re
      let v0 ← rd var 0
      let e0 ← rd s.yerr_ 0
      let var ← wr var 0 (v0 + e0 * e0)
      let y0 ← rd s.y_ 0
      pure { s with
        rotated_ma_coefs_ := rotated_ma_coefs
        StateVar_ := StateVar
        PredictionVar_ := StateVar
        state_vector_ := fun _ => 0
        mean_ := mean
        var_ := var
        innovation_ := y0
        current_index_ := 1 }
    else none
  else none

/-- `KalmanFilterp::Update`. -/
def KalmanFilterp.Update (L : Lib K) (s : KalmanFilterp K p) : Option (KalmanFilterp K p) := do
  let c := s.current_index_
  let c1 ← decr c
  let vprev ← rd s.var_ c1
  let kalman_gain := gain s.PredictionVar_ s.rotated_ma_coefs_ vprev
  let state_vector : Fin p → Cx K := fun i => s.state_vector_ i + Cx.scale s.innovation_ (kalman_gain i)
  let PredictionVar := shrink s.PredictionVar_ kalman_gain vprev
  let dt ← rd s.dt_ c1
  let rho := decay L s.ar_roots_ dt
  let state_vector : Fin p → Cx K := fun i => rho i * state_vector i
  let state_vector : Fin p → Cx K := fun i => state_vector i * rho i
  let PredictionVar := propagate rho PredictionVar s.StateVar_
  let mean ← wr s.mean_ c (dot s.rotated_ma_coefs_ state_vector).re
  let var ← wr s.var_ c (quad s.rotated_ma_coefs_ PredictionVar).re
  let vc ← rd var c
  let ec ← rd s.yerr_ c
  let var ← wr var c (vc + ec * ec)
  let yc ← rd s.y_ c
  let mc ← rd mean c
  pure { s with
    kalman_gain_ := kalman_gain
    state_vector_ := state_vector
    PredictionVar_ := PredictionVar
    rho_ := rho
    mean_ := mean
    var_ := var
    innovation_ := yc - mc
    current_index_ := c + 1 }

/-- The scan at the start of `KalmanFilterp::Predict`, entered with the
counter `ipredict`: the first index whose time is not below `time`, or the
length of `time_`. -/
def KalmanFilterp.Predict.scan (time_ : List K) (time : K) (ipredict : Nat) : Option Nat :=
  if h : ipredict < time_.length then
    if time > time_[ipredict] then
      if ipredict + 1 = time_.length then some (ipredict + 1)
      else KalmanFilterp.Predict.scan time_ time (ipredict + 1)
    else some ipredict
  else none
termination_by time_.length - ipredict

/-- `KalmanFilterp::InitializeCoefs`. -/
def KalmanFilterp.InitializeCoefs (L : Lib K) (s : KalmanFilterp K p)
    (time : K) (itime : Nat) (ymean yvar : K) : Option (KalmanFilterp K p) := do
  let kalman_gain := gain s.PredictionVar_ s.rotated_ma_coefs_ yvar
  let state_const : Fin p → Cx K := fun i => s.state_vector_ i - Cx.scale ymean (kalman_gain i)
  let state_slope := kalman_gain
  let PredictionVar := shrink s.PredictionVar_ kalman_gain yvar
  let ti ← rd s.time_ itime
  let dt := ti - time
  let rho := decay L s.ar_roots_ dt
  let state_const : Fin p → Cx K := fun i => rho i * state_const i
  let state_slope : Fin p → Cx K := fun i => rho i * state_slope i
  let PredictionVar := propagate rho PredictionVar s.StateVar_
  let var ← wr s.var_ itime (quad s.rotated_ma_coefs_ PredictionVar).re
  pure { s with
    kalman_gain_ := kalman_gain
    state_const_ := state_const
    state_slope_ := state_slope
    PredictionVar_ := PredictionVar
    rho_ := rho
    yconst_ := (dot s.rotated_ma_coefs_ state_const).re
    yslope_ := (dot s.rotated_ma_coefs_ state_slope).re
    var_ := var
    current_index_ := itime + 1 }

/-- `KalmanFilterp::UpdateCoefs`. -/
def KalmanFilterp.UpdateCoefs (L : Lib K) (s : KalmanFilterp K p) : Option (KalmanFilterp K p) := do
  let c := s.current_index_
  let c1 ← decr c
  let vprev ← rd s.var_ c1
  let kalman_gain := gain s.PredictionVar_ s.rotated_ma_coefs_ vprev
  let yprev ← rd s.y_ c1
  let state_const : Fin p → Cx K := fun i =>
    s.state_const_ i + Cx.scale (yprev - s.yconst_) (kalman_gain i)
  let state_slope : Fin p → Cx K := fun i =>
    s.state_slope_ i - Cx.scale s.yslope_ (kalman_gain i)
  let PredictionVar := shrink s.PredictionVar_ kalman_gain vprev
  let dt ← rd s.dt_ c1
  let rho := decay L s.ar_roots_ dt
  let state_const : Fin p → Cx K := fun i => rho i * state_const i
  let state_slope : Fin p → Cx K := fun i => rho i * state_slope i
  let PredictionVar := propagate rho PredictionVar s.StateVar_
  let var ← wr s.var_ c (quad s.rotated_ma_coefs_ PredictionVar).re
  pure { s with
    kalman_gain_ := kalman_gain
    state_const_ := state_const
    state_slope_ := state_slope
    PredictionVar_ := PredictionVar
    rho_ := rho
    yconst_ := (dot s.rotated_ma_coefs_ state_const).re
    yslope_ := (dot s.rotated_ma_coefs_ state_slope).re
    var_ := var
    current_index_ := c + 1 }

/-- Lines 231 to 257 of `KalmanFilterp::Predict`: run the filter up to
`time_[ipredict-1]` and predict at `time` from the earlier values only.  The
result is the filter, `ypredict_mean` and `ypredict_var`. -/
def KalmanFilterp.Predict.oneSided (L : Lib K) (s : KalmanFilterp K p) (time : K)
    (ipredict : Nat) : Option (KalmanFilterp K p × K × K) := do
  let s ← KalmanFilterp.Reset L s
  let s ← iterM (KalmanFilterp.Update L) (ipredict - 1) s
  if ipredict = 0 then
    pure (s, 0, (quad s.rotated_ma_coefs_ s.StateVar_).re)
  else do
    let vprev ← rd s.var_ (ipredict - 1)
    let kalman_gain := gain s.PredictionVar_ s.rotated_ma_coefs_ vprev
    let state_vector : Fin p → Cx K := fun i =>
      s.state_vector_ i + Cx.scale s.innovation_ (kalman_gain i)
    let PredictionVar := shrink s.PredictionVar_ kalman_gain vprev
    let tprev ← rd s.time_ (ipredict - 1)
    let dt := time - tprev
    let rho := decay L s.ar_roots_ dt
    let state_vector : Fin p → Cx K := fun i => rho i * state_vector i
    let state_vector : Fin p → Cx K := fun i => state_vector i * rho i
    let PredictionVar := propagate rho PredictionVar s.StateVar_
    pure ({ s with
            kalman_gain_ := kalman_gain
            state_vector_ := state_vector
            PredictionVar_ := PredictionVar
            rho_ := rho },
          (dot s.rotated_ma_coefs_ state_vector).re,
          (quad s.rotated_ma_coefs_ PredictionVar).re)

/-- The two accumulating statements of `KalmanFilterp::Predict` (lines 273,
274 and again 278, 279) on the filter, `yprecision` and `ypredict_mean`. -/
def KalmanFilterp.Predict.fold (ipredict : Nat) (a : KalmanFilterp K p × K × K) :
    Option (KalmanFilterp K p × K × K) := do
  let v ← rd a.1.var_ ipredict
  let y ← rd a.1.y_ ipredict
  pure (a.1, a.2.1 + a.1.yslope_ * a.1.yslope_ / v,
        a.2.2 + a.1.yslope_ * (y - a.1.yconst_) / v)

/-- Body of the loop over the later observations in `KalmanFilterp::Predict`
(lines 277 to 279). -/
def KalmanFilterp.Predict.step (L : Lib K) (ipredict : Nat) (a : KalmanFilterp K p × K × K) :
    Option (KalmanFilterp K p × K × K) := do
  let s ← KalmanFilterp.UpdateCoefs L a.1
  KalmanFilterp.Predict.fold ipredict (s, a.2.1, a.2.2)

/-- Lines 265 to 286 of `KalmanFilterp::Predict`, entered with the filter,
`ypredict_mean` and `ypredict_var` of the one-sided prediction: the later
observations are folded into the running precision and mean. -/
def KalmanFilterp.Predict.merge (L : Lib K) (time : K) (ipredict : Nat)
    (b : KalmanFilterp K p × K × K) : Option (KalmanFilterp K p × K × K) := do
  let yprecision := 1 / b.2.2
  let s ← KalmanFilterp.InitializeCoefs L b.1 time ipredict b.2.1 b.2.2
  let a ← KalmanFilterp.Predict.fold ipredict (s, yprecision, b.2.1)
  let a ← iterM (KalmanFilterp.Predict.step L ipredict) (s.time_.length - (ipredict + 1)) a
  let ypredict_var := 1 / a.2.1
  let ypredict_mean := a.2.2 * ypredict_var
  pure (a.1, ypredict_mean, ypredict_var)

/-- `KalmanFilterp::Predict`: the filter after the call and the pair of the
predicted mean and variance. -/
def KalmanFilterp.Predict (L : Lib K) (s : KalmanFilterp K p) (time : K) :
    Option (KalmanFilterp K p × K × K) := do
  let ipredict ← KalmanFilterp.Predict.scan s.time_ time 0
  let b ← KalmanFilterp.Predict.oneSided L s time ipredict
  if ipredict = b.1.time_.length then
    pure b
  else
    KalmanFilterp.Predict.merge L time ipredict b

/-! ## Simulation with the general-order filter -/

/-- Library functions that `KalmanFilterp::Simulate` calls besides those of
`Lib`: the real `sqrt`, `arma::sort`, the member `insert_rows` of `arma::vec`
called with a row number and a `double` (`none` stands for its exception), and
the sampler `RandGen.normal(mean, sigma)`, which reads and advances the state
`G` of the generator. -/
structure SimLib (K G : Type) where
  sqrt : K → K
  sort : List K → List K
  insert_rows : List K → Nat → K → Option (List K)
  normal : G → K → K → K × G

/-- The scan `while (time_(insert_idx) < time(i)) { insert_idx++; }` of
`KalmanFilterp::Simulate`, entered with the value of `insert_idx`; `none` when
`time_(insert_idx)` is read outside the bounds. -/
def KalmanFilterp.Simulate.scan (time_ : List K) (t : K) (insert_idx : Nat) : Option Nat :=
  if h : insert_idx < time_.length then
    if time_[insert_idx] < t then
      KalmanFilterp.Simulate.scan time_ t (insert_idx + 1)
    else some insert_idx
  else none
termination_by time_.length - insert_idx

/-- One pass of the loop of `KalmanFilterp::Simulate` for the index `i` of the
sorted query times `time`, on the filter, the vector `ysimulated`, the counter
`insert_idx` and the state of the generator. -/
def KalmanFilterp.Simulate.step {G : Type} (L : Lib K) (S : SimLib K G) (time : List K)
    (a : KalmanFilterp K p × List K × Nat × G) (i : Nat) :
    Option (KalmanFilterp K p × List K × Nat × G) := do
  let ti ← rd time i
  let r ← KalmanFilterp.Predict L a.1 ti
  let d := S.normal a.2.2.2 r.2.1 (S.sqrt r.2.2)
  let ysimulated ← wr a.2.1 i d.1
  let insert_idx ← KalmanFilterp.Simulate.scan r.1.time_ ti a.2.2.1
  let time_ ← S.insert_rows r.1.time_ insert_idx ti
  let yi ← rd ysimulated i
  let y_ ← S.insert_rows r.1.y_ insert_idx yi
  let yerr_ ← S.insert_rows r.1.yerr_ insert_idx 0
  pure ({ r.1 with time_ := time_, y_ := y_, yerr_ := yerr_ }, ysimulated, insert_idx, d.2)

/-- `KalmanFilterp::Simulate`: the filter after the call, the vector
`ysimulated` and the state of the generator.  The entries of `ysimulated`,
which the code leaves uninitialised, start at 0. -/
def KalmanFilterp.Simulate {G : Type} (L : Lib K) (S : SimLib K G) (s : KalmanFilterp K p)
    (time : List K) (g : G) : Option (KalmanFilterp K p × List K × G) := do
  let time0 := s.time_
  let y0 := s.y_
  let yerr0 := s.yerr_
  let ysimulated := time.map (fun _ => (0 : K))
  let time := S.sort time
  let a ← (List.range time.length).foldlM (KalmanFilterp.Simulate.step L S time)
    (s, ysimulated, 0, g)
  pure ({ a.1 with time_ := time0, y_ := y0, yerr_ := yerr0 }, a.2.1, a.2.2.2)

/-! ## A library instance and sample inputs -/

/-- The filter with the observation of index `j` replaced by `u`. -/
def KalmanFilterp.setY (s : KalmanFilterp K p) (j : Nat) (u : K) : KalmanFilterp K p :=
  { s with y_ := s.y_.set j u }

/-- Determinant by expansion along the first row. -/
def det : (n : Nat) → (Fin n → Fin n → Cx K) → Cx K
  | 0, _ => 1
  | n + 1, M => ∑ j : Fin (n + 1),
      (if j.val % 2 = 0 then M 0 j else -(M 0 j)) * det n (fun a b => M a.succ (j.succAbove b))

/-- Solution of the linear system `E x = R` by the rule of Cramer. -/
def cramer (n : Nat) (E : Fin n → Fin n → Cx K) (R : Fin n → Cx K) : Fin n → Cx K :=
  fun i => det n (fun a b => if b = i then R a else E a b) / det n E

/-- A library whose solver is the rule of Cramer and whose `symmatu` does not
conjugate. -/
def cramerLib (exp cos sin : K → K) (pi : K) : Lib K :=
  { exp := exp, cos := cos, sin := sin, pi := pi, solve := cramer, symmatu_conj := false }

/-- A library for `Simulate`: the sort by insertion, an `insert_rows` that
inserts the value as one new row, and a sampler without state that returns
the mean. -/
def sampleSim (sqrt : K → K) : SimLib K Unit :=
  { sqrt := sqrt
    sort := fun l => l.insertionSort (fun a b => a ≤ b)
    insert_rows := fun v i x => some (v.insertIdx i x)
    normal := fun g m _ => (m, g) }

/-- A series of three points for the order-1 filter; the entries of `mean_`
and `var_` are marked with 7. -/
def sample1 (K : Type) [LinearOrderedField K] : KalmanFilter1 K :=
  { sigsqr_ := 2, omega_ := 1, time_ := [0, 1, 2], y_ := [1, 2, 3], yerr_ := [0, 0, 0],
    dt_ := [1, 1], mean_ := [7, 7, 7], var_ := [7, 7, 7], current_index_ := 0 }

/-- A freshly built filter of order 2 with the real roots -1 and -2, pure
autoregressive (`ma_coefs_ = (1, 0)`), `sigsqr_ = 12`, over the series `time`,
`y` without measurement errors. -/
def sample2 (K : Type) [LinearOrderedField K] (time y : List K) : KalmanFilterp K 2 :=
  { sigsqr_ := 12
    ar_roots_ := fun i => if i.val = 0 then ⟨-1, 0⟩ else ⟨-2, 0⟩
    ma_coefs_ := fun i => if i.val = 0 then 1 else 0
    time_ := time
    y_ := y
    yerr_ := time.map (fun _ => 0)
    dt_ := List.zipWith (fun a b => b - a) time time.tail
    mean_ := time.map (fun _ => 0)
    var_ := time.map (fun _ => 0)
    current_index_ := 0
    state_vector_ := fun _ => 0
    StateVar_ := fun _ _ => 0
    PredictionVar_ := fun _ _ => 0
    kalman_gain_ := fun _ => 0
    rho_ := fun _ => 0
    rotated_ma_coefs_ := fun _ => 0
    innovation_ := 0
    state_const_ := fun _ => 0
    state_slope_ := fun _ => 0
    yconst_ := 0
    yslope_ := 0 }

/-- A freshly built filter of order 2 with the real roots -1 and -2 and
`ma_coefs_ = (2, 1)`, `sigsqr_ = 2`, over the series `time`, `y` without
measurement errors. -/
def sample3 (K : Type) [LinearOrderedField K] (time y : List K) : KalmanFilterp K 2 :=
  { sample2 K time y with
    sigsqr_ := 2
    ma_coefs_ := fun i => if i.val = 0 then 2 else 1 }

end

/-! ## Lemmas -/

section
variable {K : Type} [LinearOrderedField K]

theorem rd_eq_some {α : Type} {v : List α} {i : Nat} {x : α} :
    rd v i = some x ↔ ∃ h : i < v.length, v[i] = x := by
  simp [rd, List.getElem?_eq_some]

theorem wr_eq_some {α : Type} {v w : List α} {i : Nat} {x : α} :
    wr v i x = some w ↔ i < v.length ∧ w = v.set i x := by
  unfold wr
  split <;> simp_all [eq_comm]

theorem decr_eq_some {c d : Nat} : decr c = some d ↔ c ≠ 0 ∧ d = c - 1 := by
  unfold decr
  split <;> simp_all [eq_comm]

theorem iterM_succ_last {α : Type} (f : α → Option α) (n : Nat) (a : α) :
    iterM f (n + 1) a = (iterM f n a).bind f := by
  induction n generalizing a with
  | zero => simp [iterM]
  | succ n ih =>
    rw [iterM]
    cases h : f a with
    | none => simp [iterM, h]
    | some b => simp only [Option.some_bind]; rw [ih b]; simp [iterM, h]

theorem iterM_inv {α : Type} (f : α → Option α) (P : α → Prop)
    (hP : ∀ a b, P a → f a = some b → P b) :
    ∀ (n : Nat) (a b : α), P a → iterM f n a = some b → P b := by
  intro n
  induction n with
  | zero => intro a b ha h; simp [iterM] at h; subst h; exact ha
  | succ n ih =>
    intro a b ha h
    rw [iterM] at h
    cases hfa : f a with
    | none => simp [hfa] at h
    | some c => rw [hfa] at h; exact ih c b (hP a c ha hfa) h

theorem KalmanFilter1.Reset_eq_some {s s0 : KalmanFilter1 K} (h : s.Reset = some s0) :
    ∃ (_ : 0 < s.mean_.length) (_ : 0 < s.yerr_.length) (_ : 0 < s.var_.length),
      s0 = { s with
        mean_ := s.mean_.set 0 0
        var_ := s.var_.set 0 (s.sigsqr_ / (2 * s.omega_) + s.yerr_[0] * s.yerr_[0])
        current_index_ := 1 } := by
  simp only [KalmanFilter1.Reset, Option.bind_eq_bind, Option.bind_eq_some, Option.pure_def,
    rd_eq_some, wr_eq_some, Option.some.injEq] at h
  obtain ⟨mean, ⟨hm, rfl⟩, e0, ⟨he, rfl⟩, var, ⟨hv, rfl⟩, rfl⟩ := h
  exact ⟨hm, he, hv, rfl⟩

theorem KalmanFilter1.Reset1_of_bounds (s : KalmanFilter1 K)
    (hm : 0 < s.mean_.length) (he : 0 < s.yerr_.length) (hv : 0 < s.var_.length) :
    s.Reset = some { s with
        mean_ := s.mean_.set 0 0
        var_ := s.var_.set 0 (s.sigsqr_ / (2 * s.omega_) + s.yerr_[0] * s.yerr_[0])
        current_index_ := 1 } := by
  simp [KalmanFilter1.Reset, rd, wr, hm, hv, List.getElem?_eq_getElem he]

theorem KalmanFilter1.Update1_of_bounds (exp : K → K) (s : KalmanFilter1 K)
    (hc : s.current_index_ ≠ 0) (hdt : s.current_index_ - 1 < s.dt_.length)
    (hm' : s.current_index_ < s.mean_.length) (hv' : s.current_index_ < s.var_.length)
    (he' : s.current_index_ < s.yerr_.length) (hy : s.current_index_ - 1 < s.y_.length) :
    KalmanFilter1.Update exp s = some { s with
        mean_ := s.mean_.set s.current_index_
          (exp (-1 * s.omega_ * s.dt_[s.current_index_ - 1]) * s.mean_[s.current_index_ - 1] +
            exp (-1 * s.omega_ * s.dt_[s.current_index_ - 1]) *
              ((s.var_[s.current_index_ - 1]
                  - s.yerr_[s.current_index_ - 1] * s.yerr_[s.current_index_ - 1])
                / s.var_[s.current_index_ - 1]) *
              (s.y_[s.current_index_ - 1] - s.mean_[s.current_index_ - 1]))
        var_ := s.var_.set s.current_index_
          (s.sigsqr_ / (2 * s.omega_) *
              (1 - exp (-1 * s.omega_ * s.dt_[s.current_index_ - 1]) *
                exp (-1 * s.omega_ * s.dt_[s.current_index_ - 1])) +
            exp (-1 * s.omega_ * s.dt_[s.current_index_ - 1]) *
              exp (-1 * s.omega_ * s.dt_[s.current_index_ - 1]) *
              (s.var_[s.current_index_ - 1]
                - s.yerr_[s.current_index_ - 1] * s.yerr_[s.current_index_ - 1]) *
              (1 - (s.var_[s.current_index_ - 1]
                  - s.yerr_[s.current_index_ - 1] * s.yerr_[s.current_index_ - 1])
                / s.var_[s.current_index_ - 1]) +
            s.yerr_[s.current_index_] * s.yerr_[s.current_index_]) } := by
  have h1 : s.current_index_ - 1 < s.var_.length := by omega
  have h2 : s.current_index_ - 1 < s.yerr_.length := by omega
  have h3 : s.current_index_ - 1 < s.mean_.length := by omega
  simp [KalmanFilter1.Update, rd, wr, decr, hc, hm', hv', List.getElem?_eq_getElem hdt,
    List.getElem?_eq_getElem h1, List.getElem?_eq_getElem h2, List.getElem?_eq_getElem h3,
    List.getElem?_eq_getElem hy, List.getElem?_eq_getElem he']

theorem KalmanFilter1.Update1_bounds {exp : K → K} {s s' : KalmanFilter1 K}
    (h : KalmanFilter1.Update exp s = some s') :
    s.current_index_ ≠ 0 ∧ s.current_index_ - 1 < s.dt_.length ∧
      s.current_index_ < s.mean_.length ∧ s.current_index_ < s.var_.length ∧
      s.current_index_ < s.yerr_.length ∧ s.current_index_ - 1 < s.y_.length := by
  simp only [KalmanFilter1.Update, Option.bind_eq_bind, Option.bind_eq_some, Option.pure_def,
    rd_eq_some, wr_eq_some, decr_eq_some, Option.some.injEq] at h
  obtain ⟨c1, ⟨hc, rfl⟩, dt, ⟨hdt, rfl⟩, v, ⟨hv, rfl⟩, e, ⟨he, rfl⟩, m, ⟨hm, rfl⟩, y, ⟨hy, rfl⟩,
    mean, ⟨hm', rfl⟩, var, ⟨hv', rfl⟩, ec, ⟨he', rfl⟩, vc, ⟨hvc, rfl⟩, var2, ⟨hv2, rfl⟩, rfl⟩ := h
  exact ⟨hc, hdt, hm', hv', he', hy⟩


end

theorem KalmanFilter1.Update1_frame {K : Type} [LinearOrderedField K] {exp : K → K}
    {s s' : KalmanFilter1 K} (h : KalmanFilter1.Update exp s = some s') :
    s'.current_index_ = s.current_index_ ∧ s'.sigsqr_ = s.sigsqr_ ∧ s'.omega_ = s.omega_ ∧
      s'.dt_ = s.dt_ ∧ s'.yerr_ = s.yerr_ ∧ s'.y_ = s.y_ ∧ s'.time_ = s.time_ ∧
      s'.mean_.length = s.mean_.length ∧ s'.var_.length = s.var_.length ∧
      (∀ j, j ≠ s.current_index_ → s'.var_[j]? = s.var_[j]?) ∧
      (∀ j, j ≠ s.current_index_ → s'.mean_[j]? = s.mean_[j]?) := by
  obtain ⟨hc, hdt, hm', hv', he', hy⟩ := KalmanFilter1.Update1_bounds h
  rw [KalmanFilter1.Update1_of_bounds exp s hc hdt hm' hv' he' hy] at h
  simp only [Option.some.injEq] at h
  subst h
  refine ⟨rfl, rfl, rfl, rfl, rfl, rfl, rfl, by simp, by simp, ?_, ?_⟩
  · intro j hj; simp [List.getElem?_set, Ne.symm hj]
  · intro j hj; simp [List.getElem?_set, Ne.symm hj]

/-- `Reset` followed by any number of `Update`s returns when the series has at
least two points. -/
theorem KalmanFilter1.run_isSome {K : Type} [LinearOrderedField K] (exp : K → K)
    (s : KalmanFilter1 K)
    (hm : 1 < s.mean_.length) (hv : 1 < s.var_.length) (he : 1 < s.yerr_.length)
    (hd : 0 < s.dt_.length) (hy : 0 < s.y_.length) :
    ∀ k : Nat, ∃ sk, s.Reset.bind (iterM (KalmanFilter1.Update exp) k) = some sk ∧
      sk.current_index_ = 1 ∧ 1 < sk.mean_.length ∧ 1 < sk.var_.length ∧ 1 < sk.yerr_.length ∧
      0 < sk.dt_.length ∧ 0 < sk.y_.length := by
  intro k
  induction k with
  | zero =>
    rw [KalmanFilter1.Reset1_of_bounds s (by omega) (by omega) (by omega)]
    exact ⟨_, rfl, rfl, by simpa using hm, by simpa using hv, he, hd, hy⟩
  | succ k ih =>
    obtain ⟨sk, h1, h2, h3, h4, h5, h6, h7⟩ := ih
    obtain ⟨t, hU⟩ : ∃ t, KalmanFilter1.Update exp sk = some t :=
      ⟨_, KalmanFilter1.Update1_of_bounds exp sk (by omega) (by omega) (by omega)
        (by omega) (by omega) (by omega)⟩
    obtain ⟨f1, -, -, f4, f5, f6, -, f8, f9, -, -⟩ := KalmanFilter1.Update1_frame hU
    refine ⟨t, ?_, by omega, by omega, by omega, by rw [f5]; exact h5, by rw [f4]; exact h6,
      by rw [f6]; exact h7⟩
    rw [Option.bind_eq_some] at h1 ⊢
    obtain ⟨s0, e0, e1⟩ := h1
    exact ⟨s0, e0, by rw [iterM_succ_last, e1]; exact hU⟩

theorem scan_spec {K : Type} [LinearOrderedField K] (time_ : List K) (t : K) :
    ∀ (m i : Nat), time_.length - i = m → i < time_.length →
      (∀ j (h : j < time_.length), j < i → time_[j] < t) →
      ∃ ip, KalmanFilterp.Predict.scan time_ t i = some ip ∧ i ≤ ip ∧ ip ≤ time_.length ∧
        (∀ j (h : j < time_.length), j < ip → time_[j] < t) ∧
        (∀ h : ip < time_.length, t ≤ time_[ip]) := by
  intro m
  induction m with
  | zero => intro i hm hi; omega
  | succ m ih =>
    intro i hm hi hlt
    rw [KalmanFilterp.Predict.scan, dif_pos hi]
    by_cases hgt : t > time_[i]
    · rw [if_pos hgt]
      have hlt2 : ∀ j (h : j < time_.length), j < i + 1 → time_[j] < t := by
        intro j h hj
        rcases Nat.lt_succ_iff_lt_or_eq.mp hj with h1 | h1
        · exact hlt j h h1
        · subst h1; exact hgt
      by_cases hend : i + 1 = time_.length
      · rw [if_pos hend]
        exact ⟨i + 1, rfl, by omega, by omega, hlt2, fun h => by omega⟩
      · rw [if_neg hend]
        obtain ⟨ip, h1, h2, h3, h4, h5⟩ := ih (i + 1) (by omega) (by omega) hlt2
        exact ⟨ip, h1, by omega, h3, h4, h5⟩
    · rw [if_neg hgt]
      exact ⟨i, rfl, le_refl _, by omega, hlt, fun _ => not_lt.mp hgt⟩

theorem countP_lt_of_bracket {K : Type} [LinearOrderedField K] (time_ : List K) (t : K) (ip : Nat)
    (hs : time_.Pairwise (fun a b => a < b)) (hip : ip ≤ time_.length)
    (h4 : ∀ j (h : j < time_.length), j < ip → time_[j] < t)
    (h5 : ∀ h : ip < time_.length, t ≤ time_[ip]) :
    time_.countP (fun x => decide (x < t)) = ip := by
  conv_lhs => rw [← List.take_append_drop ip time_]
  rw [List.countP_append]
  have e1 : (time_.take ip).countP (fun x => decide (x < t)) = ip := by
    rw [List.countP_eq_length.mpr]
    · simp [hip]
    · intro a ha
      obtain ⟨j, hj, rfl⟩ := List.getElem_of_mem ha
      simp only [List.length_take] at hj
      rw [List.getElem_take]
      simpa using h4 j (by omega) (by omega)
  have e2 : (time_.drop ip).countP (fun x => decide (x < t)) = 0 := by
    rw [List.countP_eq_zero]
    intro a ha
    obtain ⟨j, hj, rfl⟩ := List.getElem_of_mem ha
    simp only [List.length_drop] at hj
    rw [List.getElem_drop]
    have hb : t ≤ time_[ip] := h5 (by omega)
    have hc : time_[ip] ≤ time_[ip + j] := by
      rcases Nat.eq_zero_or_pos j with h0 | h0
      · subst h0; simp
      · exact le_of_lt (List.pairwise_iff_getElem.mp hs ip (ip + j) (by omega) (by omega) (by omega))
    simpa using le_trans hb hc
  omega

section
variable {K : Type} [LinearOrderedField K] {p : Nat}

theorem KalmanFilterp.Reset_of_bounds (L : Lib K) (s : KalmanFilterp K p) (hp : 1 < p)
    (hm : 0 < s.mean_.length) (hv : 0 < s.var_.length) (he : 0 < s.yerr_.length)
    (hy : 0 < s.y_.length) :
    KalmanFilterp.Reset L s = some { s with
      rotated_ma_coefs_ := rotate s.ma_coefs_ (EigenMat s.ar_roots_)
      StateVar_ := stationary s.sigsqr_ (L.solve p (EigenMat s.ar_roots_) Rvector) s.ar_roots_
        s.StateVar_ L.symmatu_conj
      PredictionVar_ := stationary s.sigsqr_ (L.solve p (EigenMat s.ar_roots_) Rvector)
        s.ar_roots_ s.StateVar_ L.symmatu_conj
      state_vector_ := fun _ => 0
      mean_ := s.mean_.set 0 0
      var_ := s.var_.set 0
        ((quad (rotate s.ma_coefs_ (EigenMat s.ar_roots_))
          (stationary s.sigsqr_ (L.solve p (EigenMat s.ar_roots_) Rvector) s.ar_roots_
            s.StateVar_ L.symmatu_conj)).re + s.yerr_[0] * s.yerr_[0])
      innovation_ := s.y_[0]
      current_index_ := 1 } := by
  have hp0 : 0 < p := by omega
  simp [KalmanFilterp.Reset, rd, wr, hp, hp0, hm, hv, List.getElem?_eq_getElem he,
    List.getElem?_eq_getElem hy]

theorem KalmanFilterp.Reset_bounds {L : Lib K} {s s' : KalmanFilterp K p}
    (h : KalmanFilterp.Reset L s = some s') :
    1 < p ∧ 0 < s.mean_.length ∧ 0 < s.var_.length ∧ 0 < s.yerr_.length ∧ 0 < s.y_.length := by
  unfold KalmanFilterp.Reset at h
  split at h
  · split at h
    · rename_i h1
      simp only [Option.bind_eq_bind, Option.bind_eq_some, Option.pure_def,
        rd_eq_some, wr_eq_some, Option.some.injEq] at h
      obtain ⟨mean, ⟨hm, rfl⟩, var, ⟨hv, rfl⟩, v0, ⟨hv0, rfl⟩, e0, ⟨he, rfl⟩, var2, ⟨-, rfl⟩,
        y0, ⟨hy, rfl⟩, rfl⟩ := h
      exact ⟨h1, hm, hv, he, hy⟩
    · exact absurd h (by simp)
  · exact absurd h (by simp)

theorem KalmanFilterp.Update_of_bounds (L : Lib K) (s : KalmanFilterp K p)
    (hc : s.current_index_ ≠ 0) (hdt : s.current_index_ - 1 < s.dt_.length)
    (hm : s.current_index_ < s.mean_.length) (hv : s.current_index_ < s.var_.length)
    (he : s.current_index_ < s.yerr_.length) (hy : s.current_index_ < s.y_.length) :
    KalmanFilterp.Update L s = some { s with
      kalman_gain_ := gain s.PredictionVar_ s.rotated_ma_coefs_ s.var_[s.current_index_ - 1]
      state_vector_ := fun i =>
        decay L s.ar_roots_ s.dt_[s.current_index_ - 1] i *
          (s.state_vector_ i + Cx.scale s.innovation_
            (gain s.PredictionVar_ s.rotated_ma_coefs_ s.var_[s.current_index_ - 1] i)) *
          decay L s.ar_roots_ s.dt_[s.current_index_ - 1] i
      PredictionVar_ := propagate (decay L s.ar_roots_ s.dt_[s.current_index_ - 1])
        (shrink s.PredictionVar_
          (gain s.PredictionVar_ s.rotated_ma_coefs_ s.var_[s.current_index_ - 1])
          s.var_[s.current_index_ - 1]) s.StateVar_
      rho_ := decay L s.ar_roots_ s.dt_[s.current_index_ - 1]
      mean_ := s.mean_.set s.current_index_
        (dot s.rotated_ma_coefs_ (fun i =>
          decay L s.ar_roots_ s.dt_[s.current_index_ - 1] i *
            (s.state_vector_ i + Cx.scale s.innovation_
              (gain s.PredictionVar_ s.rotated_ma_coefs_ s.var_[s.current_index_ - 1] i)) *
            decay L s.ar_roots_ s.dt_[s.current_index_ - 1] i)).re
      var_ := s.var_.set s.current_index_
        ((quad s.rotated_ma_coefs_
          (propagate (decay L s.ar_roots_ s.dt_[s.current_index_ - 1])
            (shrink s.PredictionVar_
              (gain s.PredictionVar_ s.rotated_ma_coefs_ s.var_[s.current_index_ - 1])
              s.var_[s.current_index_ - 1]) s.StateVar_)).re
          + s.yerr_[s.current_index_] * s.yerr_[s.current_index_])
      innovation_ := s.y_[s.current_index_] -
        (dot s.rotated_ma_coefs_ (fun i =>
          decay L s.ar_roots_ s.dt_[s.current_index_ - 1] i *
            (s.state_vector_ i + Cx.scale s.innovation_
              (gain s.PredictionVar_ s.rotated_ma_coefs_ s.var_[s.current_index_ - 1] i)) *
            decay L s.ar_roots_ s.dt_[s.current_index_ - 1] i)).re
      current_index_ := s.current_index_ + 1 } := by
  have h1 : s.current_index_ - 1 < s.var_.length := by omega
  simp [KalmanFilterp.Update, rd, wr, decr, hc, hm, hv, List.getElem?_eq_getElem hdt,
    List.getElem?_eq_getElem h1, List.getElem?_eq_getElem he, List.getElem?_eq_getElem hy]

theorem KalmanFilterp.Update_bounds {L : Lib K} {s s' : KalmanFilterp K p}
    (h : KalmanFilterp.Update L s = some s') :
    s.current_index_ ≠ 0 ∧ s.current_index_ - 1 < s.dt_.length ∧
      s.current_index_ < s.mean_.length ∧ s.current_index_ < s.var_.length ∧
      s.current_index_ < s.yerr_.length ∧ s.current_index_ < s.y_.length := by
  simp only [KalmanFilterp.Update, Option.bind_eq_bind, Option.bind_eq_some, Option.pure_def,
    rd_eq_some, wr_eq_some, decr_eq_some, Option.some.injEq] at h
  obtain ⟨c1, ⟨hc, rfl⟩, v, ⟨hv1, rfl⟩, dt, ⟨hdt, rfl⟩, mean, ⟨hm, rfl⟩, var, ⟨hv, rfl⟩,
    vc, ⟨-, rfl⟩, ec, ⟨he, rfl⟩, var2, ⟨-, rfl⟩, yc, ⟨hy, rfl⟩, mc, ⟨-, rfl⟩, rfl⟩ := h
  exact ⟨hc, hdt, hm, hv, he, hy⟩

theorem stationary_indep (sigsqr : K) (J r : Fin p → Cx K) (A B : Fin p → Fin p → Cx K)
    (c : Bool) : stationary sigsqr J r A c = stationary sigsqr J r B c := by
  funext i j
  unfold stationary
  by_cases h : i ≤ j
  · simp [h]
  · have h' : j ≤ i := le_of_lt (not_le.mp h)
    simp [h, h']

theorem KalmanFilterp.Update_frame {L : Lib K} {s s' : KalmanFilterp K p}
    (h : KalmanFilterp.Update L s = some s') :
    s'.current_index_ = s.current_index_ + 1 ∧ s'.sigsqr_ = s.sigsqr_ ∧
      s'.ar_roots_ = s.ar_roots_ ∧ s'.ma_coefs_ = s.ma_coefs_ ∧
      s'.rotated_ma_coefs_ = s.rotated_ma_coefs_ ∧ s'.StateVar_ = s.StateVar_ ∧
      s'.time_ = s.time_ ∧ s'.y_ = s.y_ ∧ s'.yerr_ = s.yerr_ ∧ s'.dt_ = s.dt_ ∧
      s'.mean_.length = s.mean_.length ∧ s'.var_.length = s.var_.length ∧
      (∀ j, j ≠ s.current_index_ → s'.var_[j]? = s.var_[j]?) ∧
      (∀ j, j ≠ s.current_index_ → s'.mean_[j]? = s.mean_[j]?) := by
  obtain ⟨hc, hdt, hm, hv, he, hy⟩ := KalmanFilterp.Update_bounds h
  rw [KalmanFilterp.Update_of_bounds L s hc hdt hm hv he hy] at h
  simp only [Option.some.injEq] at h
  subst h
  refine ⟨rfl, rfl, rfl, rfl, rfl, rfl, rfl, rfl, rfl, rfl, by simp, by simp, ?_, ?_⟩
  · intro j hj; simp [List.getElem?_set, Ne.symm hj]
  · intro j hj; simp [List.getElem?_set, Ne.symm hj]

/-- Two filters with the same recursion state whose next `Update` reads the
same data take the same step. -/
theorem KalmanFilterp.Update_agree {L : Lib K} {s t s' : KalmanFilterp K p}
    (h : KalmanFilterp.Update L s = some s')
    (e1 : t.ar_roots_ = s.ar_roots_) (e2 : t.rotated_ma_coefs_ = s.rotated_ma_coefs_)
    (e3 : t.StateVar_ = s.StateVar_) (e4 : t.PredictionVar_ = s.PredictionVar_)
    (e5 : t.state_vector_ = s.state_vector_) (e6 : t.innovation_ = s.innovation_)
    (e7 : t.current_index_ = s.current_index_)
    (r1 : t.var_[s.current_index_ - 1]? = s.var_[s.current_index_ - 1]?)
    (r2 : t.dt_[s.current_index_ - 1]? = s.dt_[s.current_index_ - 1]?)
    (r3 : t.yerr_[s.current_index_]? = s.yerr_[s.current_index_]?)
    (r4 : t.y_[s.current_index_]? = s.y_[s.current_index_]?)
    (b1 : s.current_index_ < t.mean_.length) (b2 : s.current_index_ < t.var_.length) :
    ∃ t', KalmanFilterp.Update L t = some t' ∧
      t'.PredictionVar_ = s'.PredictionVar_ ∧ t'.state_vector_ = s'.state_vector_ ∧
      t'.innovation_ = s'.innovation_ ∧
      t'.var_[s.current_index_]? = s'.var_[s.current_index_]? ∧
      t'.mean_[s.current_index_]? = s'.mean_[s.current_index_]? := by
  obtain ⟨hc, hdt, hm, hv, he, hy⟩ := KalmanFilterp.Update_bounds h
  rw [KalmanFilterp.Update_of_bounds L s hc hdt hm hv he hy] at h
  simp only [Option.some.injEq] at h
  subst h
  have hv1 : s.current_index_ - 1 < s.var_.length := by omega
  have hv1' : s.current_index_ - 1 < t.var_.length := by omega
  rw [List.getElem?_eq_getElem hv1, List.getElem?_eq_getElem hv1'] at r1
  rw [List.getElem?_eq_getElem hdt] at r2
  rw [List.getElem?_eq_getElem he] at r3
  rw [List.getElem?_eq_getElem hy] at r4
  obtain ⟨hdt', r2⟩ := List.getElem?_eq_some.mp r2
  obtain ⟨he', r3⟩ := List.getElem?_eq_some.mp r3
  obtain ⟨hy', r4⟩ := List.getElem?_eq_some.mp r4
  simp only [Option.some.injEq] at r1
  refine ⟨_, KalmanFilterp.Update_of_bounds L t (by omega) (by rw [e7]; exact hdt')
    (by omega) (by omega) (by rw [e7]; exact he') (by rw [e7]; exact hy'), ?_⟩
  simp only [e1, e2, e3, e4, e5, e6, e7, r1, r2, r3, r4]
  refine ⟨trivial, trivial, trivial, ?_, ?_⟩
  · rw [List.getElem?_set_self b2, List.getElem?_set_self hv]
  · rw [List.getElem?_set_self b1, List.getElem?_set_self hm]

/-- `Reset` and `k` `Update`s on a series and on the filter over its first `i`
points (`k < i`) return, with the same recursion state. -/
theorem KalmanFilterp.run_agree (L : Lib K) (s t : KalmanFilterp K p) (i : Nat) (hp : 1 < p)
    (hin : i < s.time_.length)
    (hy : s.y_.length = s.time_.length) (hyerr : s.yerr_.length = s.time_.length)
    (hmean : s.mean_.length = s.time_.length) (hvar : s.var_.length = s.time_.length)
    (hdtlen : s.dt_.length = s.time_.length - 1)
    (t1 : t.sigsqr_ = s.sigsqr_) (t2 : t.ar_roots_ = s.ar_roots_) (t3 : t.ma_coefs_ = s.ma_coefs_)
    (t4 : t.y_ = s.y_.take i) (t5 : t.yerr_ = s.yerr_.take i) (t6 : t.dt_ = s.dt_.take (i - 1))
    (t7 : t.mean_.length = i) (t8 : t.var_.length = i) :
    ∀ k, k + 1 ≤ i → ∃ sk tk,
      (KalmanFilterp.Reset L s).bind (iterM (KalmanFilterp.Update L) k) = some sk ∧
      (KalmanFilterp.Reset L t).bind (iterM (KalmanFilterp.Update L) k) = some tk ∧
      sk.current_index_ = k + 1 ∧ tk.current_index_ = k + 1 ∧
      tk.ar_roots_ = sk.ar_roots_ ∧ tk.rotated_ma_coefs_ = sk.rotated_ma_coefs_ ∧
      tk.StateVar_ = sk.StateVar_ ∧ tk.PredictionVar_ = sk.PredictionVar_ ∧
      tk.state_vector_ = sk.state_vector_ ∧ tk.innovation_ = sk.innovation_ ∧
      tk.var_[k]? = sk.var_[k]? ∧
      sk.time_ = s.time_ ∧ sk.y_ = s.y_ ∧ sk.yerr_ = s.yerr_ ∧ sk.dt_ = s.dt_ ∧
      sk.mean_.length = s.mean_.length ∧ sk.var_.length = s.var_.length ∧
      tk.time_ = t.time_ ∧ tk.y_ = t.y_ ∧ tk.yerr_ = t.yerr_ ∧ tk.dt_ = t.dt_ ∧
      tk.mean_.length = t.mean_.length ∧ tk.var_.length = t.var_.length := by
  intro k
  induction k with
  | zero =>
    intro hk
    have hty : 0 < t.y_.length := by rw [t4, List.length_take]; omega
    have hte : 0 < t.yerr_.length := by rw [t5, List.length_take]; omega
    have hs := KalmanFilterp.Reset_of_bounds L s hp (by omega) (by omega) (by omega) (by omega)
    have ht := KalmanFilterp.Reset_of_bounds L t hp (by omega) (by omega) hte hty
    rw [hs, ht]
    simp only [Option.some_bind, iterM]
    refine ⟨_, _, rfl, rfl, ?_⟩
    refine ⟨rfl, rfl, t2, ?_, ?_, ?_, rfl, ?_, ?_,
      rfl, rfl, rfl, rfl, by simp, by simp, rfl, rfl, rfl, rfl, by simp, by simp⟩
    · simp only [t2, t3]
    · simp only [t1, t2]; exact stationary_indep _ _ _ _ _ _
    · simp only [t1, t2]; exact stationary_indep _ _ _ _ _ _
    · simp only [t4]; simp
    · have e1 : t.yerr_[0] = s.yerr_[0] := by simp only [t5]; simp
      simp only [t1, t2, t3, e1]
      rw [List.getElem?_set_self (by omega), List.getElem?_set_self (by omega),
        stationary_indep _ _ _ t.StateVar_ s.StateVar_]
  | succ k ih =>
    intro hk
    obtain ⟨sk, tk, h1, h2, c1, c2, e1, e2, e3, e4, e5, e6, r1, f1, f2, f3, f4, f5, f6,
      g1, g2, g3, g4, g5, g6⟩ := ih (by omega)
    obtain ⟨s', hs'⟩ : ∃ s', KalmanFilterp.Update L sk = some s' :=
      ⟨_, KalmanFilterp.Update_of_bounds L sk (by omega) (by rw [f4]; omega) (by omega)
        (by omega) (by rw [f3]; omega) (by rw [f2]; omega)⟩
    obtain ⟨t', ht', a1, a2, a3, a4, -⟩ := KalmanFilterp.Update_agree hs' e1 e2 e3 e4 e5 e6
      (by omega) (by rw [c1]; exact r1)
      (by rw [c1, g4, f4, t6]; exact List.getElem?_take_of_lt (by omega))
      (by rw [c1, g3, f3, t5]; exact List.getElem?_take_of_lt (by omega))
      (by rw [c1, g2, f2, t4]; exact List.getElem?_take_of_lt (by omega))
      (by omega) (by omega)
    obtain ⟨u1, -, u3, -, u5, u6, u7, u8, u9, u10, u11, u12, -, -⟩ :=
      KalmanFilterp.Update_frame hs'
    obtain ⟨w1, -, w3, -, w5, w6, w7, w8, w9, w10, w11, w12, -, -⟩ :=
      KalmanFilterp.Update_frame ht'
    refine ⟨s', t', ?_, ?_, by omega, by omega, by rw [w3, u3, e1], by rw [w5, u5, e2],
      by rw [w6, u6, e3], a1, a2, a3, by rw [c1] at a4; exact a4,
      by rw [u7, f1], by rw [u8, f2], by rw [u9, f3], by rw [u10, f4], by omega, by omega,
      by rw [w7, g1], by rw [w8, g2], by rw [w9, g3], by rw [w10, g4], by omega, by omega⟩
    · rw [Option.bind_eq_some] at h1 ⊢
      obtain ⟨s0, q0, q1⟩ := h1
      exact ⟨s0, q0, by rw [iterM_succ_last, q1]; exact hs'⟩
    · rw [Option.bind_eq_some] at h2 ⊢
      obtain ⟨s0, q0, q1⟩ := h2
      exact ⟨s0, q0, by rw [iterM_succ_last, q1]; exact ht'⟩


theorem KalmanFilterp.Predict.oneSided_of_run (L : Lib K) (t tk : KalmanFilterp K p) (time : K)
    (ip : Nat) (hip : ip ≠ 0)
    (hrun : (KalmanFilterp.Reset L t).bind (iterM (KalmanFilterp.Update L) (ip - 1)) = some tk)
    (hv : ip - 1 < tk.var_.length) (ht : ip - 1 < tk.time_.length) :
    KalmanFilterp.Predict.oneSided L t time ip = some
      ({ tk with
          kalman_gain_ := gain tk.PredictionVar_ tk.rotated_ma_coefs_ tk.var_[ip - 1]
          state_vector_ := fun i =>
            decay L tk.ar_roots_ (time - tk.time_[ip - 1]) i *
              (tk.state_vector_ i + Cx.scale tk.innovation_
                (gain tk.PredictionVar_ tk.rotated_ma_coefs_ tk.var_[ip - 1] i)) *
              decay L tk.ar_roots_ (time - tk.time_[ip - 1]) i
          PredictionVar_ := propagate (decay L tk.ar_roots_ (time - tk.time_[ip - 1]))
            (shrink tk.PredictionVar_
              (gain tk.PredictionVar_ tk.rotated_ma_coefs_ tk.var_[ip - 1]) tk.var_[ip - 1])
            tk.StateVar_
          rho_ := decay L tk.ar_roots_ (time - tk.time_[ip - 1]) },
        (dot tk.rotated_ma_coefs_ (fun i =>
          decay L tk.ar_roots_ (time - tk.time_[ip - 1]) i *
            (tk.state_vector_ i + Cx.scale tk.innovation_
              (gain tk.PredictionVar_ tk.rotated_ma_coefs_ tk.var_[ip - 1] i)) *
            decay L tk.ar_roots_ (time - tk.time_[ip - 1]) i)).re,
        (quad tk.rotated_ma_coefs_
          (propagate (decay L tk.ar_roots_ (time - tk.time_[ip - 1]))
            (shrink tk.PredictionVar_
              (gain tk.PredictionVar_ tk.rotated_ma_coefs_ tk.var_[ip - 1]) tk.var_[ip - 1])
            tk.StateVar_)).re) := by
  rw [Option.bind_eq_some] at hrun
  obtain ⟨t0, h0, h1⟩ := hrun
  simp [KalmanFilterp.Predict.oneSided, h0, h1, hip, rd, List.getElem?_eq_getElem hv,
    List.getElem?_eq_getElem ht]

/-- The scan of the first `i` times of a strictly increasing series for the
time of index `i` runs to the end. -/
theorem KalmanFilterp.Predict.scan_take (time_ : List K) (i : Nat) (hi : 1 ≤ i)
    (hin : i < time_.length) (hs : time_.Pairwise (fun a b => a < b)) :
    KalmanFilterp.Predict.scan (time_.take i) time_[i] 0 = some i := by
  have hlen : (time_.take i).length = i := by rw [List.length_take]; omega
  obtain ⟨ip, h1, -, h3, -, h5⟩ := scan_spec (time_.take i) time_[i] (time_.take i).length 0 rfl
    (by omega) (fun j _ hj => absurd hj (Nat.not_lt_zero j))
  rw [h1]
  congr 1
  by_contra hne
  have hlt : ip < (time_.take i).length := by omega
  have hb := h5 hlt
  rw [List.getElem_take] at hb
  have := List.pairwise_iff_getElem.mp hs ip i (by omega) hin (by omega)
  exact absurd this (not_lt.mpr hb)

end

section
variable {K : Type} [LinearOrderedField K]

/-- The stationary covariance of the sample filter of order 2. -/
theorem sample2_stationary (time y : List K) (A : Fin 2 → Fin 2 → Cx K) :
    stationary (sample2 K time y).sigsqr_
      (cramer 2 (EigenMat (sample2 K time y).ar_roots_) Rvector) (sample2 K time y).ar_roots_ A false
      = fun i j => if i.val = 0 then (if j.val = 0 then ⟨6, 0⟩ else ⟨-4, 0⟩)
          else (if j.val = 0 then ⟨-4, 0⟩ else ⟨3, 0⟩) := by
  funext i j
  fin_cases i <;> fin_cases j <;> ext <;>
    simp [stationary, cramer, det, EigenMat, Rvector, sample2, Fin.sum_univ_succ, Fin.succAbove] <;>
    norm_num

theorem sample2_rotate (time y : List K) :
    rotate (sample2 K time y).ma_coefs_ (EigenMat (sample2 K time y).ar_roots_)
      = fun _ => ⟨1, 0⟩ := by
  funext j
  fin_cases j <;> ext <;> simp [rotate, EigenMat, sample2, Fin.sum_univ_succ]

end

section
variable {K : Type} [LinearOrderedField K] {p : Nat}

theorem KalmanFilterp.InitializeCoefs_of_bounds (L : Lib K) (s : KalmanFilterp K p) (time : K)
    (itime : Nat) (ymean yvar : K) (ht : itime < s.time_.length) (hv : itime < s.var_.length) :
    KalmanFilterp.InitializeCoefs L s time itime ymean yvar = some { s with
      kalman_gain_ := gain s.PredictionVar_ s.rotated_ma_coefs_ yvar
      state_const_ := fun i => decay L s.ar_roots_ (s.time_[itime] - time) i *
        (s.state_vector_ i - Cx.scale ymean (gain s.PredictionVar_ s.rotated_ma_coefs_ yvar i))
      state_slope_ := fun i => decay L s.ar_roots_ (s.time_[itime] - time) i *
        gain s.PredictionVar_ s.rotated_ma_coefs_ yvar i
      PredictionVar_ := propagate (decay L s.ar_roots_ (s.time_[itime] - time))
        (shrink s.PredictionVar_ (gain s.PredictionVar_ s.rotated_ma_coefs_ yvar) yvar)
        s.StateVar_
      rho_ := decay L s.ar_roots_ (s.time_[itime] - time)
      yconst_ := (dot s.rotated_ma_coefs_ (fun i => decay L s.ar_roots_ (s.time_[itime] - time) i *
        (s.state_vector_ i
          - Cx.scale ymean (gain s.PredictionVar_ s.rotated_ma_coefs_ yvar i)))).re
      yslope_ := (dot s.rotated_ma_coefs_ (fun i => decay L s.ar_roots_ (s.time_[itime] - time) i *
        gain s.PredictionVar_ s.rotated_ma_coefs_ yvar i)).re
      var_ := s.var_.set itime
        (quad s.rotated_ma_coefs_ (propagate (decay L s.ar_roots_ (s.time_[itime] - time))
          (shrink s.PredictionVar_ (gain s.PredictionVar_ s.rotated_ma_coefs_ yvar) yvar)
          s.StateVar_)).re
      current_index_ := itime + 1 } := by
  simp [KalmanFilterp.InitializeCoefs, rd, wr, hv, List.getElem?_eq_getElem ht]

theorem KalmanFilterp.InitializeCoefs_bounds {L : Lib K} {s s' : KalmanFilterp K p} {time : K}
    {itime : Nat} {ymean yvar : K}
    (h : KalmanFilterp.InitializeCoefs L s time itime ymean yvar = some s') :
    itime < s.time_.length ∧ itime < s.var_.length := by
  simp only [KalmanFilterp.InitializeCoefs, Option.bind_eq_bind, Option.bind_eq_some,
    Option.pure_def, rd_eq_some, wr_eq_some, Option.some.injEq] at h
  obtain ⟨ti, ⟨ht, rfl⟩, var, ⟨hv, rfl⟩, rfl⟩ := h
  exact ⟨ht, hv⟩

theorem KalmanFilterp.UpdateCoefs_of_bounds (L : Lib K) (s : KalmanFilterp K p)
    (hc : s.current_index_ ≠ 0) (hy : s.current_index_ - 1 < s.y_.length)
    (hdt : s.current_index_ - 1 < s.dt_.length) (hv : s.current_index_ < s.var_.length) :
    KalmanFilterp.UpdateCoefs L s = some { s with
      kalman_gain_ := gain s.PredictionVar_ s.rotated_ma_coefs_ s.var_[s.current_index_ - 1]
      state_const_ := fun i => decay L s.ar_roots_ s.dt_[s.current_index_ - 1] i *
        (s.state_const_ i + Cx.scale (s.y_[s.current_index_ - 1] - s.yconst_)
          (gain s.PredictionVar_ s.rotated_ma_coefs_ s.var_[s.current_index_ - 1] i))
      state_slope_ := fun i => decay L s.ar_roots_ s.dt_[s.current_index_ - 1] i *
        (s.state_slope_ i - Cx.scale s.yslope_
          (gain s.PredictionVar_ s.rotated_ma_coefs_ s.var_[s.current_index_ - 1] i))
      PredictionVar_ := propagate (decay L s.ar_roots_ s.dt_[s.current_index_ - 1])
        (shrink s.PredictionVar_
          (gain s.PredictionVar_ s.rotated_ma_coefs_ s.var_[s.current_index_ - 1])
          s.var_[s.current_index_ - 1]) s.StateVar_
      rho_ := decay L s.ar_roots_ s.dt_[s.current_index_ - 1]
      yconst_ := (dot s.rotated_ma_coefs_
        (fun i => decay L s.ar_roots_ s.dt_[s.current_index_ - 1] i *
          (s.state_const_ i + Cx.scale (s.y_[s.current_index_ - 1] - s.yconst_)
            (gain s.PredictionVar_ s.rotated_ma_coefs_ s.var_[s.current_index_ - 1] i)))).re
      yslope_ := (dot s.rotated_ma_coefs_
        (fun i => decay L s.ar_roots_ s.dt_[s.current_index_ - 1] i *
          (s.state_slope_ i - Cx.scale s.yslope_
            (gain s.PredictionVar_ s.rotated_ma_coefs_ s.var_[s.current_index_ - 1] i)))).re
      var_ := s.var_.set s.current_index_
        (quad s.rotated_ma_coefs_ (propagate (decay L s.ar_roots_ s.dt_[s.current_index_ - 1])
          (shrink s.PredictionVar_
            (gain s.PredictionVar_ s.rotated_ma_coefs_ s.var_[s.current_index_ - 1])
            s.var_[s.current_index_ - 1]) s.StateVar_)).re
      current_index_ := s.current_index_ + 1 } := by
  have h1 : s.current_index_ - 1 < s.var_.length := by omega
  simp [KalmanFilterp.UpdateCoefs, rd, wr, decr, hc, hv, List.getElem?_eq_getElem hdt,
    List.getElem?_eq_getElem h1, List.getElem?_eq_getElem hy]

theorem KalmanFilterp.UpdateCoefs_bounds {L : Lib K} {s s' : KalmanFilterp K p}
    (h : KalmanFilterp.UpdateCoefs L s = some s') :
    s.current_index_ ≠ 0 ∧ s.current_index_ - 1 < s.y_.length ∧
      s.current_index_ - 1 < s.dt_.length ∧ s.current_index_ < s.var_.length := by
  simp only [KalmanFilterp.UpdateCoefs, Option.bind_eq_bind, Option.bind_eq_some,
    Option.pure_def, rd_eq_some, wr_eq_some, decr_eq_some, Option.some.injEq] at h
  obtain ⟨c1, ⟨hc, rfl⟩, v, ⟨-, rfl⟩, y, ⟨hy, rfl⟩, dt, ⟨hdt, rfl⟩, var, ⟨hv, rfl⟩, rfl⟩ := h
  exact ⟨hc, hy, hdt, hv⟩

theorem KalmanFilterp.Predict.fold_of_bounds (ipredict : Nat) (a : KalmanFilterp K p × K × K)
    (hv : ipredict < a.1.var_.length) (hy : ipredict < a.1.y_.length) :
    KalmanFilterp.Predict.fold ipredict a =
      some (a.1, a.2.1 + a.1.yslope_ * a.1.yslope_ / a.1.var_[ipredict],
        a.2.2 + a.1.yslope_ * (a.1.y_[ipredict] - a.1.yconst_) / a.1.var_[ipredict]) := by
  simp [KalmanFilterp.Predict.fold, rd, List.getElem?_eq_getElem hv, List.getElem?_eq_getElem hy]

theorem KalmanFilterp.Predict.fold_bounds {ipredict : Nat} {a b : KalmanFilterp K p × K × K}
    (h : KalmanFilterp.Predict.fold ipredict a = some b) :
    ipredict < a.1.var_.length ∧ ipredict < a.1.y_.length := by
  simp only [KalmanFilterp.Predict.fold, Option.bind_eq_bind, Option.bind_eq_some,
    Option.pure_def, rd_eq_some, Option.some.injEq] at h
  obtain ⟨v, ⟨hv, rfl⟩, y, ⟨hy, rfl⟩, rfl⟩ := h
  exact ⟨hv, hy⟩

theorem KalmanFilterp.Reset_setY (L : Lib K) (s : KalmanFilterp K p) (j : Nat) (u : K)
    (hj : j ≠ 0) :
    KalmanFilterp.Reset L (s.setY j u) = (KalmanFilterp.Reset L s).map (fun a => a.setY j u) := by
  cases h : KalmanFilterp.Reset L s with
  | none =>
    rw [Option.map_none']
    by_contra hne
    obtain ⟨b, hb⟩ := Option.ne_none_iff_exists'.mp hne
    obtain ⟨h1, h2, h3, h4, h5⟩ := KalmanFilterp.Reset_bounds hb
    simp only [KalmanFilterp.setY, List.length_set] at h2 h3 h4 h5
    rw [KalmanFilterp.Reset_of_bounds L s h1 h2 h3 h4 h5] at h
    exact absurd h (by simp)
  | some a =>
    obtain ⟨h1, h2, h3, h4, h5⟩ := KalmanFilterp.Reset_bounds h
    rw [KalmanFilterp.Reset_of_bounds L s h1 h2 h3 h4 h5] at h
    simp only [Option.some.injEq] at h
    subst h
    rw [KalmanFilterp.Reset_of_bounds L (s.setY j u) h1 h2 h3 h4
      (by simpa [KalmanFilterp.setY] using h5)]
    simp [KalmanFilterp.setY, List.getElem_set_ne hj]

theorem KalmanFilterp.Update_setY (L : Lib K) (s : KalmanFilterp K p) (j : Nat) (u : K)
    (hj : s.current_index_ ≠ j) :
    KalmanFilterp.Update L (s.setY j u) = (KalmanFilterp.Update L s).map (fun a => a.setY j u) := by
  cases h : KalmanFilterp.Update L s with
  | none =>
    rw [Option.map_none']
    by_contra hne
    obtain ⟨b, hb⟩ := Option.ne_none_iff_exists'.mp hne
    obtain ⟨h1, h2, h3, h4, h5, h6⟩ := KalmanFilterp.Update_bounds hb
    simp only [KalmanFilterp.setY, List.length_set] at h1 h2 h3 h4 h5 h6
    rw [KalmanFilterp.Update_of_bounds L s h1 h2 h3 h4 h5 h6] at h
    exact absurd h (by simp)
  | some a =>
    obtain ⟨h1, h2, h3, h4, h5, h6⟩ := KalmanFilterp.Update_bounds h
    rw [KalmanFilterp.Update_of_bounds L s h1 h2 h3 h4 h5 h6] at h
    simp only [Option.some.injEq] at h
    subst h
    rw [KalmanFilterp.Update_of_bounds L (s.setY j u) h1 h2 h3 h4 h5
      (by simpa [KalmanFilterp.setY] using h6)]
    simp [KalmanFilterp.setY, List.getElem_set_ne (Ne.symm hj)]

theorem KalmanFilterp.iterM_Update_setY (L : Lib K) (j : Nat) (u : K) :
    ∀ (k : Nat) (s : KalmanFilterp K p), s.current_index_ + k ≤ j →
      iterM (KalmanFilterp.Update L) k (s.setY j u)
        = (iterM (KalmanFilterp.Update L) k s).map (fun a => a.setY j u) := by
  intro k
  induction k with
  | zero => intro s _; simp [iterM]
  | succ k ih =>
    intro s hs
    rw [iterM, iterM, KalmanFilterp.Update_setY L s j u (by omega)]
    cases h : KalmanFilterp.Update L s with
    | none => simp
    | some a =>
      have hc := (KalmanFilterp.Update_frame h).1
      simp only [Option.map_some', Option.some_bind]
      exact ih a (by omega)

theorem KalmanFilterp.InitializeCoefs_setY (L : Lib K) (s : KalmanFilterp K p) (j : Nat) (u : K)
    (time : K) (itime : Nat) (ymean yvar : K) :
    KalmanFilterp.InitializeCoefs L (s.setY j u) time itime ymean yvar
      = (KalmanFilterp.InitializeCoefs L s time itime ymean yvar).map (fun a => a.setY j u) := by
  cases h : KalmanFilterp.InitializeCoefs L s time itime ymean yvar with
  | none =>
    rw [Option.map_none']
    by_contra hne
    obtain ⟨b, hb⟩ := Option.ne_none_iff_exists'.mp hne
    obtain ⟨h1, h2⟩ := KalmanFilterp.InitializeCoefs_bounds hb
    simp only [KalmanFilterp.setY] at h1 h2
    rw [KalmanFilterp.InitializeCoefs_of_bounds L s time itime ymean yvar h1 h2] at h
    exact absurd h (by simp)
  | some a =>
    obtain ⟨h1, h2⟩ := KalmanFilterp.InitializeCoefs_bounds h
    rw [KalmanFilterp.InitializeCoefs_of_bounds L s time itime ymean yvar h1 h2] at h
    simp only [Option.some.injEq] at h
    subst h
    rw [KalmanFilterp.InitializeCoefs_of_bounds L (s.setY j u) time itime ymean yvar h1 h2]
    simp [KalmanFilterp.setY]

theorem KalmanFilterp.UpdateCoefs_setY (L : Lib K) (s : KalmanFilterp K p) (j : Nat) (u : K)
    (hj : s.current_index_ - 1 ≠ j) :
    KalmanFilterp.UpdateCoefs L (s.setY j u)
      = (KalmanFilterp.UpdateCoefs L s).map (fun a => a.setY j u) := by
  cases h : KalmanFilterp.UpdateCoefs L s with
  | none =>
    rw [Option.map_none']
    by_contra hne
    obtain ⟨b, hb⟩ := Option.ne_none_iff_exists'.mp hne
    obtain ⟨h1, h2, h3, h4⟩ := KalmanFilterp.UpdateCoefs_bounds hb
    simp only [KalmanFilterp.setY, List.length_set] at h1 h2 h3 h4
    rw [KalmanFilterp.UpdateCoefs_of_bounds L s h1 h2 h3 h4] at h
    exact absurd h (by simp)
  | some a =>
    obtain ⟨h1, h2, h3, h4⟩ := KalmanFilterp.UpdateCoefs_bounds h
    rw [KalmanFilterp.UpdateCoefs_of_bounds L s h1 h2 h3 h4] at h
    simp only [Option.some.injEq] at h
    subst h
    rw [KalmanFilterp.UpdateCoefs_of_bounds L (s.setY j u) h1
      (by simpa [KalmanFilterp.setY] using h2) h3 h4]
    simp [KalmanFilterp.setY, List.getElem_set_ne (Ne.symm hj)]

theorem KalmanFilterp.Predict.fold_setY (ip j : Nat) (u : K) (a : KalmanFilterp K p × K × K)
    (hj : ip ≠ j) :
    KalmanFilterp.Predict.fold ip (a.1.setY j u, a.2)
      = (KalmanFilterp.Predict.fold ip a).map (fun b => (b.1.setY j u, b.2)) := by
  cases h : KalmanFilterp.Predict.fold ip a with
  | none =>
    rw [Option.map_none']
    by_contra hne
    obtain ⟨b, hb⟩ := Option.ne_none_iff_exists'.mp hne
    obtain ⟨h1, h2⟩ := KalmanFilterp.Predict.fold_bounds hb
    simp only [KalmanFilterp.setY, List.length_set] at h1 h2
    rw [KalmanFilterp.Predict.fold_of_bounds ip a h1 h2] at h
    exact absurd h (by simp)
  | some b =>
    obtain ⟨h1, h2⟩ := KalmanFilterp.Predict.fold_bounds h
    rw [KalmanFilterp.Predict.fold_of_bounds ip a h1 h2] at h
    simp only [Option.some.injEq] at h
    subst h
    rw [KalmanFilterp.Predict.fold_of_bounds ip (a.1.setY j u, a.2) h1
      (by simpa [KalmanFilterp.setY] using h2)]
    simp [KalmanFilterp.setY, List.getElem_set_ne (Ne.symm hj)]

theorem KalmanFilterp.Reset_frame {L : Lib K} {s s' : KalmanFilterp K p}
    (h : KalmanFilterp.Reset L s = some s') :
    s'.current_index_ = 1 ∧ s'.time_ = s.time_ ∧ s'.y_ = s.y_ ∧ s'.yerr_ = s.yerr_ ∧
      s'.dt_ = s.dt_ ∧ s'.mean_.length = s.mean_.length ∧ s'.var_.length = s.var_.length := by
  obtain ⟨h1, h2, h3, h4, h5⟩ := KalmanFilterp.Reset_bounds h
  rw [KalmanFilterp.Reset_of_bounds L s h1 h2 h3 h4 h5] at h
  simp only [Option.some.injEq] at h
  subst h
  exact ⟨rfl, rfl, rfl, rfl, rfl, by simp, by simp⟩

theorem KalmanFilterp.iterM_Update_frame (L : Lib K) :
    ∀ (k : Nat) (s s' : KalmanFilterp K p), iterM (KalmanFilterp.Update L) k s = some s' →
      s'.current_index_ = s.current_index_ + k ∧ s'.time_ = s.time_ ∧ s'.y_ = s.y_ ∧
        s'.yerr_ = s.yerr_ ∧ s'.dt_ = s.dt_ ∧ s'.mean_.length = s.mean_.length ∧
        s'.var_.length = s.var_.length := by
  intro k
  induction k with
  | zero =>
    intro s s' h
    simp only [iterM, Option.some.injEq] at h
    subst h
    exact ⟨rfl, rfl, rfl, rfl, rfl, rfl, rfl⟩
  | succ k ih =>
    intro s s' h
    rw [iterM, Option.bind_eq_some] at h
    obtain ⟨a, h1, h2⟩ := h
    obtain ⟨u1, -, -, -, -, -, u7, u8, u9, u10, u11, u12, -, -⟩ := KalmanFilterp.Update_frame h1
    obtain ⟨v1, v2, v3, v4, v5, v6, v7⟩ := ih a s' h2
    exact ⟨by omega, by rw [v2, u7], by rw [v3, u8], by rw [v4, u9], by rw [v5, u10],
      by omega, by omega⟩

theorem KalmanFilterp.Predict.oneSided_frame {L : Lib K} {s : KalmanFilterp K p} {time : K}
    {ip : Nat} {b : KalmanFilterp K p × K × K}
    (h : KalmanFilterp.Predict.oneSided L s time ip = some b) :
    b.1.time_ = s.time_ ∧ b.1.y_ = s.y_ ∧ b.1.yerr_ = s.yerr_ ∧ b.1.dt_ = s.dt_ ∧
      b.1.mean_.length = s.mean_.length ∧ b.1.var_.length = s.var_.length := by
  unfold KalmanFilterp.Predict.oneSided at h
  simp only [Option.bind_eq_bind, Option.bind_eq_some] at h
  obtain ⟨s0, h0, sk, h1, h2⟩ := h
  obtain ⟨-, a2, a3, a4, a5, a6, a7⟩ := KalmanFilterp.Reset_frame h0
  obtain ⟨-, c2, c3, c4, c5, c6, c7⟩ := KalmanFilterp.iterM_Update_frame L _ _ _ h1
  split at h2
  · simp only [Option.pure_def, Option.some.injEq] at h2
    subst h2
    exact ⟨by rw [c2, a2], by rw [c3, a3], by rw [c4, a4], by rw [c5, a5],
      by show sk.mean_.length = s.mean_.length; omega,
      by show sk.var_.length = s.var_.length; omega⟩
  · simp only [Option.bind_eq_bind, Option.bind_eq_some, Option.pure_def,
      Option.some.injEq] at h2
    obtain ⟨v, -, tp, -, rfl⟩ := h2
    exact ⟨by rw [c2, a2], by rw [c3, a3], by rw [c4, a4], by rw [c5, a5],
      by show sk.mean_.length = s.mean_.length; omega,
      by show sk.var_.length = s.var_.length; omega⟩

theorem KalmanFilterp.Predict.oneSided_setY (L : Lib K) (s : KalmanFilterp K p) (j : Nat) (u : K)
    (time : K) (ip : Nat) (hj : j ≠ 0) (hip : ip ≤ j) :
    KalmanFilterp.Predict.oneSided L (s.setY j u) time ip
      = (KalmanFilterp.Predict.oneSided L s time ip).map (fun b => (b.1.setY j u, b.2)) := by
  unfold KalmanFilterp.Predict.oneSided
  simp only [Option.bind_eq_bind]
  rw [KalmanFilterp.Reset_setY L s j u hj]
  cases h0 : KalmanFilterp.Reset L s with
  | none => simp
  | some s0 =>
    have hc0 := (KalmanFilterp.Reset_frame h0).1
    simp only [Option.map_some', Option.some_bind]
    rw [KalmanFilterp.iterM_Update_setY L j u (ip - 1) s0 (by omega)]
    cases h1 : iterM (KalmanFilterp.Update L) (ip - 1) s0 with
    | none => simp
    | some sk =>
      simp only [Option.map_some', Option.some_bind]
      by_cases hz : ip = 0
      · simp [hz, KalmanFilterp.setY]
      · simp only [hz, if_false]
        cases hv : rd sk.var_ (ip - 1) with
        | none => simp [KalmanFilterp.setY, hv]
        | some v =>
          cases ht : rd sk.time_ (ip - 1) with
          | none => simp [KalmanFilterp.setY, hv, ht]
          | some tp => simp [KalmanFilterp.setY, hv, ht]

theorem KalmanFilterp.Predict.step_setY (L : Lib K) (ip j : Nat) (u : K)
    (a : KalmanFilterp K p × K × K) (hj : a.1.current_index_ - 1 ≠ j) (hip : ip ≠ j) :
    KalmanFilterp.Predict.step L ip (a.1.setY j u, a.2)
      = (KalmanFilterp.Predict.step L ip a).map (fun b => (b.1.setY j u, b.2)) := by
  unfold KalmanFilterp.Predict.step
  simp only [Option.bind_eq_bind]
  rw [KalmanFilterp.UpdateCoefs_setY L a.1 j u hj]
  cases h : KalmanFilterp.UpdateCoefs L a.1 with
  | none => simp
  | some s1 =>
    simp only [Option.map_some', Option.some_bind]
    exact KalmanFilterp.Predict.fold_setY ip j u (s1, a.2.1, a.2.2) hip

theorem KalmanFilterp.Predict.step_index {L : Lib K} {ip : Nat}
    {a b : KalmanFilterp K p × K × K} (h : KalmanFilterp.Predict.step L ip a = some b) :
    b.1.current_index_ = a.1.current_index_ + 1 := by
  unfold KalmanFilterp.Predict.step at h
  simp only [Option.bind_eq_bind, Option.bind_eq_some] at h
  obtain ⟨s1, h1, h2⟩ := h
  obtain ⟨b1, b2, b3, b4⟩ := KalmanFilterp.UpdateCoefs_bounds h1
  rw [KalmanFilterp.UpdateCoefs_of_bounds L a.1 b1 b2 b3 b4] at h1
  simp only [Option.some.injEq] at h1
  subst h1
  obtain ⟨c1, c2⟩ := KalmanFilterp.Predict.fold_bounds h2
  rw [KalmanFilterp.Predict.fold_of_bounds _ _ c1 c2] at h2
  simp only [Option.some.injEq] at h2
  subst h2
  rfl

theorem KalmanFilterp.Predict.iterM_step_setY (L : Lib K) (ip j : Nat) (u : K) (hj : j ≠ 0)
    (hip : ip ≠ j) :
    ∀ (k : Nat) (a : KalmanFilterp K p × K × K), a.1.current_index_ + k ≤ j + 1 →
      iterM (KalmanFilterp.Predict.step L ip) k (a.1.setY j u, a.2)
        = (iterM (KalmanFilterp.Predict.step L ip) k a).map (fun b => (b.1.setY j u, b.2)) := by
  intro k
  induction k with
  | zero => intro a _; simp [iterM]
  | succ k ih =>
    intro a ha
    rw [iterM, iterM, KalmanFilterp.Predict.step_setY L ip j u a (by omega) hip]
    cases h : KalmanFilterp.Predict.step L ip a with
    | none => simp
    | some b =>
      have hc := KalmanFilterp.Predict.step_index h
      simp only [Option.map_some', Option.some_bind]
      exact ih b (by omega)

theorem KalmanFilterp.InitializeCoefs_frame {L : Lib K} {s s' : KalmanFilterp K p} {time : K}
    {itime : Nat} {ymean yvar : K}
    (h : KalmanFilterp.InitializeCoefs L s time itime ymean yvar = some s') :
    s'.current_index_ = itime + 1 ∧ s'.time_ = s.time_ ∧ s'.y_ = s.y_ ∧ s'.dt_ = s.dt_ ∧
      s'.var_.length = s.var_.length := by
  obtain ⟨h1, h2⟩ := KalmanFilterp.InitializeCoefs_bounds h
  rw [KalmanFilterp.InitializeCoefs_of_bounds L s time itime ymean yvar h1 h2] at h
  simp only [Option.some.injEq] at h
  subst h
  exact ⟨rfl, rfl, rfl, rfl, by simp⟩

theorem KalmanFilterp.UpdateCoefs_frame {L : Lib K} {s s' : KalmanFilterp K p}
    (h : KalmanFilterp.UpdateCoefs L s = some s') :
    s'.current_index_ = s.current_index_ + 1 ∧ s'.time_ = s.time_ ∧ s'.y_ = s.y_ ∧
      s'.dt_ = s.dt_ ∧ s'.var_.length = s.var_.length := by
  obtain ⟨h1, h2, h3, h4⟩ := KalmanFilterp.UpdateCoefs_bounds h
  rw [KalmanFilterp.UpdateCoefs_of_bounds L s h1 h2 h3 h4] at h
  simp only [Option.some.injEq] at h
  subst h
  exact ⟨rfl, rfl, rfl, rfl, by simp⟩

theorem KalmanFilterp.Predict.fold_frame {ip : Nat} {a b : KalmanFilterp K p × K × K}
    (h : KalmanFilterp.Predict.fold ip a = some b) : b.1 = a.1 := by
  obtain ⟨h1, h2⟩ := KalmanFilterp.Predict.fold_bounds h
  rw [KalmanFilterp.Predict.fold_of_bounds ip a h1 h2] at h
  simp only [Option.some.injEq] at h
  subst h
  rfl

theorem KalmanFilterp.Predict_eq (L : Lib K) (s : KalmanFilterp K p) (time : K) {ip : Nat}
    {b : KalmanFilterp K p × K × K}
    (h1 : KalmanFilterp.Predict.scan s.time_ time 0 = some ip)
    (hb : KalmanFilterp.Predict.oneSided L s time ip = some b) :
    KalmanFilterp.Predict L s time
      = if ip = b.1.time_.length then some b else KalmanFilterp.Predict.merge L time ip b := by
  simp only [KalmanFilterp.Predict, h1, hb, Option.bind_eq_bind, Option.some_bind,
    Option.pure_def]

theorem KalmanFilterp.Predict_eq_none (L : Lib K) (s : KalmanFilterp K p) (time : K) {ip : Nat}
    (h1 : KalmanFilterp.Predict.scan s.time_ time 0 = some ip)
    (hb : KalmanFilterp.Predict.oneSided L s time ip = none) :
    KalmanFilterp.Predict L s time = none := by
  simp only [KalmanFilterp.Predict, h1, hb, Option.bind_eq_bind, Option.some_bind,
    Option.none_bind]

theorem KalmanFilterp.Predict.merge_eq (L : Lib K) (time : K) (ip : Nat)
    {b a c : KalmanFilterp K p × K × K} {s1 : KalmanFilterp K p}
    (hs1 : KalmanFilterp.InitializeCoefs L b.1 time ip b.2.1 b.2.2 = some s1)
    (ha : KalmanFilterp.Predict.fold ip (s1, 1 / b.2.2, b.2.1) = some a)
    (hc : iterM (KalmanFilterp.Predict.step L ip) (s1.time_.length - (ip + 1)) a = some c) :
    KalmanFilterp.Predict.merge L time ip b = some (c.1, c.2.2 * (1 / c.2.1), 1 / c.2.1) := by
  simp only [KalmanFilterp.Predict.merge, hs1, ha, hc, Option.bind_eq_bind, Option.some_bind,
    Option.pure_def]

theorem KalmanFilterp.Predict.merge_setY (L : Lib K) (time u : K) (ip j : Nat)
    (b : KalmanFilterp K p × K × K) (hip : ip < j) (hlen : b.1.time_.length ≤ j + 1) :
    KalmanFilterp.Predict.merge L time ip (b.1.setY j u, b.2)
      = (KalmanFilterp.Predict.merge L time ip b).map (fun c => (c.1.setY j u, c.2)) := by
  unfold KalmanFilterp.Predict.merge
  simp only [Option.bind_eq_bind]
  rw [KalmanFilterp.InitializeCoefs_setY]
  cases h1 : KalmanFilterp.InitializeCoefs L b.1 time ip b.2.1 b.2.2 with
  | none => simp
  | some s1 =>
    obtain ⟨hc1, ht1, -, -, -⟩ := KalmanFilterp.InitializeCoefs_frame h1
    simp only [Option.map_some', Option.some_bind]
    have ht3 : (s1.setY j u).time_ = s1.time_ := rfl
    rw [ht3, KalmanFilterp.Predict.fold_setY ip j u (s1, 1 / b.2.2, b.2.1) (by omega)]
    cases h2 : KalmanFilterp.Predict.fold ip (s1, 1 / b.2.2, b.2.1) with
    | none => simp
    | some a =>
      have ha : a.1 = s1 := KalmanFilterp.Predict.fold_frame h2
      simp only [Option.map_some', Option.some_bind]
      rw [KalmanFilterp.Predict.iterM_step_setY L ip j u (by omega) (by omega) _ a
        (by rw [ha, hc1, ht1]; omega)]
      cases h3 : iterM (KalmanFilterp.Predict.step L ip) (s1.time_.length - (ip + 1)) a with
      | none => simp
      | some c => simp

theorem KalmanFilterp.Predict_setY (L : Lib K) (s : KalmanFilterp K p) (time u : K)
    (ip j : Nat) (hscan : KalmanFilterp.Predict.scan s.time_ time 0 = some ip) (hip : ip < j)
    (hlen : s.time_.length ≤ j + 1) :
    KalmanFilterp.Predict L (s.setY j u) time
      = (KalmanFilterp.Predict L s time).map (fun b => (b.1.setY j u, b.2)) := by
  have hO := KalmanFilterp.Predict.oneSided_setY L s j u time ip (by omega) (by omega)
  cases hb : KalmanFilterp.Predict.oneSided L s time ip with
  | none =>
    rw [hb] at hO
    rw [KalmanFilterp.Predict_eq_none L s time hscan hb,
      KalmanFilterp.Predict_eq_none L (s.setY j u) time hscan hO]
    rfl
  | some b =>
    rw [hb] at hO
    obtain ⟨f1, -⟩ := KalmanFilterp.Predict.oneSided_frame hb
    rw [KalmanFilterp.Predict_eq L s time hscan hb,
      KalmanFilterp.Predict_eq L (s.setY j u) time hscan hO]
    have ht2 : (b.1.setY j u).time_ = b.1.time_ := rfl
    simp only [ht2]
    by_cases hend : ip = b.1.time_.length
    · simp [hend]
    · rw [if_neg hend, if_neg hend]
      exact KalmanFilterp.Predict.merge_setY L time u ip j b hip (by rw [f1]; exact hlen)

theorem pred_lt_of_le {i n : Nat} (h : i ≤ n) (hn : 0 < n) : i - 1 < n := by omega

theorem one_add_pred_le {i n : Nat} (h : i ≤ n) (hn : 0 < n) : 1 + (i - 1) ≤ n := by omega

theorem succ_add_sub_le {i n : Nat} (h : i < n) : i + 1 + (n - (i + 1)) ≤ n := by omega

theorem KalmanFilterp.Reset_isSome (L : Lib K) (s : KalmanFilterp K p) (hp : 1 < p)
    (hm : 0 < s.mean_.length) (hv : 0 < s.var_.length) (he : 0 < s.yerr_.length)
    (hy : 0 < s.y_.length) : ∃ s', KalmanFilterp.Reset L s = some s' :=
  ⟨_, KalmanFilterp.Reset_of_bounds L s hp hm hv he hy⟩

theorem KalmanFilterp.Update_isSome (L : Lib K) (s : KalmanFilterp K p)
    (hc : s.current_index_ ≠ 0) (hdt : s.current_index_ - 1 < s.dt_.length)
    (hm : s.current_index_ < s.mean_.length) (hv : s.current_index_ < s.var_.length)
    (he : s.current_index_ < s.yerr_.length) (hy : s.current_index_ < s.y_.length) :
    ∃ s', KalmanFilterp.Update L s = some s' :=
  ⟨_, KalmanFilterp.Update_of_bounds L s hc hdt hm hv he hy⟩

theorem KalmanFilterp.InitializeCoefs_isSome (L : Lib K) (s : KalmanFilterp K p) (time : K)
    (itime : Nat) (ymean yvar : K) (ht : itime < s.time_.length) (hv : itime < s.var_.length) :
    ∃ s', KalmanFilterp.InitializeCoefs L s time itime ymean yvar = some s' :=
  ⟨_, KalmanFilterp.InitializeCoefs_of_bounds L s time itime ymean yvar ht hv⟩

theorem KalmanFilterp.UpdateCoefs_isSome (L : Lib K) (s : KalmanFilterp K p)
    (hc : s.current_index_ ≠ 0) (hy : s.current_index_ - 1 < s.y_.length)
    (hdt : s.current_index_ - 1 < s.dt_.length) (hv : s.current_index_ < s.var_.length) :
    ∃ s', KalmanFilterp.UpdateCoefs L s = some s' :=
  ⟨_, KalmanFilterp.UpdateCoefs_of_bounds L s hc hy hdt hv⟩

theorem KalmanFilterp.Predict.fold_isSome (ipredict : Nat) (a : KalmanFilterp K p × K × K)
    (hv : ipredict < a.1.var_.length) (hy : ipredict < a.1.y_.length) :
    ∃ b, KalmanFilterp.Predict.fold ipredict a = some b :=
  ⟨_, KalmanFilterp.Predict.fold_of_bounds ipredict a hv hy⟩

theorem KalmanFilterp.Predict.oneSided_isSome (L : Lib K) (s s0 sk : KalmanFilterp K p)
    (time : K) (ip : Nat) (h0 : KalmanFilterp.Reset L s = some s0)
    (hk : iterM (KalmanFilterp.Update L) (ip - 1) s0 = some sk)
    (hv : ip - 1 < sk.var_.length) (ht : ip - 1 < sk.time_.length) :
    ∃ b, KalmanFilterp.Predict.oneSided L s time ip = some b := by
  by_cases hz : ip = 0
  · exact ⟨_, by simp [KalmanFilterp.Predict.oneSided, h0, hk, hz]; rfl⟩
  · exact ⟨_, KalmanFilterp.Predict.oneSided_of_run L s sk time ip hz
      (by rw [h0]; exact hk) hv ht⟩

theorem KalmanFilterp.iterM_Update_isSome (L : Lib K) (N : Nat) :
    ∀ (k : Nat) (s : KalmanFilterp K p), s.current_index_ ≠ 0 → s.current_index_ + k ≤ N →
      N ≤ s.mean_.length → N ≤ s.var_.length → N ≤ s.yerr_.length → N ≤ s.y_.length →
      N ≤ s.dt_.length + 1 →
      ∃ s', iterM (KalmanFilterp.Update L) k s = some s' := by
  intro k
  induction k with
  | zero => intro s _ _ _ _ _ _ _; exact ⟨s, rfl⟩
  | succ k ih =>
    intro s hc hk h1 h2 h3 h4 h5
    obtain ⟨a, ha⟩ := KalmanFilterp.Update_isSome L s hc (by omega) (by omega) (by omega)
      (by omega) (by omega)
    obtain ⟨u1, -, -, -, -, -, -, u8, u9, u10, u11, u12, -, -⟩ := KalmanFilterp.Update_frame ha
    obtain ⟨s', hs'⟩ := ih a (by omega) (by omega) (by omega) (by omega) (by rw [u9]; omega)
      (by rw [u8]; omega) (by rw [u10]; omega)
    exact ⟨s', by rw [iterM, ha]; exact hs'⟩

theorem KalmanFilterp.Predict.iterM_step_isSome (L : Lib K) (ip N : Nat) (hip : ip < N) :
    ∀ (k : Nat) (a : KalmanFilterp K p × K × K), a.1.current_index_ ≠ 0 →
      a.1.current_index_ + k ≤ N → a.1.var_.length = N → a.1.y_.length = N →
      a.1.dt_.length + 1 = N →
      ∃ b, iterM (KalmanFilterp.Predict.step L ip) k a = some b := by
  intro k
  induction k with
  | zero => intro a _ _ _ _ _; exact ⟨a, rfl⟩
  | succ k ih =>
    intro a hc hk h1 h2 h3
    obtain ⟨s1, hs1⟩ := KalmanFilterp.UpdateCoefs_isSome L a.1 hc (by omega) (by omega)
      (by omega)
    obtain ⟨e4, -, e2, e3, e1⟩ := KalmanFilterp.UpdateCoefs_frame hs1
    rw [h1] at e1
    have e2 : s1.y_.length = N := by rw [e2]; exact h2
    have e3 : s1.dt_.length + 1 = N := by rw [e3]; exact h3
    obtain ⟨b, hb⟩ := KalmanFilterp.Predict.fold_isSome ip (s1, a.2.1, a.2.2)
      (by show ip < s1.var_.length; omega) (by show ip < s1.y_.length; omega)
    have f1 : b.1 = s1 := KalmanFilterp.Predict.fold_frame hb
    have hstep : KalmanFilterp.Predict.step L ip a = some b := by
      unfold KalmanFilterp.Predict.step
      simp only [Option.bind_eq_bind, hs1, Option.some_bind]
      exact hb
    obtain ⟨c, hc'⟩ := ih b (by rw [f1, e4]; omega) (by rw [f1, e4]; omega) (by rw [f1, e1])
      (by rw [f1, e2]) (by rw [f1, e3])
    exact ⟨c, by rw [iterM, hstep]; exact hc'⟩

/-- `Predict` returns on a filter of order at least 2 whose arrays have the
length of a non-empty series. -/
theorem KalmanFilterp.Predict_isSome (L : Lib K) (s : KalmanFilterp K p) (time : K)
    (hp : 1 < p) (hn : 0 < s.time_.length)
    (hy : s.y_.length = s.time_.length) (hyerr : s.yerr_.length = s.time_.length)
    (hmean : s.mean_.length = s.time_.length) (hvar : s.var_.length = s.time_.length)
    (hdtlen : s.dt_.length + 1 = s.time_.length) :
    ∃ r, KalmanFilterp.Predict L s time = some r := by
  obtain ⟨ip, h1, -, h3, -, -⟩ := scan_spec s.time_ time s.time_.length 0 rfl hn
    (fun j _ hj => absurd hj (Nat.not_lt_zero j))
  have n1 : 0 < s.mean_.length := hmean ▸ hn
  have n2 : 0 < s.var_.length := hvar ▸ hn
  have n3 : 0 < s.yerr_.length := hyerr ▸ hn
  have n4 : 0 < s.y_.length := hy ▸ hn
  obtain ⟨s0, h0⟩ := KalmanFilterp.Reset_isSome L s hp n1 n2 n3 n4
  obtain ⟨a1, a2, a3, a4, a5, a6, a7⟩ := KalmanFilterp.Reset_frame h0
  have m1 : s0.current_index_ ≠ 0 := by rw [a1]; exact Nat.one_ne_zero
  have m2 : s0.current_index_ + (ip - 1) ≤ s.time_.length := by
    rw [a1]; exact one_add_pred_le h3 hn
  have m3 : s.time_.length ≤ s0.mean_.length := by rw [a6, hmean]
  have m4 : s.time_.length ≤ s0.var_.length := by rw [a7, hvar]
  have m5 : s.time_.length ≤ s0.yerr_.length := by rw [a4, hyerr]
  have m6 : s.time_.length ≤ s0.y_.length := by rw [a3, hy]
  have m7 : s.time_.length ≤ s0.dt_.length + 1 := by rw [a5, hdtlen]
  obtain ⟨sk, hk⟩ := KalmanFilterp.iterM_Update_isSome L s.time_.length (ip - 1) s0 m1 m2 m3 m4
    m5 m6 m7
  obtain ⟨c1, c2, c3, c4, c5, c6, c7⟩ := KalmanFilterp.iterM_Update_frame L _ _ _ hk
  have k1 : ip - 1 < sk.var_.length := by rw [c7, a7, hvar]; exact pred_lt_of_le h3 hn
  have k2 : ip - 1 < sk.time_.length := by rw [c2, a2]; exact pred_lt_of_le h3 hn
  obtain ⟨b, hb⟩ := KalmanFilterp.Predict.oneSided_isSome L s s0 sk time ip h0 hk k1 k2
  obtain ⟨f1, f2, f3, f4, f5, f6⟩ := KalmanFilterp.Predict.oneSided_frame hb
  by_cases hend : ip = b.1.time_.length
  · exact ⟨b, by rw [KalmanFilterp.Predict_eq L s time h1 hb, if_pos hend]⟩
  · have hipn : ip < s.time_.length := lt_of_le_of_ne h3 (f1 ▸ hend)
    have q1 : ip < b.1.time_.length := by rw [f1]; exact hipn
    have q2 : ip < b.1.var_.length := by rw [f6, hvar]; exact hipn
    obtain ⟨s1, hs1⟩ := KalmanFilterp.InitializeCoefs_isSome L b.1 time ip b.2.1 b.2.2 q1 q2
    obtain ⟨e4, e5, e2, e3, e1⟩ := KalmanFilterp.InitializeCoefs_frame hs1
    have r1 : ip < s1.var_.length := by rw [e1]; exact q2
    have r2 : ip < s1.y_.length := by rw [e2, f2, hy]; exact hipn
    obtain ⟨a, ha⟩ := KalmanFilterp.Predict.fold_isSome ip (s1, 1 / b.2.2, b.2.1) r1 r2
    have g1 : a.1 = s1 := KalmanFilterp.Predict.fold_frame ha
    have w1 : a.1.current_index_ ≠ 0 := by rw [g1, e4]; exact Nat.succ_ne_zero ip
    have w2 : a.1.current_index_ + (s1.time_.length - (ip + 1)) ≤ s.time_.length := by
      rw [g1, e4, e5, f1]; exact succ_add_sub_le hipn
    have w3 : a.1.var_.length = s.time_.length := by rw [g1, e1, f6, hvar]
    have w4 : a.1.y_.length = s.time_.length := by rw [g1, e2, f2, hy]
    have w5 : a.1.dt_.length + 1 = s.time_.length := by rw [g1, e3, f4, hdtlen]
    obtain ⟨c, hc⟩ := KalmanFilterp.Predict.iterM_step_isSome L ip s.time_.length hipn
      (s1.time_.length - (ip + 1)) a w1 w2 w3 w4 w5
    exact ⟨_, by rw [KalmanFilterp.Predict_eq L s time h1 hb, if_neg hend,
      KalmanFilterp.Predict.merge_eq L time ip hs1 ha hc]⟩

end

section
variable {K : Type} [LinearOrderedField K]

theorem sample3_stationary (time y : List K) (A : Fin 2 → Fin 2 → Cx K) :
    stationary (sample3 K time y).sigsqr_
      (cramer 2 (EigenMat (sample3 K time y).ar_roots_) Rvector) (sample3 K time y).ar_roots_ A false
      = fun i j => if i.val = 0 then (if j.val = 0 then ⟨1, 0⟩ else ⟨-2 / 3, 0⟩)
          else (if j.val = 0 then ⟨-2 / 3, 0⟩ else ⟨1 / 2, 0⟩) := by
  funext i j
  fin_cases i <;> fin_cases j <;> ext <;>
    simp [stationary, cramer, det, EigenMat, Rvector, sample3, sample2, Fin.sum_univ_succ,
      Fin.succAbove] <;>
    norm_num

theorem sample3_rotate (time y : List K) :
    rotate (sample3 K time y).ma_coefs_ (EigenMat (sample3 K time y).ar_roots_)
      = fun i => if i.val = 0 then ⟨1, 0⟩ else ⟨0, 0⟩ := by
  funext j
  fin_cases j <;> ext <;> simp [rotate, EigenMat, sample3, sample2, Fin.sum_univ_succ] <;> norm_num

end

/-- The one-sided stage of `Predict` on the sample filter `sample3` over
`time = [0, 2]`, `y = [1, 3]` at the query time 1. -/
theorem sample3_oneSided :
    ∃ b, KalmanFilterp.Predict.oneSided (cramerLib Real.exp Real.cos Real.sin Real.pi)
        (sample3 ℝ [0, 2] [1, 3]) 1 1 = some b ∧
      b.2.1 = Real.exp (-1) * Real.exp (-1) ∧
      b.2.2 = 1 - Real.exp (-1) * Real.exp (-1) ∧
      b.1.PredictionVar_ 0 0 = ⟨1 - Real.exp (-1) * Real.exp (-1), 0⟩ ∧
      b.1.state_vector_ 0 = ⟨Real.exp (-1) * Real.exp (-1), 0⟩ ∧
      b.1.rotated_ma_coefs_ = (fun i => if i.val = 0 then ⟨1, 0⟩ else ⟨0, 0⟩) ∧
      b.1.StateVar_ 0 0 = ⟨1, 0⟩ ∧
      b.1.ar_roots_ 0 = ⟨-1, 0⟩ ∧
      b.1.time_ = [0, 2] ∧ b.1.y_ = [1, 3] ∧ b.1.var_.length = 2 := by
  have hR := KalmanFilterp.Reset_of_bounds (cramerLib Real.exp Real.cos Real.sin Real.pi)
    (sample3 ℝ [0, 2] [1, 3]) (by norm_num) (by simp [sample3, sample2])
    (by simp [sample3, sample2]) (by simp [sample3, sample2]) (by simp [sample3, sample2])
  obtain ⟨s0, h0⟩ : ∃ s0, KalmanFilterp.Reset (cramerLib Real.exp Real.cos Real.sin Real.pi)
    (sample3 ℝ [0, 2] [1, 3]) = some s0 := ⟨_, hR⟩
  rw [h0] at hR
  have hs0 := Option.some.inj hR
  have hsolve : (cramerLib Real.exp Real.cos Real.sin Real.pi).solve = cramer := rfl
  have hconj : (cramerLib Real.exp Real.cos Real.sin Real.pi).symmatu_conj = false := rfl
  rw [hsolve, hconj, sample3_stationary, sample3_rotate] at hs0
  have hO := KalmanFilterp.Predict.oneSided_of_run
    (cramerLib Real.exp Real.cos Real.sin Real.pi) (sample3 ℝ [0, 2] [1, 3]) s0 1 1
    (by norm_num) (by rw [h0]; rfl) (by rw [hs0]; simp [sample3, sample2])
    (by rw [hs0]; simp [sample3, sample2])
  subst hs0
  refine ⟨_, hO, ?_, ?_, ?_, ?_, ?_, ?_, ?_, ?_, ?_, ?_⟩
  · simp [dot, quad, gain, decay, Cx.exp, cramerLib, Fin.sum_univ_succ, sample3, sample2]
  · simp [quad, gain, shrink, propagate, decay, Cx.exp, cramerLib, Fin.sum_univ_succ, sample3,
      sample2]
    ring
  · ext <;> simp [quad, gain, shrink, propagate, decay, Cx.exp, cramerLib, Fin.sum_univ_succ, sample3,
      sample2]
    ring
  · ext <;> simp [quad, gain, decay, Cx.exp, cramerLib, Fin.sum_univ_succ, sample3, sample2]
  · rfl
  · rfl
  · simp [sample3, sample2]
  · simp [sample3, sample2]
  · simp [sample3, sample2]
  · simp [sample3, sample2]

/-- The conjugate of the entry `(j, i)` of the formula for the stationary
covariance is the entry `(i, j)`. -/
theorem stationary_formula_conj {K : Type} [LinearOrderedField K] {p : Nat} (sigsqr : K)
    (J r : Fin p → Cx K) (i j : Fin p) :
    Cx.conj (Cx.scale (-sigsqr) (J j) * Cx.conj (J i) / (r j + Cx.conj (r i)))
      = Cx.scale (-sigsqr) (J i) * Cx.conj (J j) / (r i + Cx.conj (r j)) := by
  ext
  · simp only [Cx.conj_re, Cx.conj_im, Cx.div_re, Cx.mul_re, Cx.mul_im, Cx.scale_re, Cx.scale_im,
      Cx.add_re, Cx.add_im]
    ring
  · simp only [Cx.conj_re, Cx.conj_im, Cx.div_im, Cx.mul_re, Cx.mul_im, Cx.scale_re, Cx.scale_im,
      Cx.add_re, Cx.add_im]
    ring

/-- With a `symmatu` that conjugates, every entry of the stationary covariance
is given by the formula of the upper triangle. -/
theorem stationary_of_conj {K : Type} [LinearOrderedField K] {p : Nat} (sigsqr : K)
    (J r : Fin p → Cx K) (A : Fin p → Fin p → Cx K) (i j : Fin p) :
    stationary sigsqr J r A true i j
      = Cx.scale (-sigsqr) (J i) * Cx.conj (J j) / (r i + Cx.conj (r j)) := by
  unfold stationary
  by_cases h : i ≤ j
  · simp [h]
  · have h' : j ≤ i := le_of_lt (not_le.mp h)
    simp only [h, h', if_true, if_false]
    exact stationary_formula_conj sigsqr J r i j

/-- With a `symmatu` that copies without conjugating, an entry below the
diagonal is the entry `(j, i)` of the formula. -/
theorem stationary_of_copy {K : Type} [LinearOrderedField K] {p : Nat} (sigsqr : K)
    (J r : Fin p → Cx K) (A : Fin p → Fin p → Cx K) (i j : Fin p) (h : j < i) :
    stationary sigsqr J r A false i j
      = Cx.scale (-sigsqr) (J j) * Cx.conj (J i) / (r j + Cx.conj (r i)) := by
  unfold stationary
  have h1 : ¬ i ≤ j := not_le.mpr h
  have h2 : j ≤ i := le_of_lt h
  simp [h1, h2]

/-- With a `symmatu` that copies without conjugating, the stationary
covariance for the complex roots `-1 + i` and `-1 - i` is not Hermitian: the
entries `(0, 1)` and `(1, 0)` are both `-3/4 - 3/4 i`. -/
theorem stationary_copy_not_hermitian (A : Fin 2 → Fin 2 → Cx ℚ) :
    stationary (12 : ℚ)
        (cramer 2 (EigenMat (fun i : Fin 2 => if i.val = 0 then (⟨-1, 1⟩ : Cx ℚ) else ⟨-1, -1⟩))
          Rvector)
        (fun i : Fin 2 => if i.val = 0 then (⟨-1, 1⟩ : Cx ℚ) else ⟨-1, -1⟩) A false 1 0
      = ⟨-3 / 4, -3 / 4⟩ ∧
    Cx.conj (stationary (12 : ℚ)
        (cramer 2 (EigenMat (fun i : Fin 2 => if i.val = 0 then (⟨-1, 1⟩ : Cx ℚ) else ⟨-1, -1⟩))
          Rvector)
        (fun i : Fin 2 => if i.val = 0 then (⟨-1, 1⟩ : Cx ℚ) else ⟨-1, -1⟩) A false 0 1)
      = ⟨-3 / 4, 3 / 4⟩ := by
  constructor
  · ext <;> simp [stationary, cramer, det, EigenMat, Rvector, Fin.sum_univ_succ] <;> norm_num
  · ext <;> simp [stationary, cramer, det, EigenMat, Rvector, Fin.sum_univ_succ] <;> norm_num

/-- `KalmanFilter1::Reset` called twice in a row gives the state of one call. -/
theorem KalmanFilter1.Reset1_twice {K : Type} [LinearOrderedField K] (s : KalmanFilter1 K) :
    s.Reset.bind KalmanFilter1.Reset = s.Reset := by
  cases h : s.Reset with
  | none => rfl
  | some s0 =>
    obtain ⟨hm, he, hv, rfl⟩ := KalmanFilter1.Reset_eq_some h
    rw [Option.some_bind, KalmanFilter1.Reset1_of_bounds]
    · simp [List.set_set]
    · simpa using hm
    · exact he
    · simpa using hv

/-- `KalmanFilterp::Reset` called twice in a row gives the state of one call. -/
theorem KalmanFilterp.Reset_twice {K : Type} [LinearOrderedField K] {p : Nat} (L : Lib K)
    (s : KalmanFilterp K p) :
    (KalmanFilterp.Reset L s).bind (KalmanFilterp.Reset L) = KalmanFilterp.Reset L s := by
  cases h : KalmanFilterp.Reset L s with
  | none => rfl
  | some s0 =>
    obtain ⟨h1, h2, h3, h4, h5⟩ := KalmanFilterp.Reset_bounds h
    rw [KalmanFilterp.Reset_of_bounds L s h1 h2 h3 h4 h5, Option.some.injEq] at h
    subst h
    rw [Option.some_bind, KalmanFilterp.Reset_of_bounds L _ h1]
    rotate_left
    · simpa using h2
    · simpa using h3
    · exact h4
    · exact h5
    have key := stationary_indep s.sigsqr_ (L.solve p (EigenMat s.ar_roots_) Rvector) s.ar_roots_
      (stationary s.sigsqr_ (L.solve p (EigenMat s.ar_roots_) Rvector) s.ar_roots_
        s.StateVar_ L.symmatu_conj) s.StateVar_ L.symmatu_conj
    simp [List.set_set, key]

/-- The parameters and the data of the order-1 filter after any number of
`Update`s are the ones before. -/
theorem KalmanFilter1.iterM_Update1_frame {K : Type} [LinearOrderedField K] (exp : K → K) :
    ∀ (k : Nat) (s s' : KalmanFilter1 K), iterM (KalmanFilter1.Update exp) k s = some s' →
      s'.sigsqr_ = s.sigsqr_ ∧ s'.omega_ = s.omega_ ∧ s'.yerr_ = s.yerr_ ∧
        s'.mean_.length = s.mean_.length ∧ s'.var_.length = s.var_.length := by
  intro k
  induction k with
  | zero =>
    intro s s' h
    simp only [iterM, Option.some.injEq] at h
    subst h
    exact ⟨rfl, rfl, rfl, rfl, rfl⟩
  | succ k ih =>
    intro s s' h
    rw [iterM, Option.bind_eq_some] at h
    obtain ⟨a, h1, h2⟩ := h
    obtain ⟨-, u2, u3, -, u5, -, -, u8, u9, -, -⟩ := KalmanFilter1.Update1_frame h1
    obtain ⟨v1, v2, v3, v4, v5⟩ := ih a s' h2
    exact ⟨by rw [v1, u2], by rw [v2, u3], by rw [v3, u5], by omega, by omega⟩

/-- The parameters and the data of the general-order filter after any number
of `Update`s are the ones before. -/
theorem KalmanFilterp.iterM_Update_params {K : Type} [LinearOrderedField K] {p : Nat}
    (L : Lib K) :
    ∀ (k : Nat) (s s' : KalmanFilterp K p), iterM (KalmanFilterp.Update L) k s = some s' →
      s'.sigsqr_ = s.sigsqr_ ∧ s'.ar_roots_ = s.ar_roots_ ∧ s'.ma_coefs_ = s.ma_coefs_ ∧
        s'.y_ = s.y_ ∧ s'.yerr_ = s.yerr_ ∧ s'.mean_.length = s.mean_.length ∧
        s'.var_.length = s.var_.length := by
  intro k
  induction k with
  | zero =>
    intro s s' h
    simp only [iterM, Option.some.injEq] at h
    subst h
    exact ⟨rfl, rfl, rfl, rfl, rfl, rfl, rfl⟩
  | succ k ih =>
    intro s s' h
    rw [iterM, Option.bind_eq_some] at h
    obtain ⟨a, h1, h2⟩ := h
    obtain ⟨-, u2, u3, u4, -, -, -, u8, u9, -, u11, u12, -, -⟩ := KalmanFilterp.Update_frame h1
    obtain ⟨v1, v2, v3, v4, v5, v6, v7⟩ := ih a s' h2
    exact ⟨by rw [v1, u2], by rw [v2, u3], by rw [v3, u4], by rw [v4, u8], by rw [v5, u9],
      by omega, by omega⟩

/-- `KalmanFilter1::Reset` after any number of `Update`s. -/
theorem KalmanFilter1.Reset1_after_Updates {K : Type} [LinearOrderedField K] (exp : K → K)
    (s sk r : KalmanFilter1 K) (k : Nat) (hk : iterM (KalmanFilter1.Update exp) k s = some sk)
    (hr : s.Reset = some r) :
    ∃ r', sk.Reset = some r' ∧ r'.mean_[0]? = r.mean_[0]? ∧ r'.var_[0]? = r.var_[0]? ∧
      r'.current_index_ = r.current_index_ := by
  obtain ⟨v1, v2, v3, v4, v5⟩ := KalmanFilter1.iterM_Update1_frame exp k s sk hk
  obtain ⟨hm, he, hv, rfl⟩ := KalmanFilter1.Reset_eq_some hr
  have hm' : 0 < sk.mean_.length := by omega
  have hv' : 0 < sk.var_.length := by omega
  have he' : 0 < sk.yerr_.length := by rw [v3]; exact he
  refine ⟨_, KalmanFilter1.Reset1_of_bounds sk hm' he' hv', ?_, ?_, rfl⟩
  · simp [hm, hm']
  · simp [hv, hv', v1, v2, v3]

/-- `KalmanFilterp::Reset` after any number of `Update`s. -/
theorem KalmanFilterp.Reset_after_Updates {K : Type} [LinearOrderedField K] {p : Nat}
    (L : Lib K) (s sk r : KalmanFilterp K p) (k : Nat)
    (hk : iterM (KalmanFilterp.Update L) k s = some sk)
    (hr : KalmanFilterp.Reset L s = some r) :
    ∃ r', KalmanFilterp.Reset L sk = some r' ∧ r'.mean_[0]? = r.mean_[0]? ∧
      r'.var_[0]? = r.var_[0]? ∧ r'.current_index_ = r.current_index_ ∧
      r'.state_vector_ = r.state_vector_ ∧ r'.StateVar_ = r.StateVar_ ∧
      r'.PredictionVar_ = r.PredictionVar_ ∧ r'.rotated_ma_coefs_ = r.rotated_ma_coefs_ ∧
      r'.innovation_ = r.innovation_ := by
  obtain ⟨v1, v2, v3, v4, v5, v6, v7⟩ := KalmanFilterp.iterM_Update_params L k s sk hk
  obtain ⟨h1, h2, h3, h4, h5⟩ := KalmanFilterp.Reset_bounds hr
  rw [KalmanFilterp.Reset_of_bounds L s h1 h2 h3 h4 h5, Option.some.injEq] at hr
  subst hr
  have hm' : 0 < sk.mean_.length := by omega
  have hv' : 0 < sk.var_.length := by omega
  have he' : 0 < sk.yerr_.length := by rw [v5]; exact h4
  have hy' : 0 < sk.y_.length := by rw [v4]; exact h5
  have key := stationary_indep s.sigsqr_ (L.solve p (EigenMat s.ar_roots_) Rvector) s.ar_roots_
      sk.StateVar_ s.StateVar_ L.symmatu_conj
  refine ⟨_, KalmanFilterp.Reset_of_bounds L sk h1 hm' hv' he' hy', ?_, ?_, rfl, rfl, ?_, ?_, ?_, ?_⟩
  · simp [h2, hm']
  · simp [h3, hv', v1, v2, v3, v5, key]
  · simp [v1, v2, key]
  · simp [v1, v2, key]
  · simp [v2, v3]
  · simp [v4]

/-- `Predict` leaves the array `time_` as it is. -/
theorem KalmanFilterp.Predict_time_frame {K : Type} [LinearOrderedField K] {p : Nat}
    {L : Lib K} {s : KalmanFilterp K p} {time : K} {r : KalmanFilterp K p × K × K}
    (h : KalmanFilterp.Predict L s time = some r) : r.1.time_ = s.time_ := by
  unfold KalmanFilterp.Predict at h
  simp only [Option.bind_eq_bind, Option.bind_eq_some] at h
  obtain ⟨ip, -, b, hb, h2⟩ := h
  obtain ⟨f1, -, -, -, -, -⟩ := KalmanFilterp.Predict.oneSided_frame hb
  split at h2
  · simp only [Option.pure_def, Option.some.injEq] at h2
    subst h2
    exact f1
  · unfold KalmanFilterp.Predict.merge at h2
    simp only [Option.bind_eq_bind, Option.bind_eq_some, Option.pure_def,
      Option.some.injEq] at h2
    obtain ⟨s1, hs1, a, ha, c, hc, rfl⟩ := h2
    obtain ⟨-, g2, -, -, -⟩ := KalmanFilterp.InitializeCoefs_frame hs1
    have ga : a.1 = s1 := KalmanFilterp.Predict.fold_frame ha
    have key := iterM_inv (KalmanFilterp.Predict.step L ip) (fun x => x.1.time_ = s.time_)
      (fun x y hx hxy => by
        unfold KalmanFilterp.Predict.step at hxy
        simp only [Option.bind_eq_bind, Option.bind_eq_some] at hxy
        obtain ⟨s2, h3, h4⟩ := hxy
        obtain ⟨-, u2, -, -, -⟩ := KalmanFilterp.UpdateCoefs_frame h3
        have gy : y.1 = s2 := KalmanFilterp.Predict.fold_frame h4
        show y.1.time_ = s.time_
        rw [gy, u2]; exact hx)
      _ a c (by show a.1.time_ = s.time_; rw [ga, g2, f1]) hc
    exact key

/-- The insertion scan of `Simulate` reads outside the array when every entry
of `time_` is below the query time. -/
theorem KalmanFilterp.Simulate.scan_none {K : Type} [LinearOrderedField K] (time_ : List K)
    (t : K) (h : ∀ x ∈ time_, x < t) :
    ∀ (m i : Nat), time_.length - i = m → KalmanFilterp.Simulate.scan time_ t i = none := by
  intro m
  induction m with
  | zero =>
    intro i hm
    rw [KalmanFilterp.Simulate.scan, dif_neg (by omega)]
  | succ m ih =>
    intro i hm
    have hi : i < time_.length := by omega
    rw [KalmanFilterp.Simulate.scan, dif_pos hi, if_pos (h _ (List.getElem_mem hi))]
    exact ih (i + 1) (by omega)

/-- The first pass of the loop of `Simulate` fails when every entry of `time_`
is below the first query time. -/
theorem KalmanFilterp.Simulate.step_none {K : Type} [LinearOrderedField K] {p : Nat}
    {G : Type} (L : Lib K) (S : SimLib K G) (s : KalmanFilterp K p) (t : K) (rest ys : List K)
    (idx : Nat) (g : G) (h : ∀ x ∈ s.time_, x < t) :
    KalmanFilterp.Simulate.step L S (t :: rest) (s, ys, idx, g) 0 = none := by
  unfold KalmanFilterp.Simulate.step
  simp only [rd, List.getElem?_cons_zero, Option.bind_eq_bind, Option.some_bind]
  cases hP : KalmanFilterp.Predict L s t with
  | none => rfl
  | some r =>
    have hr : r.1.time_ = s.time_ := KalmanFilterp.Predict_time_frame hP
    have hscan : KalmanFilterp.Simulate.scan r.1.time_ t idx = none := by
      rw [hr]; exact KalmanFilterp.Simulate.scan_none s.time_ t h _ idx rfl
    simp only [Option.some_bind, hscan, Option.none_bind]
    cases wr ys 0 (S.normal g r.2.1 (S.sqrt r.2.2)).1 <;> rfl

/-- On the order-2 sample series over `time_ = [0, 2]`, `Simulate` with the
sample library returns for the single query time 1. -/
theorem sample2_Simulate :
    ∃ r, KalmanFilterp.Simulate (cramerLib Real.exp Real.cos Real.sin Real.pi)
      (sampleSim Real.sqrt) (sample2 ℝ [0, 2] [1, 2]) [1] () = some r := by
  obtain ⟨r, hr⟩ := KalmanFilterp.Predict_isSome (cramerLib Real.exp Real.cos Real.sin Real.pi)
    (sample2 ℝ [0, 2] [1, 2]) 1 (by norm_num) (by simp [sample2])
    (by simp [sample2]) (by simp [sample2]) (by simp [sample2])
    (by simp [sample2]) (by simp [sample2])
  have ht : r.1.time_ = [0, 2] := KalmanFilterp.Predict_time_frame hr
  have hscan : KalmanFilterp.Simulate.scan r.1.time_ 1 0 = some 1 := by
    rw [ht, KalmanFilterp.Simulate.scan]
    simp
    rw [KalmanFilterp.Simulate.scan]
    simp
  have hstep : KalmanFilterp.Simulate.step (cramerLib Real.exp Real.cos Real.sin Real.pi)
      (sampleSim Real.sqrt) [1] (sample2 ℝ [0, 2] [1, 2], [0], 0, ()) 0
      = some ({ r.1 with time_ := r.1.time_.insertIdx 1 1,
                          y_ := r.1.y_.insertIdx 1 r.2.1,
                          yerr_ := r.1.yerr_.insertIdx 1 0 }, [r.2.1], 1, ()) := by
    unfold KalmanFilterp.Simulate.step
    simp [rd, wr, hr, hscan, sampleSim]
  have hsort : (sampleSim Real.sqrt).sort [(1 : ℝ)] = [1] := by simp [sampleSim]
  exact ⟨_, by
    simp only [KalmanFilterp.Simulate, hsort, List.length_singleton, List.range_succ_eq_map,
      List.range_zero, List.map_nil, List.foldlM_cons, List.foldlM_nil, List.map_cons,
      Option.bind_eq_bind, hstep, Option.some_bind, Option.pure_def]
    rfl⟩

/-- The factor `exp (-omega dt)` of the order-1 filter tends to 0 as `omega`
grows, for a positive gap `dt`. -/
theorem kf1_rho_tendsto (d : ℝ) (hd : 0 < d) :
    Filter.Tendsto (fun ω : ℝ => Real.exp (-1 * ω * d)) Filter.atTop (nhds 0) := by
  have h1 : Filter.Tendsto (fun ω : ℝ => ω * d) Filter.atTop Filter.atTop :=
    Filter.Tendsto.atTop_mul_const hd Filter.tendsto_id
  have h2 : Filter.Tendsto (fun ω : ℝ => -1 * ω * d) Filter.atTop Filter.atBot := by
    refine (Filter.tendsto_neg_atTop_atBot.comp h1).congr (fun ω => ?_)
    simp only [Function.comp]
    ring
  exact Real.tendsto_exp_atBot.comp h2

/-- The stationary variance `sigsqr / (2 omega)` tends to 0 as `omega` grows. -/
theorem kf1_stationary_tendsto (σ : ℝ) :
    Filter.Tendsto (fun ω : ℝ => σ / (2 * ω)) Filter.atTop (nhds 0) :=
  Filter.Tendsto.div_atTop tendsto_const_nhds
    (Filter.Tendsto.const_mul_atTop two_pos Filter.tendsto_id)

/-- Size of the mean that `Update` writes after `Reset`. -/
theorem kf1_mean_bound (S r e y : ℝ) (hS : 0 < S) (hr : 0 ≤ r) :
    ‖r * 0 + r * ((S + e * e - e * e) / (S + e * e)) * (y - 0)‖ ≤ r * |y| := by
  have he : 0 ≤ e * e := mul_self_nonneg e
  have hq0 : 0 ≤ S / (S + e * e) := div_nonneg hS.le (by linarith)
  have hq1 : S / (S + e * e) ≤ 1 := (div_le_one (by linarith)).mpr (by linarith)
  have e1 : r * 0 + r * ((S + e * e - e * e) / (S + e * e)) * (y - 0)
      = r * (S / (S + e * e)) * y := by
    rw [add_sub_cancel_right]; ring
  rw [e1, Real.norm_eq_abs, abs_mul, abs_mul, abs_of_nonneg hr, abs_of_nonneg hq0]
  have : r * (S / (S + e * e)) ≤ r := by nlinarith
  exact le_trans (mul_le_mul_of_nonneg_right this (abs_nonneg y)) (le_refl _)

/-- Distance of the variance that `Update` writes after `Reset` from the
stationary variance plus the measurement variance. -/
theorem kf1_var_bound (S r e e1 : ℝ) (hS : 0 < S) (hr0 : 0 ≤ r) (hr1 : r ≤ 1) :
    ‖S * (1 - r * r) + r * r * (S + e * e - e * e) * (1 - (S + e * e - e * e) / (S + e * e))
        + e1 * e1 - (S + e1 * e1)‖ ≤ S := by
  have he : 0 ≤ e * e := mul_self_nonneg e
  have hq0 : 0 ≤ S / (S + e * e) := div_nonneg hS.le (by linarith)
  have hq1 : S / (S + e * e) ≤ 1 := (div_le_one (by linarith)).mpr (by linarith)
  have e2 : S * (1 - r * r) + r * r * (S + e * e - e * e) * (1 - (S + e * e - e * e) / (S + e * e))
        + e1 * e1 - (S + e1 * e1) = -(r * r * S * (S / (S + e * e))) := by
    rw [add_sub_cancel_right]; ring
  have hrr : r * r ≤ 1 := by nlinarith
  have hrr0 : 0 ≤ r * r := mul_self_nonneg r
  have h3 : 0 ≤ r * r * S * (S / (S + e * e)) := by positivity
  have h4 : r * r * S * (S / (S + e * e)) ≤ S := by
    have : r * r * S ≤ S := by nlinarith
    have h5 : 0 ≤ r * r * S := by positivity
    nlinarith
  rw [e2, Real.norm_eq_abs, abs_neg, abs_of_nonneg h3]
  exact h4

/-- The scan of the interpolation branch of `KalmanFilter1::Predict`, entered
at the index `i` with `time_i = time_[i]`, returns when some entry from `i` on
is not below the query time: it stops at the first such entry. -/
theorem kf1_scan_spec {K : Type} [LinearOrderedField K] (time_ : List K) (t : K) :
    ∀ (m i k : Nat) (hi : i < time_.length) (hk : k < time_.length), k - i = m → i ≤ k →
      t ≤ time_[k] →
      ∃ ip, ∃ h : ip < time_.length,
        KalmanFilter1.Predict.scan time_ t i time_[i] = some (ip, time_[ip]) ∧
        i ≤ ip ∧ ip ≤ k ∧ t ≤ time_[ip] ∧
        (∀ j (hj : j < time_.length), i ≤ j → j < ip → time_[j] < t) := by
  intro m
  induction m with
  | zero =>
    intro i k hi hk hm hik hle
    have e : i = k := by omega
    subst e
    rw [KalmanFilter1.Predict.scan, if_neg (not_lt.mpr hle)]
    exact ⟨i, hi, rfl, le_refl _, le_refl _, hle, fun j _ h1 h2 => by omega⟩
  | succ m ih =>
    intro i k hi hk hm hik hle
    rw [KalmanFilter1.Predict.scan]
    by_cases hgt : t > time_[i]
    · have hi1 : i + 1 < time_.length := by omega
      rw [if_pos hgt, dif_pos hi1]
      obtain ⟨ip, h, h1, h2, h3, h4, h5⟩ := ih (i + 1) k hi1 hk (by omega) (by omega) hle
      refine ⟨ip, h, h1, by omega, h3, h4, fun j hj h6 h7 => ?_⟩
      rcases Nat.eq_or_lt_of_le h6 with h8 | h8
      · subst h8; exact hgt
      · exact h5 j hj h8 h7
    · rw [if_neg hgt]
      exact ⟨i, hi, rfl, le_refl _, hik, not_lt.mp hgt, fun j _ h1 h2 => by omega⟩

/-- For a query time strictly after the first time and not after the last
one, the scan of `KalmanFilter1::Predict` returns an index `i` with
`1 ≤ i ≤ n - 1` and `time_[i-1] < time ≤ time_[i]`. -/
theorem kf1_scan_interior {K : Type} [LinearOrderedField K] (time_ : List K) (t : K)
    (h0 : 0 < time_.length) (hfirst : time_[0] < t)
    (hlast : t ≤ time_[time_.length - 1]) :
    ∃ ip, ∃ h : ip < time_.length,
      KalmanFilter1.Predict.scan time_ t 0 time_[0] = some (ip, time_[ip]) ∧
      1 ≤ ip ∧ ip ≤ time_.length - 1 ∧ time_[ip - 1] < t ∧ t ≤ time_[ip] := by
  obtain ⟨ip, h, h1, -, h3, h4, h5⟩ := kf1_scan_spec time_ t (time_.length - 1 - 0) 0
    (time_.length - 1) h0 (by omega) rfl (Nat.zero_le _) hlast
  have hpos : 1 ≤ ip := by
    rcases Nat.eq_zero_or_pos ip with h6 | h6
    · subst h6
      exact absurd hfirst (not_lt.mpr h4)
    · exact h6
  exact ⟨ip, h, h1, hpos, h3, h5 (ip - 1) (by omega) (Nat.zero_le _) (by omega), h4⟩

/-- The real part of a finite sum of complex numbers. -/
theorem Cx.re_sum {K : Type} [Field K] {ι : Type} (t : Finset ι) (f : ι → Cx K) :
    (∑ i in t, f i).re = ∑ i in t, (f i).re := by
  classical
  induction t using Finset.induction_on with
  | empty => simp
  | insert h ih => rw [Finset.sum_insert h, Finset.sum_insert h, Cx.add_re, ih]

/-- The real part of the product of a row with a vector is affine in a real
parameter of the vector. -/
theorem dot_re_affine {K : Type} [LinearOrderedField K] {p : Nat} (r u v : Fin p → Cx K)
    (z : K) :
    (dot r u).re + (dot r v).re * z = (dot r (fun i => u i + Cx.scale z (v i))).re := by
  unfold dot
  rw [Cx.re_sum, Cx.re_sum, Cx.re_sum, Finset.sum_mul, ← Finset.sum_add_distrib]
  refine Finset.sum_congr rfl (fun i _ => ?_)
  simp only [Cx.mul_re, Cx.add_re, Cx.add_im, Cx.scale_re, Cx.scale_im]
  ring

/-- `UpdateCoefs` writes `var_` at `current_index_` only. -/
theorem KalmanFilterp.UpdateCoefs_var_frame {K : Type} [LinearOrderedField K] {p : Nat}
    {L : Lib K} {s s' : KalmanFilterp K p} (h : KalmanFilterp.UpdateCoefs L s = some s')
    (j : Nat) (hj : j ≠ s.current_index_) : s'.var_[j]? = s.var_[j]? := by
  obtain ⟨h1, h2, h3, h4⟩ := KalmanFilterp.UpdateCoefs_bounds h
  rw [KalmanFilterp.UpdateCoefs_of_bounds L s h1 h2 h3 h4] at h
  simp only [Option.some.injEq] at h
  subst h
  simp [List.getElem?_set, Ne.symm hj]

/-- One contribution to the precision does not lower it when the variance it
is divided by is positive. -/
theorem precision_step_le {K : Type} [LinearOrderedField K] (q a c w : K) (hw : 0 < w)
    (h : q ≤ a) : q ≤ a + c * c / w :=
  le_trans h (le_add_of_nonneg_right (div_nonneg (mul_self_nonneg c) hw.le))

/-- The folding stage of `Predict` keeps the entry `var_[ipredict]` and does
not lower the precision below the one-sided precision `q`. -/
theorem KalmanFilterp.Predict.fold_inv {K : Type} [LinearOrderedField K] {p : Nat}
    (ip : Nat) (q w : K) (hw : 0 < w) (a c : KalmanFilterp K p × K × K)
    (ha : a.1.var_[ip]? = some w ∧ q ≤ a.2.1 ∧ ip < a.1.current_index_)
    (h : KalmanFilterp.Predict.fold ip a = some c) :
    c.1.var_[ip]? = some w ∧ q ≤ c.2.1 ∧ ip < c.1.current_index_ := by
  obtain ⟨c1, c2⟩ := KalmanFilterp.Predict.fold_bounds h
  rw [KalmanFilterp.Predict.fold_of_bounds ip a c1 c2, Option.some.injEq] at h
  subst h
  obtain ⟨a1, a2, a3⟩ := ha
  refine ⟨a1, ?_, a3⟩
  have e : a.1.var_[ip] = w := by
    rw [List.getElem?_eq_getElem c1] at a1
    exact Option.some.inj a1
  show q ≤ a.2.1 + a.1.yslope_ * a.1.yslope_ / a.1.var_[ip]
  rw [e]
  exact precision_step_le q a.2.1 a.1.yslope_ w hw a2

/-- One pass of the loop of `Predict` keeps the entry `var_[ipredict]` and
does not lower the precision. -/
theorem KalmanFilterp.Predict.step_inv {K : Type} [LinearOrderedField K] {p : Nat}
    (L : Lib K) (ip : Nat) (q w : K) (hw : 0 < w) (a c : KalmanFilterp K p × K × K)
    (ha : a.1.var_[ip]? = some w ∧ q ≤ a.2.1 ∧ ip < a.1.current_index_)
    (h : KalmanFilterp.Predict.step L ip a = some c) :
    c.1.var_[ip]? = some w ∧ q ≤ c.2.1 ∧ ip < c.1.current_index_ := by
  unfold KalmanFilterp.Predict.step at h
  simp only [Option.bind_eq_bind, Option.bind_eq_some] at h
  obtain ⟨s2, h1, h2⟩ := h
  obtain ⟨a1, a2, a3⟩ := ha
  have f := KalmanFilterp.UpdateCoefs_var_frame h1 ip (Nat.ne_of_lt a3)
  obtain ⟨g1, -, -, -, -⟩ := KalmanFilterp.UpdateCoefs_frame h1
  exact KalmanFilterp.Predict.fold_inv ip q w hw (s2, a.2.1, a.2.2) c
    ⟨by rw [← a1]; exact f, a2, by show ip < s2.current_index_; rw [g1]; exact Nat.lt_succ_of_lt a3⟩
    h2

/-- The reciprocal of a precision that is at least `1 / v` is positive and at
most `v`. -/
theorem one_div_precision {K : Type} [LinearOrderedField K] (v q : K) (hv : 0 < v)
    (h : 1 / v ≤ q) : 0 < 1 / q ∧ 1 / q ≤ v := by
  have hq : 0 < q := lt_of_lt_of_le (one_div_pos.mpr hv) h
  refine ⟨one_div_pos.mpr hq, ?_⟩
  have := one_div_le_one_div_of_le (one_div_pos.mpr hv) h
  rwa [one_div_one_div] at this

/-- The one-sided variance and the entry `var_[1]` that `InitializeCoefs`
writes on the sample filter `sample3` over `time = [0, 2]`, `y = [1, 3]` at the
query time 1 are both `1 - exp(-1)^2`. -/
theorem sample3_coefs :
    ∃ b s1, KalmanFilterp.Predict.scan (sample3 ℝ [0, 2] [1, 3]).time_ 1 0 = some 1 ∧
      KalmanFilterp.Predict.oneSided (cramerLib Real.exp Real.cos Real.sin Real.pi)
        (sample3 ℝ [0, 2] [1, 3]) 1 1 = some b ∧
      b.1.time_.length = 2 ∧
      b.2.2 = 1 - Real.exp (-1) * Real.exp (-1) ∧
      KalmanFilterp.InitializeCoefs (cramerLib Real.exp Real.cos Real.sin Real.pi)
        b.1 1 1 b.2.1 b.2.2 = some s1 ∧
      s1.var_[1]? = some (1 - Real.exp (-1) * Real.exp (-1)) := by
  obtain ⟨b, hb, m1, v1, pv00, st0, rot, sv00, root0, tm, yy, vlen⟩ := sample3_oneSided
  have hpos : 0 < Real.exp (-1) := Real.exp_pos _
  have hlt : Real.exp (-1) < 1 := Real.exp_lt_one_iff.mpr (by norm_num)
  have hu : 0 < 1 - Real.exp (-1) * Real.exp (-1) := by nlinarith
  have ht1 : 1 < b.1.time_.length := by rw [tm]; simp
  have hv1 : 1 < b.1.var_.length := by rw [vlen]; norm_num
  have hI := KalmanFilterp.InitializeCoefs_of_bounds
    (cramerLib Real.exp Real.cos Real.sin Real.pi) b.1 1 1 b.2.1 b.2.2 ht1 hv1
  obtain ⟨s1, hs1⟩ : ∃ s1, KalmanFilterp.InitializeCoefs
    (cramerLib Real.exp Real.cos Real.sin Real.pi) b.1 1 1 b.2.1 b.2.2 = some s1 := ⟨_, hI⟩
  rw [hs1] at hI
  have e := Option.some.inj hI
  have htime : b.1.time_[1] = 2 := by simp [tm]
  have hg0 : gain b.1.PredictionVar_
      (fun i : Fin 2 => if i.val = 0 then (⟨1, 0⟩ : Cx ℝ) else ⟨0, 0⟩)
      (1 - Real.exp (-1) * Real.exp (-1)) 0 = ⟨1, 0⟩ := by
    ext
    · simp [gain, pv00, Fin.sum_univ_succ]
      exact div_self hu.ne'
    · simp [gain, pv00, Fin.sum_univ_succ]
  have hd0 : decay (cramerLib Real.exp Real.cos Real.sin Real.pi) b.1.ar_roots_
      (b.1.time_[1] - 1) 0 = ⟨Real.exp (-1), 0⟩ := by
    rw [htime]
    ext <;> simp [decay, Cx.exp, cramerLib, root0] <;> norm_num
  have hw : s1.var_[1]? = some (1 - Real.exp (-1) * Real.exp (-1)) := by
    rw [e]
    simp only [List.getElem?_set_self hv1]
    simp [quad, propagate, shrink, rot, v1, Fin.sum_univ_succ, hg0, hd0, pv00, sv00]
    ring
  have hscan : KalmanFilterp.Predict.scan (sample3 ℝ [0, 2] [1, 3]).time_ 1 0 = some 1 := by
    rw [KalmanFilterp.Predict.scan]
    simp [sample3, sample2]
    rw [KalmanFilterp.Predict.scan]
    simp
  exact ⟨b, s1, hscan, hb, by rw [tm]; rfl, v1, hs1, hw⟩

/-- The process part of the variance that one `Update` of the order-1 filter
writes is at most `S` when the process part it reads is between 0 and `S`. -/
theorem kf1_var_le {K : Type} [LinearOrderedField K] (S r v e : K) (hv : 0 < v)
    (hp : 0 ≤ v - e * e) (hS : v - e * e ≤ S) :
    S * (1 - r * r) + r * r * (v - e * e) * (1 - (v - e * e) / v) ≤ S := by
  have h1 : 0 ≤ (v - e * e) / v := div_nonneg hp hv.le
  have h2 : (v - e * e) * (1 - (v - e * e) / v) ≤ S := by nlinarith
  have h3 : 0 ≤ r * r := mul_self_nonneg r
  nlinarith

/-! ## The claims -/

/-- C1: `KalmanFilterp::Update` multiplies every coordinate of the updated
state by its decay factor twice: with `rho = exp(root·dt)` and
`K = PredictionVar · rotated_ma^H / var[i-1]` the new state is
`rho ⊙ (state_prev + K·innovation) ⊙ rho`. -/
theorem KalmanFilterp.Update_state_twice {K : Type} [LinearOrderedField K] {p : Nat}
    (L : Lib K) (s s' : KalmanFilterp K p) (h : KalmanFilterp.Update L s = some s') :
    ∃ v dt, s.var_[s.current_index_ - 1]? = some v ∧ s.dt_[s.current_index_ - 1]? = some dt ∧
      ∀ i, s'.state_vector_ i =
        decay L s.ar_roots_ dt i *
          (s.state_vector_ i + Cx.scale s.innovation_
            (gain s.PredictionVar_ s.rotated_ma_coefs_ v i)) *
          decay L s.ar_roots_ dt i := by
  obtain ⟨hc, hdt, hm, hv, he, hy⟩ := KalmanFilterp.Update_bounds h
  rw [KalmanFilterp.Update_of_bounds L s hc hdt hm hv he hy] at h
  simp only [Option.some.injEq] at h
  subst h
  exact ⟨_, _, List.getElem?_eq_getElem (by omega), List.getElem?_eq_getElem hdt, fun i => rfl⟩

/-- On the sample filter of order 2, after `Reset` and one `Update` with gap 1,
coordinate 0 of the state is `2·exp(-1)²`, not `rho·(state_prev + K·innovation)
= 2·exp(-1)`. -/
theorem KalmanFilterp.Update_state_twice_witness :
    ∃ s0 s',
      KalmanFilterp.Reset (cramerLib Real.exp Real.cos Real.sin Real.pi)
        (sample2 ℝ [0, 1] [1, 2]) = some s0 ∧
      KalmanFilterp.Update (cramerLib Real.exp Real.cos Real.sin Real.pi) s0 = some s' ∧
      s'.state_vector_ 0 = ⟨2 * Real.exp (-1) * Real.exp (-1), 0⟩ ∧
      decay (cramerLib Real.exp Real.cos Real.sin Real.pi) s0.ar_roots_ 1 0 *
        (s0.state_vector_ 0 + Cx.scale s0.innovation_
          (gain s0.PredictionVar_ s0.rotated_ma_coefs_ 1 0)) = ⟨2 * Real.exp (-1), 0⟩ ∧
      s'.state_vector_ 0 ≠
        decay (cramerLib Real.exp Real.cos Real.sin Real.pi) s0.ar_roots_ 1 0 *
          (s0.state_vector_ 0 + Cx.scale s0.innovation_
            (gain s0.PredictionVar_ s0.rotated_ma_coefs_ 1 0)) := by
  have hR := KalmanFilterp.Reset_of_bounds (cramerLib Real.exp Real.cos Real.sin Real.pi)
    (sample2 ℝ [0, 1] [1, 2]) (by norm_num) (by simp [sample2]) (by simp [sample2])
    (by simp [sample2]) (by simp [sample2])
  obtain ⟨s0, h0⟩ : ∃ s0, KalmanFilterp.Reset (cramerLib Real.exp Real.cos Real.sin Real.pi)
    (sample2 ℝ [0, 1] [1, 2]) = some s0 := ⟨_, hR⟩
  rw [h0] at hR
  have hs0 := Option.some.inj hR
  have hU := KalmanFilterp.Update_of_bounds (cramerLib Real.exp Real.cos Real.sin Real.pi) s0
    (by rw [hs0]; simp) (by rw [hs0]; simp [sample2]) (by rw [hs0]; simp [sample2])
    (by rw [hs0]; simp [sample2]) (by rw [hs0]; simp [sample2]) (by rw [hs0]; simp [sample2])
  obtain ⟨s', h1⟩ : ∃ s', KalmanFilterp.Update (cramerLib Real.exp Real.cos Real.sin Real.pi) s0
    = some s' := ⟨_, hU⟩
  obtain ⟨v, dt, hv, hdt, hst⟩ := KalmanFilterp.Update_state_twice _ s0 s' h1
  have hv1 : v = 1 := by
    have : s0.var_[s0.current_index_ - 1]? = some 1 := by
      rw [hs0]
      simp [sample2_stationary, sample2_rotate, cramerLib, quad, Fin.sum_univ_succ]
      simp [sample2]
      norm_num
    rw [this] at hv
    exact (Option.some.inj hv).symm
  have hdt1 : dt = 1 := by
    have : s0.dt_[s0.current_index_ - 1]? = some 1 := by
      rw [hs0]; simp [sample2]
    rw [this] at hdt
    exact (Option.some.inj hdt).symm
  subst hv1 hdt1
  have hclaim : decay (cramerLib Real.exp Real.cos Real.sin Real.pi) s0.ar_roots_ 1 0 *
        (s0.state_vector_ 0 + Cx.scale s0.innovation_
          (gain s0.PredictionVar_ s0.rotated_ma_coefs_ 1 0)) = ⟨2 * Real.exp (-1), 0⟩ := by
    rw [hs0]
    ext <;>
      simp [sample2_stationary, sample2_rotate, cramerLib, gain, decay, Cx.exp,
        Fin.sum_univ_succ] <;> (try simp [sample2]) <;> (try ring)
  have hd0 : decay (cramerLib Real.exp Real.cos Real.sin Real.pi) s0.ar_roots_ 1 0
      = ⟨Real.exp (-1), 0⟩ := by
    rw [hs0]
    ext <;> simp [cramerLib, decay, Cx.exp, sample2]
  have hval : s'.state_vector_ 0 = ⟨2 * Real.exp (-1) * Real.exp (-1), 0⟩ := by
    rw [hst 0, hclaim, hd0]
    ext <;> simp
  refine ⟨s0, s', h0, h1, hval, hclaim, ?_⟩
  rw [hval, hclaim]
  intro hEq
  have hre := congrArg Cx.re hEq
  simp only at hre
  have hpos : 0 < Real.exp (-1) := Real.exp_pos _
  have hlt : Real.exp (-1) < 1 := Real.exp_lt_one_iff.mpr (by norm_num)
  nlinarith

/-- C2: in `KalmanFilterp::Predict` with `ipredict < n` the one-sided mean
enters the accumulator as it is, not divided by the one-sided variance.  On
the filter `sample3` over `time = [0, 2]`, `y = [1, 3]` at the query time 1,
with `(m_b, v_b)` the one-sided mean and variance and `(yconst, yslope, w)`
the coefficients and variance that `InitializeCoefs` derives for index 1, the
returned variance is `v = 1 / (1/v_b + yslope²/w)` and the returned mean is
`v · (m_b + yslope·(y[1] - yconst)/w)`, which differs from
`v · (m_b/v_b + yslope·(y[1] - yconst)/w)`. -/
theorem KalmanFilterp.Predict_mean_unweighted :
    ∃ b s1 w t' m v,
      KalmanFilterp.Predict.oneSided (cramerLib Real.exp Real.cos Real.sin Real.pi)
        (sample3 ℝ [0, 2] [1, 3]) 1 1 = some b ∧
      KalmanFilterp.InitializeCoefs (cramerLib Real.exp Real.cos Real.sin Real.pi)
        b.1 1 1 b.2.1 b.2.2 = some s1 ∧
      s1.var_[1]? = some w ∧
      KalmanFilterp.Predict (cramerLib Real.exp Real.cos Real.sin Real.pi)
        (sample3 ℝ [0, 2] [1, 3]) 1 = some (t', m, v) ∧
      v = 1 / (1 / b.2.2 + s1.yslope_ * s1.yslope_ / w) ∧
      m = v * (b.2.1 + s1.yslope_ * (3 - s1.yconst_) / w) ∧
      m ≠ v * (b.2.1 / b.2.2 + s1.yslope_ * (3 - s1.yconst_) / w) := by
  obtain ⟨b, hb, m1, v1, pv00, st0, rot, sv00, root0, tm, yy, vlen⟩ := sample3_oneSided
  have hpos : 0 < Real.exp (-1) := Real.exp_pos _
  have hlt : Real.exp (-1) < 1 := Real.exp_lt_one_iff.mpr (by norm_num)
  have hu : 0 < 1 - Real.exp (-1) * Real.exp (-1) := by nlinarith
  have ht1 : 1 < b.1.time_.length := by rw [tm]; simp
  have hv1 : 1 < b.1.var_.length := by rw [vlen]; norm_num
  have hI := KalmanFilterp.InitializeCoefs_of_bounds
    (cramerLib Real.exp Real.cos Real.sin Real.pi) b.1 1 1 b.2.1 b.2.2 ht1 hv1
  obtain ⟨s1, hs1⟩ : ∃ s1, KalmanFilterp.InitializeCoefs
    (cramerLib Real.exp Real.cos Real.sin Real.pi) b.1 1 1 b.2.1 b.2.2 = some s1 := ⟨_, hI⟩
  rw [hs1] at hI
  have e := Option.some.inj hI
  have htime : b.1.time_[1] = 2 := by simp [tm]
  have hg0 : gain b.1.PredictionVar_
      (fun i : Fin 2 => if i.val = 0 then (⟨1, 0⟩ : Cx ℝ) else ⟨0, 0⟩)
      (1 - Real.exp (-1) * Real.exp (-1)) 0 = ⟨1, 0⟩ := by
    ext
    · simp [gain, pv00, Fin.sum_univ_succ]
      exact div_self hu.ne'
    · simp [gain, pv00, Fin.sum_univ_succ]
  have hd0 : decay (cramerLib Real.exp Real.cos Real.sin Real.pi) b.1.ar_roots_
      (b.1.time_[1] - 1) 0 = ⟨Real.exp (-1), 0⟩ := by
    rw [htime]
    ext <;> simp [decay, Cx.exp, cramerLib, root0] <;> norm_num
  have hslope : s1.yslope_ = Real.exp (-1) := by
    rw [e]
    simp [dot, rot, v1, Fin.sum_univ_succ, hg0, hd0]
  have hconst : s1.yconst_ = 0 := by
    rw [e]
    simp [dot, rot, v1, Fin.sum_univ_succ, hg0, hd0, st0, m1]
  have hw : s1.var_[1]? = some (1 - Real.exp (-1) * Real.exp (-1)) := by
    rw [e]
    simp only [List.getElem?_set_self hv1]
    simp [quad, propagate, shrink, rot, v1, Fin.sum_univ_succ, hg0, hd0, pv00, sv00]
    ring
  have hs1y : s1.y_ = [1, 3] := by rw [e]; exact yy
  have hs1t : s1.time_.length = 2 := by rw [e]; show b.1.time_.length = 2; rw [tm]; rfl
  have hs1v : 1 < s1.var_.length := by rw [e]; simpa using hv1
  have hs1y1 : 1 < s1.y_.length := by rw [hs1y]; simp
  have hwv : s1.var_[1] = 1 - Real.exp (-1) * Real.exp (-1) := by
    rw [List.getElem?_eq_getElem hs1v] at hw
    exact Option.some.inj hw
  have hy1 : s1.y_[1] = 3 := by simp [hs1y]
  have hF := KalmanFilterp.Predict.fold_of_bounds 1 (s1, 1 / b.2.2, b.2.1) hs1v hs1y1
  have hscan : KalmanFilterp.Predict.scan (sample3 ℝ [0, 2] [1, 3]).time_ 1 0 = some 1 := by
    rw [KalmanFilterp.Predict.scan]
    simp [sample3, sample2]
    rw [KalmanFilterp.Predict.scan]
    simp
  obtain ⟨a, ha⟩ : ∃ a, KalmanFilterp.Predict.fold 1 (s1, 1 / b.2.2, b.2.1) = some a := ⟨_, hF⟩
  rw [ha] at hF
  have ea := Option.some.inj hF
  have hc : iterM (KalmanFilterp.Predict.step (cramerLib Real.exp Real.cos Real.sin Real.pi) 1)
      (s1.time_.length - (1 + 1)) a = some a := by
    rw [hs1t]; rfl
  have hend : ¬ (1 = b.1.time_.length) := by rw [tm]; simp
  have hP := KalmanFilterp.Predict_eq (cramerLib Real.exp Real.cos Real.sin Real.pi)
    (sample3 ℝ [0, 2] [1, 3]) 1 hscan hb
  rw [if_neg hend, KalmanFilterp.Predict.merge_eq _ 1 1 hs1 ha hc] at hP
  have ea1 : a.2.1 = 1 / b.2.2 + s1.yslope_ * s1.yslope_ / (1 - Real.exp (-1) * Real.exp (-1)) := by
    rw [ea]; simp only [hwv]
  have ea2 : a.2.2 = b.2.1 + s1.yslope_ * (3 - s1.yconst_) / (1 - Real.exp (-1) * Real.exp (-1)) := by
    rw [ea]; simp only [hwv, hy1]
  refine ⟨b, s1, _, _, _, _, hb, hs1, hw, hP, ?_, ?_, ?_⟩
  · rw [ea1]
  · rw [ea1, ea2]
    ring
  · rw [ea1, ea2, hslope, hconst, m1, v1]
    intro hEq
    have h1u : 1 / (1 - Real.exp (-1) * Real.exp (-1))
        + Real.exp (-1) * Real.exp (-1) / (1 - Real.exp (-1) * Real.exp (-1))
        = (1 + Real.exp (-1) * Real.exp (-1)) / (1 - Real.exp (-1) * Real.exp (-1)) := by
      field_simp
    rw [h1u] at hEq
    have hq : 0 < 1 + Real.exp (-1) * Real.exp (-1) := by positivity
    field_simp at hEq
    have h0 : (Real.exp (-1) * Real.exp (-1) * (1 - Real.exp (-1) * Real.exp (-1))
        + Real.exp (-1) * 3 - (Real.exp (-1) * Real.exp (-1) + Real.exp (-1) * 3))
        * ((1 + Real.exp (-1) * Real.exp (-1)) * (1 - Real.exp (-1) * Real.exp (-1))) = 0 := by
      linear_combination hEq
    rcases mul_eq_zero.mp h0 with h | h
    · have h4 : 0 < Real.exp (-1) * Real.exp (-1) * (Real.exp (-1) * Real.exp (-1)) := by
        positivity
      linarith
    · exact absurd h (mul_pos hq hu).ne'

/-- C3: in `KalmanFilterp::Predict` the data of the last observation is not
folded in when it lies after index `ipredict`: the loop over the later
observations reads `y_[ipredict]` and `var_[ipredict]` in every pass, and
`UpdateCoefs` reads `y_` up to index `n-2` only, so the returned mean and
variance are the same whatever the value `y[n-1]`. -/
theorem KalmanFilterp.Predict_ignores_last {K : Type} [LinearOrderedField K] {p : Nat}
    (L : Lib K) (s : KalmanFilterp K p) (time u : K)
    (ip : Nat) (hscan : KalmanFilterp.Predict.scan s.time_ time 0 = some ip)
    (hip : ip + 1 < s.time_.length) :
    (KalmanFilterp.Predict L (s.setY (s.time_.length - 1) u) time).map Prod.snd
      = (KalmanFilterp.Predict L s time).map Prod.snd := by
  rw [KalmanFilterp.Predict_setY L s time u ip (s.time_.length - 1) hscan (by omega) (by omega)]
  cases KalmanFilterp.Predict L s time <;> simp

/-- On the sample filter of order 2 over two points, the backcast at time -1
returns, and returns the same when `y[1] = 2` is replaced by 5. -/
theorem KalmanFilterp.Predict_ignores_last_witness :
    (∃ r, KalmanFilterp.Predict (cramerLib Real.exp Real.cos Real.sin Real.pi)
      (sample2 ℝ [0, 1] [1, 2]) (-1) = some r) ∧
    (KalmanFilterp.Predict (cramerLib Real.exp Real.cos Real.sin Real.pi)
      ((sample2 ℝ [0, 1] [1, 2]).setY 1 5) (-1)).map Prod.snd
      = (KalmanFilterp.Predict (cramerLib Real.exp Real.cos Real.sin Real.pi)
          (sample2 ℝ [0, 1] [1, 2]) (-1)).map Prod.snd :=
  ⟨KalmanFilterp.Predict_isSome _ _ _ (by norm_num) (by simp [sample2]) (by simp [sample2])
      (by simp [sample2]) (by simp [sample2]) (by simp [sample2]) (by simp [sample2]),
    KalmanFilterp.Predict_ignores_last (cramerLib Real.exp Real.cos Real.sin Real.pi)
      (sample2 ℝ [0, 1] [1, 2]) (-1) 5 0
      (by rw [KalmanFilterp.Predict.scan]; simp [sample2]) (by simp [sample2])⟩

/-- C5: for a parameter vector of odd length `p` the read `omega(p+1)` of the
trailing width is outside the bounds of the length-`p` input, so
`KalmanFilterp::ARRoots` returns no vector, whatever the size of the local
vector `ar_roots`. -/
theorem ARRoots_odd_read_out_of_bounds {K : Type} [LinearOrderedField K] (pi : K)
    (omega : List K) (hodd : omega.length % 2 = 1) :
    rd omega (omega.length + 1) = none ∧ ARRoots pi omega = none ∧
      ∀ init, ARRoots.body pi omega init = none := by
  have hrd : rd omega (omega.length + 1) = none := by simp [rd]
  have hbody : ∀ init, ARRoots.body pi omega init = none := by
    intro init
    unfold ARRoots.body
    simp only [hodd, if_true, hrd]
    cases List.foldlM (fun (ar : List (Cx K)) i => do
      let lorentz_cent ← rd omega (2 * i)
      let lorentz_width ← rd omega (2 * i + 1)
      let ar ← wr ar (2 * i) ⟨-lorentz_width, lorentz_cent⟩
      let z ← rd ar (2 * i)
      wr ar (2 * i + 1) (Cx.conj z)) init (List.range (omega.length / 2)) <;> simp
  exact ⟨hrd, hbody [], hbody⟩

/-- The parameter vector `[1]` of length 1 gives no roots. -/
theorem ARRoots_odd_read_out_of_bounds_witness :
    ARRoots Real.pi [1] = none :=
  (ARRoots_odd_read_out_of_bounds Real.pi [1] (by simp)).2.1

/-- C6: for a parameter vector with at least two entries the first write
`ar_roots(0)` is outside the bounds of the local vector, which was declared
without a size, so `KalmanFilterp::ARRoots` returns no vector. -/
theorem ARRoots_write_out_of_bounds {K : Type} [LinearOrderedField K] (pi : K)
    (omega : List K) (hlen : 2 ≤ omega.length) :
    ARRoots pi omega = none := by
  obtain ⟨m, hm⟩ : ∃ m, omega.length / 2 = m + 1 := ⟨omega.length / 2 - 1, by omega⟩
  simp only [ARRoots, ARRoots.body, hm, List.range_succ_eq_map, List.foldlM_cons]
  simp [wr]

/-- The parameter vector `[1, 2]` (center 1, width 2) gives no roots, while
the same statements started on a vector of size 2 give the conjugate pair
`2π·(-2 ± 1i)`. -/
theorem ARRoots_write_out_of_bounds_witness :
    ARRoots Real.pi [1, 2] = none ∧
      ARRoots.body Real.pi [1, 2] [0, 0]
        = some [⟨2 * Real.pi * -2, 2 * Real.pi * 1⟩, ⟨2 * Real.pi * -2, 2 * Real.pi * -1⟩] :=
  ⟨ARRoots_write_out_of_bounds Real.pi [1, 2] (by simp),
    by simp [ARRoots.body, rd, wr, Cx.conj, Cx.scale, List.range_succ]⟩

/-- C7: on a series of `n ≥ 2` points with strictly increasing times and
gaps `dt[k] = time[k+1] - time[k]`, for `1 ≤ i ≤ n-1` the values `mean[i]` and
`var[i] - yerr[i]^2` after `Reset` and `i` `Update`s are the mean and the
variance that `Predict(time[i])` returns on a filter with the same parameters
built from the first `i` points.  The order is at least 2, as `Reset`
requires, and both computations return. -/
theorem KalmanFilterp.forward_pass_eq_Predict {K : Type} [LinearOrderedField K] {p : Nat}
    (L : Lib K) (s t : KalmanFilterp K p) (i : Nat)
    (hp : 1 < p) (hi : 1 ≤ i) (hin : i < s.time_.length)
    (hsorted : s.time_.Pairwise (fun a b => a < b))
    (hy : s.y_.length = s.time_.length) (hyerr : s.yerr_.length = s.time_.length)
    (hmean : s.mean_.length = s.time_.length) (hvar : s.var_.length = s.time_.length)
    (hdtlen : s.dt_.length = s.time_.length - 1)
    (hdt : ∀ k (h : k + 1 < s.time_.length), s.dt_[k]? = some (s.time_[k + 1] - s.time_[k]))
    (t0 : t.time_ = s.time_.take i)
    (t1 : t.sigsqr_ = s.sigsqr_) (t2 : t.ar_roots_ = s.ar_roots_) (t3 : t.ma_coefs_ = s.ma_coefs_)
    (t4 : t.y_ = s.y_.take i) (t5 : t.yerr_ = s.yerr_.take i) (t6 : t.dt_ = s.dt_.take (i - 1))
    (t7 : t.mean_.length = i) (t8 : t.var_.length = i) :
    ∃ sf m v e t',
      (KalmanFilterp.Reset L s).bind (iterM (KalmanFilterp.Update L) i) = some sf ∧
      sf.mean_[i]? = some m ∧ sf.var_[i]? = some v ∧ s.yerr_[i]? = some e ∧
      KalmanFilterp.Predict L t s.time_[i] = some (t', m, v - e ^ 2) := by
  obtain ⟨sk, tk, h1, h2, c1, c2, e1, e2, e3, e4, e5, e6, r1, f1, f2, f3, f4, f5, f6,
      g1, g2, g3, g4, g5, g6⟩ := KalmanFilterp.run_agree L s t i hp hin hy hyerr hmean hvar
        hdtlen t1 t2 t3 t4 t5 t6 t7 t8 (i - 1) (by omega)
  have hci : sk.current_index_ = i := by omega
  have b1 : sk.current_index_ - 1 < sk.dt_.length := by rw [f4]; omega
  have b2 : sk.current_index_ < sk.mean_.length := by omega
  have b3 : sk.current_index_ < sk.var_.length := by omega
  have b4 : sk.current_index_ < sk.yerr_.length := by rw [f3]; omega
  have b5 : sk.current_index_ < sk.y_.length := by rw [f2]; omega
  have hU := KalmanFilterp.Update_of_bounds L sk (by omega) b1 b2 b3 b4 b5
  -- the prediction on the first `i` points
  have hscan : KalmanFilterp.Predict.scan t.time_ s.time_[i] 0 = some i := by
    rw [t0]; exact KalmanFilterp.Predict.scan_take s.time_ i hi hin hsorted
  have hlen : tk.time_.length = i := by rw [g1, t0, List.length_take]; omega
  have hO := KalmanFilterp.Predict.oneSided_of_run L t tk s.time_[i] i (by omega) h2
    (by omega) (by omega)
  -- the data the two last steps read
  have hvk : tk.var_[i - 1] = sk.var_[sk.current_index_ - 1] := by
    have hv1 : i - 1 < tk.var_.length := by omega
    have hv2 : i - 1 < sk.var_.length := by omega
    rw [List.getElem?_eq_getElem hv1, List.getElem?_eq_getElem hv2] at r1
    simp only [hci]
    exact Option.some.inj r1
  have htk : s.time_[i] - tk.time_[i - 1] = sk.dt_[sk.current_index_ - 1] := by
    have q := hdt (i - 1) (by omega)
    have hd1 : i - 1 < s.dt_.length := by omega
    rw [List.getElem?_eq_getElem hd1] at q
    have q2 := Option.some.inj q
    simp only [hci, f4, g1, t0, List.getElem_take]
    rw [q2]
    congr 2
    omega
  have hyi : sk.yerr_[sk.current_index_] = s.yerr_[i] := by simp only [hci, f3]
  refine ⟨?sf, ?m, ?v, s.yerr_[i], ?t', ?g1, ?g2, ?g3, List.getElem?_eq_getElem (by omega), ?g5⟩
  case g1 =>
    obtain ⟨j, rfl⟩ : ∃ j, i = j + 1 := ⟨i - 1, by omega⟩
    rw [Option.bind_eq_some] at h1
    obtain ⟨s0, q0, q1⟩ := h1
    rw [q0, Option.some_bind, iterM_succ_last]
    simp only [Nat.add_sub_cancel] at q1
    rw [q1, Option.some_bind]
    exact hU
  case g2 =>
    rw [← hci]
    exact List.getElem?_set_self b2
  case g3 =>
    rw [← hci]
    exact List.getElem?_set_self b3
  case g5 =>
    rw [KalmanFilterp.Predict_eq L t s.time_[i] hscan hO, if_pos hlen.symm]
    simp only [Option.some.injEq, Prod.mk.injEq]
    refine And.intro ?_ (And.intro ?_ ?_)
    · exact rfl
    · simp only [hvk, htk, e1, e2, e4, e5, e6]
    · simp only [hvk, htk, e1, e2, e3, e4, hyi]
      ring

/-- On the sample series `time = [0, 1, 3]` the forward pass at index 2 agrees
with `Predict(3)` on the filter over the first two points. -/
theorem KalmanFilterp.forward_pass_eq_Predict_witness :
    ∃ sf m v e t',
      (KalmanFilterp.Reset (cramerLib Real.exp Real.cos Real.sin Real.pi)
        (sample2 ℝ [0, 1, 3] [1, 2, 3])).bind
          (iterM (KalmanFilterp.Update (cramerLib Real.exp Real.cos Real.sin Real.pi)) 2)
        = some sf ∧
      sf.mean_[2]? = some m ∧ sf.var_[2]? = some v ∧
      (sample2 ℝ [0, 1, 3] [1, 2, 3]).yerr_[2]? = some e ∧
      KalmanFilterp.Predict (cramerLib Real.exp Real.cos Real.sin Real.pi)
        (sample2 ℝ [0, 1] [1, 2]) 3 = some (t', m, v - e ^ 2) :=
  KalmanFilterp.forward_pass_eq_Predict (cramerLib Real.exp Real.cos Real.sin Real.pi)
    (sample2 ℝ [0, 1, 3] [1, 2, 3]) (sample2 ℝ [0, 1] [1, 2]) 2 (by norm_num) (by norm_num)
    (by simp [sample2]) (by simp [sample2]) (by simp [sample2]) (by simp [sample2])
    (by simp [sample2]) (by simp [sample2]) (by simp [sample2])
    (by
      intro k h
      have hk : k < 2 := by
        have h2 : k + 1 < 3 := by simpa [sample2] using h
        omega
      interval_cases k <;> simp [sample2])
    (by simp [sample2]) rfl rfl rfl (by simp [sample2]) (by simp [sample2]) (by simp [sample2])
    (by simp [sample2]) (by simp [sample2])

/-- C8, order-1 filter: `KalmanFilter1::Update` leaves `current_index_` as it
is, so after `Reset` and any number of `Update`s `current_index_` is 1 and
the entries of `mean_` and `var_` from index 2 on are the ones before the
calls. -/
theorem KalmanFilter1.Update_keeps_index {K : Type} [LinearOrderedField K] (exp : K → K)
    (s : KalmanFilter1 K) (k : Nat) (sk : KalmanFilter1 K)
    (h : s.Reset.bind (iterM (KalmanFilter1.Update exp) k) = some sk) :
    sk.current_index_ = 1 ∧
      ∀ j, 2 ≤ j → sk.mean_[j]? = s.mean_[j]? ∧ sk.var_[j]? = s.var_[j]? := by
  rw [Option.bind_eq_some] at h
  obtain ⟨s0, h0, hk⟩ := h
  obtain ⟨hm, he, hv, rfl⟩ := KalmanFilter1.Reset_eq_some h0
  refine iterM_inv (KalmanFilter1.Update exp)
    (fun t => t.current_index_ = 1 ∧
      ∀ j, 2 ≤ j → t.mean_[j]? = s.mean_[j]? ∧ t.var_[j]? = s.var_[j]?) ?_ k _ sk ?_ hk
  · rintro a b ⟨h1, h2⟩ hab
    obtain ⟨f1, -, -, -, -, -, -, -, -, f6, f7⟩ := KalmanFilter1.Update1_frame hab
    refine ⟨by omega, fun j hj => ?_⟩
    rw [f6 j (by omega), f7 j (by omega)]
    exact h2 j hj
  · refine ⟨rfl, fun j hj => ?_⟩
    have : 0 ≠ j := by omega
    simp [List.getElem?_set, this]

/-- On the sample series of three points, after `Reset` and two `Update`s
`current_index_` is 1 and the entries of index 2 still hold the mark 7. -/
theorem KalmanFilter1.Update_keeps_index_witness :
    ∃ sk, (sample1 ℝ).Reset.bind (iterM (KalmanFilter1.Update Real.exp) 2) = some sk ∧
      sk.current_index_ = 1 ∧ sk.mean_[2]? = some 7 ∧ sk.var_[2]? = some 7 := by
  obtain ⟨sk, h, -⟩ := KalmanFilter1.run_isSome Real.exp (sample1 ℝ) (by simp [sample1])
    (by simp [sample1]) (by simp [sample1]) (by simp [sample1]) (by simp [sample1]) 2
  have key := KalmanFilter1.Update_keeps_index Real.exp (sample1 ℝ) 2 sk h
  exact ⟨sk, h, key.1, by rw [(key.2 2 (le_refl 2)).1]; simp [sample1],
    by rw [(key.2 2 (le_refl 2)).2]; simp [sample1]⟩

/-- C9: on a non-empty strictly increasing time array the scan at the start
of `KalmanFilterp::Predict` returns (no read is outside the array) an index
`ipredict ≤ n` that is the number of entries strictly below the query time:
every entry before it is below the query time, the entry at it (if any) is
not, it is 0 when the query is not after the first time and `n` when the
query is after the last time. -/
theorem KalmanFilterp.Predict.scan_bracket {K : Type} [LinearOrderedField K]
    (time_ : List K) (t : K) (hne : time_ ≠ []) (hs : time_.Pairwise (fun a b => a < b)) :
    ∃ ip, KalmanFilterp.Predict.scan time_ t 0 = some ip ∧ ip ≤ time_.length ∧
      ip = time_.countP (fun x => decide (x < t)) ∧
      (∀ j (h : j < time_.length), j < ip → time_[j] < t) ∧
      (ip = time_.length ∨ ∃ h : ip < time_.length, t ≤ time_[ip]) ∧
      (t ≤ time_.head hne → ip = 0) ∧ (time_.getLast hne < t → ip = time_.length) := by
  have hpos : 0 < time_.length := List.length_pos.mpr hne
  obtain ⟨ip, h1, -, h3, h4, h5⟩ :=
    scan_spec time_ t time_.length 0 rfl hpos (fun j _ hj => absurd hj (Nat.not_lt_zero j))
  refine ⟨ip, h1, h3, (countP_lt_of_bracket time_ t ip hs h3 h4 h5).symm, h4, ?_, ?_, ?_⟩
  · rcases Nat.lt_or_ge ip time_.length with h | h
    · exact Or.inr ⟨h, h5 h⟩
    · exact Or.inl (by omega)
  · intro hle
    by_contra hip
    have := h4 0 hpos (by omega)
    rw [List.head_eq_getElem] at hle
    exact absurd this (not_lt.mpr hle)
  · intro hlt
    by_contra hip
    have hip' : ip < time_.length := by omega
    have hb := h5 hip'
    have hc : time_[ip] ≤ time_.getLast hne := by
      rw [List.getLast_eq_getElem]
      rcases Nat.lt_or_ge ip (time_.length - 1) with h | h
      · exact le_of_lt (List.pairwise_iff_getElem.mp hs ip (time_.length - 1) hip' (by omega) h)
      · have : ip = time_.length - 1 := by omega
        subst this; exact le_refl _
    exact absurd hlt (not_lt.mpr (le_trans hb hc))

/-- The scan of `[1, 2, 4]` for the query time 3 returns the count of the
entries below 3. -/
theorem KalmanFilterp.Predict.scan_bracket_witness :
    ∃ ip, KalmanFilterp.Predict.scan [(1 : ℚ), 2, 4] 3 0 = some ip ∧ ip ≤ 3 ∧
      ip = [(1 : ℚ), 2, 4].countP (fun x => decide (x < 3)) := by
  obtain ⟨ip, h1, h2, h3, -⟩ :=
    KalmanFilterp.Predict.scan_bracket [(1 : ℚ), 2, 4] 3 (by simp) (by simp; norm_num)
  exact ⟨ip, h1, h2, h3⟩

/-- For order 1 the statements of `KalmanFilterp::Reset` after `EigenMat` give
the stationary variance `sigsqr/(2·omega)` of the order-1 filter (root
`-omega`, `ma_coefs_ = (1)`, the solver being the rule of Cramer). -/
theorem stationary_order_one {K : Type} [LinearOrderedField K] (sigsqr omega : K)
    (homega : omega ≠ 0) (A : Fin 1 → Fin 1 → Cx K) (c : Bool) :
    (quad (rotate (fun _ => 1) (EigenMat (fun _ : Fin 1 => (⟨-omega, 0⟩ : Cx K))))
      (stationary sigsqr (cramer 1 (EigenMat (fun _ : Fin 1 => (⟨-omega, 0⟩ : Cx K))) Rvector)
        (fun _ => ⟨-omega, 0⟩) A c)).re = sigsqr / (2 * omega) := by
  simp [quad, rotate, stationary, cramer, det, EigenMat, Rvector]
  have h2 : (-omega + -omega) ≠ 0 := by
    intro h
    apply homega
    linarith
  field_simp
  ring

/-- C10: for autoregressive order 1 `KalmanFilterp::Reset` does not complete:
the assignment `EigenMat.row(1)` is outside the 1 by 1 matrix, so no `var[0]`
is set. -/
theorem KalmanFilterp.Reset_order_one {K : Type} [LinearOrderedField K] (L : Lib K)
    (s : KalmanFilterp K 1) : KalmanFilterp.Reset L s = none := by
  simp [KalmanFilterp.Reset]

/-- C11: with an `arma::symmatu` that conjugates the entries it reflects,
after `KalmanFilterp::Reset` every entry of the stationary covariance, on
either side of the diagonal, is
`StateVar_[i,j] = -sigsqr_ J[i] conj(J[j]) / (ar_roots_[i] + conj(ar_roots_[j]))`
where `J` is what `arma::solve` returns for `EigenMat` and the last unit
vector; `StateVar_` is Hermitian, and `PredictionVar_` equals `StateVar_`. -/
theorem KalmanFilterp.Reset_StateVar_hermitian {K : Type} [LinearOrderedField K] {p : Nat}
    (L : Lib K) (s s' : KalmanFilterp K p) (hL : L.symmatu_conj = true)
    (h : KalmanFilterp.Reset L s = some s') :
    (∀ i j, s'.StateVar_ i j =
        Cx.scale (-s.sigsqr_) (L.solve p (EigenMat s.ar_roots_) Rvector i) *
          Cx.conj (L.solve p (EigenMat s.ar_roots_) Rvector j) /
          (s.ar_roots_ i + Cx.conj (s.ar_roots_ j))) ∧
    (∀ i j, s'.StateVar_ j i = Cx.conj (s'.StateVar_ i j)) ∧
    s'.PredictionVar_ = s'.StateVar_ := by
  obtain ⟨h1, h2, h3, h4, h5⟩ := KalmanFilterp.Reset_bounds h
  rw [KalmanFilterp.Reset_of_bounds L s h1 h2 h3 h4 h5, Option.some.injEq] at h
  subst h
  have key : ∀ i j, stationary s.sigsqr_ (L.solve p (EigenMat s.ar_roots_) Rvector) s.ar_roots_
      s.StateVar_ L.symmatu_conj i j =
        Cx.scale (-s.sigsqr_) (L.solve p (EigenMat s.ar_roots_) Rvector i) *
          Cx.conj (L.solve p (EigenMat s.ar_roots_) Rvector j) /
          (s.ar_roots_ i + Cx.conj (s.ar_roots_ j)) := by
    intro i j
    rw [hL]
    exact stationary_of_conj _ _ _ _ i j
  refine ⟨key, fun i j => ?_, rfl⟩
  show stationary _ _ _ _ _ j i = Cx.conj (stationary _ _ _ _ _ i j)
  rw [key, key, stationary_formula_conj]

/-- For the order-2 filter with the complex roots `-1 + i` and `-1 - i`, the
rule of Cramer as solver and a conjugating `symmatu`, `Reset` returns and the
entry `(1, 0)` of `StateVar_`, below the diagonal, is the conjugate of the
entry `(0, 1)`. -/
theorem KalmanFilterp.Reset_StateVar_hermitian_witness :
    ∃ s', KalmanFilterp.Reset
        { cramerLib Real.exp Real.cos Real.sin Real.pi with symmatu_conj := true }
        { sample2 ℝ [0, 1] [1, 2] with
          ar_roots_ := fun i => if i.val = 0 then ⟨-1, 1⟩ else ⟨-1, -1⟩ } = some s' ∧
      s'.StateVar_ 1 0 = Cx.conj (s'.StateVar_ 0 1) ∧ s'.PredictionVar_ = s'.StateVar_ := by
  obtain ⟨s', hs'⟩ := KalmanFilterp.Reset_isSome
    { cramerLib Real.exp Real.cos Real.sin Real.pi with symmatu_conj := true }
    { sample2 ℝ [0, 1] [1, 2] with
      ar_roots_ := fun i => if i.val = 0 then ⟨-1, 1⟩ else ⟨-1, -1⟩ }
    (by norm_num) (by simp [sample2]) (by simp [sample2]) (by simp [sample2])
    (by simp [sample2])
  have key := KalmanFilterp.Reset_StateVar_hermitian _ _ s' rfl hs'
  exact ⟨s', hs', key.2.1 0 1, key.2.2⟩

/-- C12: `Reset` is idempotent for both filters.  The state after two calls of
`Reset` in a row is the state after one call (and the second call fails
exactly when the first does), and `Reset` called after any number `k` of
`Update`s returns whenever `Reset` on the filter before the `Update`s does, with
the same `mean_[0]`, `var_[0]` and `current_index_`, and for the general-order
filter also the same `state_vector_`, `StateVar_`, `PredictionVar_`,
`rotated_ma_coefs_` and `innovation_`. -/
theorem Reset_idempotent {K : Type} [LinearOrderedField K] {p : Nat} (exp : K → K) (L : Lib K)
    (s1 : KalmanFilter1 K) (sp : KalmanFilterp K p) (k : Nat) :
    s1.Reset.bind KalmanFilter1.Reset = s1.Reset ∧
    (KalmanFilterp.Reset L sp).bind (KalmanFilterp.Reset L) = KalmanFilterp.Reset L sp ∧
    (∀ sk r, iterM (KalmanFilter1.Update exp) k s1 = some sk → s1.Reset = some r →
      ∃ r', sk.Reset = some r' ∧ r'.mean_[0]? = r.mean_[0]? ∧ r'.var_[0]? = r.var_[0]? ∧
        r'.current_index_ = r.current_index_) ∧
    (∀ sk r, iterM (KalmanFilterp.Update L) k sp = some sk →
      KalmanFilterp.Reset L sp = some r →
      ∃ r', KalmanFilterp.Reset L sk = some r' ∧ r'.mean_[0]? = r.mean_[0]? ∧
        r'.var_[0]? = r.var_[0]? ∧ r'.current_index_ = r.current_index_ ∧
        r'.state_vector_ = r.state_vector_ ∧ r'.StateVar_ = r.StateVar_ ∧
        r'.PredictionVar_ = r.PredictionVar_ ∧ r'.rotated_ma_coefs_ = r.rotated_ma_coefs_ ∧
        r'.innovation_ = r.innovation_) :=
  ⟨KalmanFilter1.Reset1_twice s1, KalmanFilterp.Reset_twice L sp,
    fun sk r hk hr => KalmanFilter1.Reset1_after_Updates exp s1 sk r k hk hr,
    fun sk r hk hr => KalmanFilterp.Reset_after_Updates L sp sk r k hk hr⟩

/-- On the sample series, `Reset` after one `Update` returns and gives the
first variance (order 1) and the stationary covariance (order 2) of `Reset`
without the `Update`. -/
theorem Reset_idempotent_witness :
    ∃ sk r r' tk q q',
      iterM (KalmanFilter1.Update Real.exp) 1 { sample1 ℝ with current_index_ := 1 } = some sk ∧
      KalmanFilter1.Reset { sample1 ℝ with current_index_ := 1 } = some r ∧
      sk.Reset = some r' ∧ r'.var_[0]? = r.var_[0]? ∧
      iterM (KalmanFilterp.Update (cramerLib Real.exp Real.cos Real.sin Real.pi)) 1
        { sample2 ℝ [0, 1] [1, 2] with current_index_ := 1 } = some tk ∧
      KalmanFilterp.Reset (cramerLib Real.exp Real.cos Real.sin Real.pi)
        { sample2 ℝ [0, 1] [1, 2] with current_index_ := 1 } = some q ∧
      KalmanFilterp.Reset (cramerLib Real.exp Real.cos Real.sin Real.pi) tk = some q' ∧
      q'.StateVar_ = q.StateVar_ := by
  have key := Reset_idempotent Real.exp (cramerLib Real.exp Real.cos Real.sin Real.pi)
    { sample1 ℝ with current_index_ := 1 } { sample2 ℝ [0, 1] [1, 2] with current_index_ := 1 } 1
  obtain ⟨sk, hsk⟩ : ∃ sk, iterM (KalmanFilter1.Update Real.exp) 1
      { sample1 ℝ with current_index_ := 1 } = some sk := by
    obtain ⟨a, ha⟩ : ∃ a, KalmanFilter1.Update Real.exp
        { sample1 ℝ with current_index_ := 1 } = some a :=
      ⟨_, KalmanFilter1.Update1_of_bounds Real.exp _ (by simp) (by simp [sample1])
        (by simp [sample1]) (by simp [sample1]) (by simp [sample1]) (by simp [sample1])⟩
    exact ⟨a, by simp [iterM, ha]⟩
  obtain ⟨r, hr⟩ : ∃ r, KalmanFilter1.Reset { sample1 ℝ with current_index_ := 1 } = some r :=
    ⟨_, KalmanFilter1.Reset1_of_bounds _ (by simp [sample1]) (by simp [sample1])
      (by simp [sample1])⟩
  obtain ⟨tk, htk⟩ := KalmanFilterp.iterM_Update_isSome
    (cramerLib Real.exp Real.cos Real.sin Real.pi) 2 1
    { sample2 ℝ [0, 1] [1, 2] with current_index_ := 1 } (by simp) (by simp)
    (by simp [sample2]) (by simp [sample2]) (by simp [sample2]) (by simp [sample2])
    (by simp [sample2])
  obtain ⟨q, hq⟩ := KalmanFilterp.Reset_isSome (cramerLib Real.exp Real.cos Real.sin Real.pi)
    { sample2 ℝ [0, 1] [1, 2] with current_index_ := 1 } (by norm_num) (by simp [sample2])
    (by simp [sample2]) (by simp [sample2]) (by simp [sample2])
  obtain ⟨r', h1, -, h2, -⟩ := key.2.2.1 sk r hsk hr
  obtain ⟨q', h3, -, -, -, -, h4, -⟩ := key.2.2.2 tk q htk hq
  exact ⟨sk, r, r', tk, q, q', hsk, hr, h1, h2, htk, hq, h3, h4⟩

/-- C13: when `KalmanFilterp::Simulate` returns, the arrays `time_`, `y_` and
`yerr_` of the filter are the ones before the call, entry by entry and in
length, for every list of query times, every library and every behaviour of
the sampler. -/
theorem KalmanFilterp.Simulate_restores {K : Type} [LinearOrderedField K] {p : Nat} {G : Type}
    (L : Lib K) (S : SimLib K G) (s : KalmanFilterp K p) (time : List K) (g : G)
    (r : KalmanFilterp K p × List K × G) (h : KalmanFilterp.Simulate L S s time g = some r) :
    r.1.time_ = s.time_ ∧ r.1.y_ = s.y_ ∧ r.1.yerr_ = s.yerr_ := by
  unfold KalmanFilterp.Simulate at h
  simp only [Option.bind_eq_bind, Option.bind_eq_some, Option.pure_def, Option.some.injEq] at h
  obtain ⟨a, -, rfl⟩ := h
  exact ⟨rfl, rfl, rfl⟩

/-- On the order-2 sample series over `time_ = [0, 2]`, `y_ = [1, 2]`,
`Simulate` at the single query time 1 returns, and the arrays are the ones
before the call. -/
theorem KalmanFilterp.Simulate_restores_witness :
    ∃ r, KalmanFilterp.Simulate (cramerLib Real.exp Real.cos Real.sin Real.pi)
        (sampleSim Real.sqrt) (sample2 ℝ [0, 2] [1, 2]) [1] () = some r ∧
      r.1.time_ = [0, 2] ∧ r.1.y_ = [1, 2] ∧ r.1.yerr_ = [0, 0] := by
  obtain ⟨r, hr⟩ := sample2_Simulate
  exact ⟨r, hr, KalmanFilterp.Simulate_restores _ _ _ _ _ r hr⟩

/-- C14: the insertion scan of `KalmanFilterp::Simulate` has no test on
`insert_idx`.  When the first of the sorted query times is later than every
conditioning time, the scan runs past the end of `time_`, the read
`time_(insert_idx)` is outside the array and `Simulate` returns nothing,
whatever the libraries, the sampler and the conditioning data are. -/
theorem KalmanFilterp.Simulate_scan_out_of_bounds {K : Type} [LinearOrderedField K] {p : Nat}
    {G : Type} (L : Lib K) (S : SimLib K G) (s : KalmanFilterp K p) (time rest : List K)
    (t : K) (g : G) (hsort : S.sort time = t :: rest) (hlate : ∀ x ∈ s.time_, x < t) :
    KalmanFilterp.Simulate L S s time g = none := by
  unfold KalmanFilterp.Simulate
  simp only [hsort, List.length_cons, List.range_succ_eq_map, List.foldlM_cons,
    Option.bind_eq_bind, KalmanFilterp.Simulate.step_none L S s t rest _ 0 g hlate,
    Option.none_bind]

/-- On the order-2 sample series over `time_ = [0, 1]`, with the rule of
Cramer as solver and the sample library for `Simulate`, the call at the
single query time 2 returns nothing. -/
theorem KalmanFilterp.Simulate_scan_out_of_bounds_witness :
    KalmanFilterp.Simulate (cramerLib Real.exp Real.cos Real.sin Real.pi)
      (sampleSim Real.sqrt) (sample2 ℝ [0, 1] [1, 2]) [2] () = none :=
  KalmanFilterp.Simulate_scan_out_of_bounds _ _ _ [2] [] 2 () (by simp [sampleSim])
    (by simp [sample2])

/-- C15: for the order-1 filter over the reals with fixed `sigsqr_`, a fixed
positive first gap `dt_[0]`, fixed measurement errors and a fixed first
observation, `Reset` followed by `Update` returns for every `omega_`, and as
`omega_` grows the mean `mean_[1]` that `Update` writes tends to 0 and the
variance `var_[1]` it writes differs from `sigsqr_ / (2 omega_) + yerr_[1]^2` by
a quantity that tends to 0. -/
theorem KalmanFilter1.Update_limit_omega (s : KalmanFilter1 ℝ) (d y0 e0 e1 : ℝ)
    (hσ : 0 < s.sigsqr_) (hd : s.dt_[0]? = some d) (hdpos : 0 < d)
    (hy : s.y_[0]? = some y0) (he0 : s.yerr_[0]? = some e0) (he1 : s.yerr_[1]? = some e1)
    (hm : 2 ≤ s.mean_.length) (hv : 2 ≤ s.var_.length) :
    ∃ m v : ℝ → ℝ,
      (∀ ω, ∃ t, (KalmanFilter1.Reset { s with omega_ := ω }).bind
          (KalmanFilter1.Update Real.exp) = some t ∧
          t.mean_[1]? = some (m ω) ∧ t.var_[1]? = some (v ω)) ∧
      Filter.Tendsto m Filter.atTop (nhds 0) ∧
      Filter.Tendsto (fun ω => v ω - (s.sigsqr_ / (2 * ω) + e1 * e1)) Filter.atTop (nhds 0) := by
  obtain ⟨hdl, hd'⟩ := List.getElem?_eq_some.mp hd
  obtain ⟨hyl, hy'⟩ := List.getElem?_eq_some.mp hy
  obtain ⟨he0l, he0'⟩ := List.getElem?_eq_some.mp he0
  obtain ⟨he1l, he1'⟩ := List.getElem?_eq_some.mp he1
  refine ⟨fun ω => Real.exp (-1 * ω * d) * 0 + Real.exp (-1 * ω * d) *
      ((s.sigsqr_ / (2 * ω) + e0 * e0 - e0 * e0) / (s.sigsqr_ / (2 * ω) + e0 * e0)) * (y0 - 0),
    fun ω => s.sigsqr_ / (2 * ω) * (1 - Real.exp (-1 * ω * d) * Real.exp (-1 * ω * d)) +
      Real.exp (-1 * ω * d) * Real.exp (-1 * ω * d) *
        (s.sigsqr_ / (2 * ω) + e0 * e0 - e0 * e0) *
        (1 - (s.sigsqr_ / (2 * ω) + e0 * e0 - e0 * e0) / (s.sigsqr_ / (2 * ω) + e0 * e0)) +
      e1 * e1, ?_, ?_, ?_⟩
  · intro ω
    have hm0 : 0 < s.mean_.length := by omega
    have hv0 : 0 < s.var_.length := by omega
    rw [KalmanFilter1.Reset1_of_bounds { s with omega_ := ω } hm0 he0l hv0, Option.some_bind,
      KalmanFilter1.Update1_of_bounds Real.exp _ (by simp) (by simpa using hdl)
        (by simpa using hm) (by simpa using hv) (by simpa using he1l) (by simpa using hyl)]
    refine ⟨_, rfl, ?_, ?_⟩
    · simp [List.getElem?_set, hd', hy', he0', he1']
      omega
    · simp [List.getElem?_set, hd', hy', he0', he1']
      omega
  · have h0 := (kf1_rho_tendsto d hdpos).mul_const |y0|
    rw [zero_mul] at h0
    refine squeeze_zero_norm' ?_ h0
    filter_upwards [Filter.eventually_gt_atTop 0] with ω hω
    exact kf1_mean_bound (s.sigsqr_ / (2 * ω)) (Real.exp (-1 * ω * d)) e0 y0 (by positivity)
      (Real.exp_pos _).le
  · refine squeeze_zero_norm' ?_ (kf1_stationary_tendsto s.sigsqr_)
    filter_upwards [Filter.eventually_gt_atTop 0] with ω hω
    refine kf1_var_bound (s.sigsqr_ / (2 * ω)) (Real.exp (-1 * ω * d)) e0 e1 (by positivity)
      (Real.exp_pos _).le ?_
    rw [Real.exp_le_one_iff]
    nlinarith

/-- On the sample series of three points (`sigsqr_ = 2`, first gap 1, first
observation 1, no measurement errors) the mean and the variance that `Update`
writes after `Reset` tend to 0 and to the stationary variance `2 / (2 omega)`
as `omega_` grows. -/
theorem KalmanFilter1.Update_limit_omega_witness :
    ∃ m v : ℝ → ℝ,
      (∀ ω, ∃ t, (KalmanFilter1.Reset { sample1 ℝ with omega_ := ω }).bind
          (KalmanFilter1.Update Real.exp) = some t ∧
          t.mean_[1]? = some (m ω) ∧ t.var_[1]? = some (v ω)) ∧
      Filter.Tendsto m Filter.atTop (nhds 0) ∧
      Filter.Tendsto (fun ω => v ω - (2 / (2 * ω) + 0 * 0)) Filter.atTop (nhds 0) :=
  KalmanFilter1.Update_limit_omega (sample1 ℝ) 1 1 0 0 (by simp [sample1]) (by simp [sample1])
    one_pos (by simp [sample1]) (by simp [sample1]) (by simp [sample1]) (by simp [sample1])
    (by simp [sample1])

/-- C16: at the query time `time = time_[0]` the interpolation branch of
`KalmanFilter1::Predict` is entered (for a strictly increasing time array of
any length `n ≥ 1`), its scan stops at once with the index `i = 0`, not with
`1 ≤ i`, and the read of `time_(i-1)` that follows is outside the array: the
call returns no prediction. -/
theorem KalmanFilter1.Predict_first_time {K : Type} [LinearOrderedField K] (exp : K → K)
    (s : KalmanFilter1 K) (hn : 0 < s.time_.length) (hy : s.y_.length = s.time_.length)
    (hs : s.time_.Pairwise (fun a b => a < b)) :
    KalmanFilter1.Predict.scan s.time_ s.time_[0] 0 s.time_[0] = some (0, s.time_[0]) ∧
      KalmanFilter1.Predict exp s s.time_[0] = none := by
  have hscan : KalmanFilter1.Predict.scan s.time_ s.time_[0] 0 s.time_[0]
      = some (0, s.time_[0]) := by
    rw [KalmanFilter1.Predict.scan, if_neg (lt_irrefl _)]
  refine ⟨hscan, ?_⟩
  have hl : s.time_.length - 1 < s.time_.length := by omega
  have hle : ¬ s.time_[0] > s.time_[s.time_.length - 1] := by
    rcases Nat.eq_zero_or_pos (s.time_.length - 1) with h | h
    · simp [h]
    · exact not_lt.mpr (le_of_lt (List.pairwise_iff_getElem.mp hs 0 _ hn hl h))
  have hd : decr s.y_.length = some (s.time_.length - 1) :=
    decr_eq_some.mpr ⟨by omega, by rw [hy]⟩
  have hd0 : decr 0 = none := rfl
  have hsides : KalmanFilter1.Predict.sides exp s s.time_[0] = none := by
    simp only [KalmanFilter1.Predict.sides, rd, List.getElem?_eq_getElem hn,
      List.getElem?_eq_getElem hl, Option.bind_eq_bind, Option.some_bind, lt_irrefl, if_false,
      hd, hle, hscan, hd0, Option.none_bind]
  simp only [KalmanFilter1.Predict, hsides, Option.bind_eq_bind, Option.none_bind]

/-- On the sample series `time_ = [0, 1, 2]` the scan for the query time 0
stops at the index 0 and `Predict` returns no prediction. -/
theorem KalmanFilter1.Predict_first_time_witness :
    KalmanFilter1.Predict.scan [0, 1, 2] (0 : ℝ) 0 0 = some (0, 0) ∧
      KalmanFilter1.Predict Real.exp (sample1 ℝ) 0 = none :=
  KalmanFilter1.Predict_first_time Real.exp (sample1 ℝ) (by simp [sample1]) (by simp [sample1])
    (by simp [sample1])

/-- C17: after `InitializeCoefs(time, itime, ymean, yvar)` the pair
`(yconst_, yslope_)` is the exact affine form of the one-step prediction: for
every state, covariance, `ymean`, `yvar` and every real `z`,
`yconst_ + yslope_ z = Re(rotated_ma_coefs_ . (rho % (state_vector_ + K (z - ymean))))`
with `K = PredictionVar_ rotated_ma_coefs_^H / yvar` and
`rho = exp(ar_roots_ (time_[itime] - time))`, the state and covariance being
the ones before the call; and `current_index_` is `itime + 1`. -/
theorem KalmanFilterp.InitializeCoefs_affine {K : Type} [LinearOrderedField K] {p : Nat}
    (L : Lib K) (s s' : KalmanFilterp K p) (time : K) (itime : Nat) (ymean yvar : K)
    (h : KalmanFilterp.InitializeCoefs L s time itime ymean yvar = some s') (z : K) :
    ∃ ti, s.time_[itime]? = some ti ∧
      s'.yconst_ + s'.yslope_ * z =
        (dot s.rotated_ma_coefs_ (fun i => decay L s.ar_roots_ (ti - time) i *
          (s.state_vector_ i +
            Cx.scale (z - ymean) (gain s.PredictionVar_ s.rotated_ma_coefs_ yvar i)))).re ∧
      s'.current_index_ = itime + 1 := by
  obtain ⟨ht, hv⟩ := KalmanFilterp.InitializeCoefs_bounds h
  rw [KalmanFilterp.InitializeCoefs_of_bounds L s time itime ymean yvar ht hv,
    Option.some.injEq] at h
  subst h
  refine ⟨s.time_[itime], List.getElem?_eq_getElem ht, ?_, rfl⟩
  show (dot _ _).re + (dot _ _).re * z = _
  rw [dot_re_affine]
  congr 2
  funext i
  ext <;> simp only [Cx.mul_re, Cx.mul_im, Cx.add_re, Cx.add_im, Cx.sub_re, Cx.sub_im,
    Cx.scale_re, Cx.scale_im] <;> ring

/-- On the order-2 sample series after `Reset`, `InitializeCoefs` for the query
time 1/2 before the observation of index 1 returns, sets `current_index_` to 2
and gives the affine form at `z = 3`. -/
theorem KalmanFilterp.InitializeCoefs_affine_witness :
    ∃ s0 s', KalmanFilterp.Reset (cramerLib Real.exp Real.cos Real.sin Real.pi)
        (sample2 ℝ [0, 1] [1, 2]) = some s0 ∧
      KalmanFilterp.InitializeCoefs (cramerLib Real.exp Real.cos Real.sin Real.pi) s0
        (1 / 2) 1 0 1 = some s' ∧
      s'.yconst_ + s'.yslope_ * 3 =
        (dot s0.rotated_ma_coefs_ (fun i =>
          decay (cramerLib Real.exp Real.cos Real.sin Real.pi) s0.ar_roots_ (1 - 1 / 2) i *
          (s0.state_vector_ i +
            Cx.scale (3 - 0) (gain s0.PredictionVar_ s0.rotated_ma_coefs_ 1 i)))).re ∧
      s'.current_index_ = 2 := by
  obtain ⟨s0, h0⟩ := KalmanFilterp.Reset_isSome (cramerLib Real.exp Real.cos Real.sin Real.pi)
    (sample2 ℝ [0, 1] [1, 2]) (by norm_num) (by simp [sample2]) (by simp [sample2])
    (by simp [sample2]) (by simp [sample2])
  obtain ⟨-, f2, -, -, -, -, f7⟩ := KalmanFilterp.Reset_frame h0
  have ht : s0.time_ = [0, 1] := by rw [f2]; rfl
  obtain ⟨s', h1⟩ := KalmanFilterp.InitializeCoefs_isSome
    (cramerLib Real.exp Real.cos Real.sin Real.pi) s0 (1 / 2) 1 0 1 (by rw [ht]; simp)
    (by rw [f7]; simp [sample2])
  obtain ⟨ti, hti, hz, hc⟩ := KalmanFilterp.InitializeCoefs_affine
    (cramerLib Real.exp Real.cos Real.sin Real.pi) s0 s' (1 / 2) 1 0 1 h1 3
  have e : ti = 1 := by
    rw [ht] at hti
    simpa using hti.symm
  subst e
  exact ⟨s0, s', h0, h1, hz, hc⟩

/-- C18: `UpdateCoefs` keeps the affine form.  With `c` the value of
`current_index_` before the call, `K = PredictionVar_ rotated_ma_coefs_^H /
var_[c-1]` and `rho = exp(ar_roots_ dt_[c-1])` from the state before the call,
for every real `z` the new coefficients satisfy
`state_const_' + state_slope_' z
  = rho % ((state_const_ + state_slope_ z) + K (y_[c-1] - (yconst_ + yslope_ z)))`
and
`yconst_' + yslope_' z = Re(rotated_ma_coefs_ . (state_const_' + state_slope_' z))`,
and `current_index_` becomes `c + 1`. -/
theorem KalmanFilterp.UpdateCoefs_affine {K : Type} [LinearOrderedField K] {p : Nat}
    (L : Lib K) (s s' : KalmanFilterp K p) (h : KalmanFilterp.UpdateCoefs L s = some s')
    (z : K) :
    ∃ y v dt, s.y_[s.current_index_ - 1]? = some y ∧ s.var_[s.current_index_ - 1]? = some v ∧
      s.dt_[s.current_index_ - 1]? = some dt ∧
      (∀ i, s'.state_const_ i + Cx.scale z (s'.state_slope_ i) =
        decay L s.ar_roots_ dt i *
          ((s.state_const_ i + Cx.scale z (s.state_slope_ i)) +
            Cx.scale (y - (s.yconst_ + s.yslope_ * z))
              (gain s.PredictionVar_ s.rotated_ma_coefs_ v i))) ∧
      s'.yconst_ + s'.yslope_ * z =
        (dot s.rotated_ma_coefs_
          (fun i => s'.state_const_ i + Cx.scale z (s'.state_slope_ i))).re ∧
      s'.current_index_ = s.current_index_ + 1 := by
  obtain ⟨hc, hy, hdt, hv⟩ := KalmanFilterp.UpdateCoefs_bounds h
  have hv1 : s.current_index_ - 1 < s.var_.length := Nat.lt_of_le_of_lt (Nat.sub_le _ _) hv
  rw [KalmanFilterp.UpdateCoefs_of_bounds L s hc hy hdt hv, Option.some.injEq] at h
  subst h
  refine ⟨s.y_[s.current_index_ - 1], s.var_[s.current_index_ - 1], s.dt_[s.current_index_ - 1],
    List.getElem?_eq_getElem hy, List.getElem?_eq_getElem hv1, List.getElem?_eq_getElem hdt,
    fun i => ?_, ?_, rfl⟩
  · ext <;> simp only [Cx.mul_re, Cx.mul_im, Cx.add_re, Cx.add_im, Cx.sub_re, Cx.sub_im,
      Cx.scale_re, Cx.scale_im] <;> ring
  · show (dot _ _).re + (dot _ _).re * z = _
    rw [dot_re_affine]

/-- On the order-2 sample series of three points, after `Reset` and
`InitializeCoefs` for the query time 1/2, `UpdateCoefs` returns, reads
`y_[1] = 2` and `dt_[1] = 1`, keeps the affine form at `z = 3` and moves
`current_index_` from 2 to 3. -/
theorem KalmanFilterp.UpdateCoefs_affine_witness :
    ∃ s0 s1 s2 v, KalmanFilterp.Reset (cramerLib Real.exp Real.cos Real.sin Real.pi)
        (sample2 ℝ [0, 1, 2] [1, 2, 3]) = some s0 ∧
      KalmanFilterp.InitializeCoefs (cramerLib Real.exp Real.cos Real.sin Real.pi) s0
        (1 / 2) 1 0 1 = some s1 ∧
      KalmanFilterp.UpdateCoefs (cramerLib Real.exp Real.cos Real.sin Real.pi) s1 = some s2 ∧
      s1.var_[1]? = some v ∧
      (∀ i, s2.state_const_ i + Cx.scale 3 (s2.state_slope_ i) =
        decay (cramerLib Real.exp Real.cos Real.sin Real.pi) s1.ar_roots_ 1 i *
          ((s1.state_const_ i + Cx.scale 3 (s1.state_slope_ i)) +
            Cx.scale (2 - (s1.yconst_ + s1.yslope_ * 3))
              (gain s1.PredictionVar_ s1.rotated_ma_coefs_ v i))) ∧
      s2.yconst_ + s2.yslope_ * 3 =
        (dot s1.rotated_ma_coefs_
          (fun i => s2.state_const_ i + Cx.scale 3 (s2.state_slope_ i))).re ∧
      s2.current_index_ = 3 := by
  obtain ⟨s0, h0⟩ := KalmanFilterp.Reset_isSome (cramerLib Real.exp Real.cos Real.sin Real.pi)
    (sample2 ℝ [0, 1, 2] [1, 2, 3]) (by norm_num) (by simp [sample2]) (by simp [sample2])
    (by simp [sample2]) (by simp [sample2])
  obtain ⟨-, f2, f3, -, f5, -, f7⟩ := KalmanFilterp.Reset_frame h0
  have ht : s0.time_ = [0, 1, 2] := by rw [f2]; rfl
  obtain ⟨s1, h1⟩ := KalmanFilterp.InitializeCoefs_isSome
    (cramerLib Real.exp Real.cos Real.sin Real.pi) s0 (1 / 2) 1 0 1 (by rw [ht]; simp)
    (by rw [f7]; simp [sample2])
  obtain ⟨g1, -, g3, g4, g5⟩ := KalmanFilterp.InitializeCoefs_frame h1
  have hy : s1.y_ = [1, 2, 3] := by rw [g3, f3]; rfl
  have hdt : s1.dt_ = [1 - 0, 2 - 1] := by rw [g4, f5]; rfl
  obtain ⟨s2, h2⟩ := KalmanFilterp.UpdateCoefs_isSome
    (cramerLib Real.exp Real.cos Real.sin Real.pi) s1 (by rw [g1]; simp)
    (by rw [g1, hy]; simp) (by rw [g1, hdt]; simp) (by rw [g1, g5, f7]; simp [sample2])
  obtain ⟨y, v, dt, e1, e2, e3, k1, k2, k3⟩ := KalmanFilterp.UpdateCoefs_affine
    (cramerLib Real.exp Real.cos Real.sin Real.pi) s1 s2 h2 3
  rw [g1] at e1 e2 e3 k3
  have ey : y = 2 := by
    rw [hy] at e1
    simpa using e1.symm
  have ed : dt = 1 := by
    rw [hdt] at e3
    have : (2 : ℝ) - 1 = dt := by simpa using e3
    rw [← this]; norm_num
  subst ey ed
  exact ⟨s0, s1, s2, v, h0, h1, h2, e2, k1, k2, k3⟩

/-- C19: in `KalmanFilterp::Predict` with `ipredict < n`, if the one-sided
variance `v_b` is positive and the entry `var_[ipredict]` that
`InitializeCoefs` writes is positive, then the returned variance `v` satisfies
`0 < v ≤ v_b`. -/
theorem KalmanFilterp.Predict_var_le_oneSided {K : Type} [LinearOrderedField K] {p : Nat}
    (L : Lib K) (s s1 : KalmanFilterp K p) (time w : K) (ip : Nat)
    (b r : KalmanFilterp K p × K × K)
    (hscan : KalmanFilterp.Predict.scan s.time_ time 0 = some ip)
    (hb : KalmanFilterp.Predict.oneSided L s time ip = some b)
    (hip : ip < b.1.time_.length) (hvb : 0 < b.2.2)
    (hs1 : KalmanFilterp.InitializeCoefs L b.1 time ip b.2.1 b.2.2 = some s1)
    (hw : s1.var_[ip]? = some w) (hwpos : 0 < w)
    (hP : KalmanFilterp.Predict L s time = some r) :
    0 < r.2.2 ∧ r.2.2 ≤ b.2.2 := by
  rw [KalmanFilterp.Predict_eq L s time hscan hb, if_neg (Nat.ne_of_lt hip)] at hP
  simp only [KalmanFilterp.Predict.merge, hs1, Option.bind_eq_bind, Option.some_bind,
    Option.bind_eq_some, Option.pure_def, Option.some.injEq] at hP
  obtain ⟨a, ha, c, hc, rfl⟩ := hP
  obtain ⟨g1, -, -, -, -⟩ := KalmanFilterp.InitializeCoefs_frame hs1
  have i0 := KalmanFilterp.Predict.fold_inv ip (1 / b.2.2) w hwpos (s1, 1 / b.2.2, b.2.1) a
    ⟨hw, le_refl _, by show ip < s1.current_index_; rw [g1]; exact Nat.lt_succ_self ip⟩ ha
  have i1 := iterM_inv (KalmanFilterp.Predict.step L ip)
    (fun a => a.1.var_[ip]? = some w ∧ 1 / b.2.2 ≤ a.2.1 ∧ ip < a.1.current_index_)
    (fun a c ha h => KalmanFilterp.Predict.step_inv L ip (1 / b.2.2) w hwpos a c ha h)
    _ a c i0 hc
  exact one_div_precision b.2.2 c.2.1 hvb i1.2.1

/-- On the sample filter `sample3` over `time = [0, 2]`, `y = [1, 3]` at the
query time 1 (`ipredict = 1 < 2`) the one-sided variance and the entry
`var_[1]` are `1 - exp(-1)^2 > 0`, `Predict` returns, and the returned variance
is positive and at most the one-sided variance. -/
theorem KalmanFilterp.Predict_var_le_oneSided_witness :
    ∃ b r, KalmanFilterp.Predict.oneSided (cramerLib Real.exp Real.cos Real.sin Real.pi)
        (sample3 ℝ [0, 2] [1, 3]) 1 1 = some b ∧
      KalmanFilterp.Predict (cramerLib Real.exp Real.cos Real.sin Real.pi)
        (sample3 ℝ [0, 2] [1, 3]) 1 = some r ∧
      0 < b.2.2 ∧ 0 < r.2.2 ∧ r.2.2 ≤ b.2.2 := by
  obtain ⟨b, s1, hscan, hb, hlen, hv, hs1, hw⟩ := sample3_coefs
  have hpos : 0 < Real.exp (-1) := Real.exp_pos _
  have hlt : Real.exp (-1) < 1 := Real.exp_lt_one_iff.mpr (by norm_num)
  have hu : 0 < 1 - Real.exp (-1) * Real.exp (-1) := by nlinarith
  obtain ⟨r, hr⟩ := KalmanFilterp.Predict_isSome (cramerLib Real.exp Real.cos Real.sin Real.pi)
    (sample3 ℝ [0, 2] [1, 3]) 1 (by norm_num) (by simp [sample3, sample2])
    (by simp [sample3, sample2]) (by simp [sample3, sample2]) (by simp [sample3, sample2])
    (by simp [sample3, sample2]) (by simp [sample3, sample2])
  have key := KalmanFilterp.Predict_var_le_oneSided
    (cramerLib Real.exp Real.cos Real.sin Real.pi) (sample3 ℝ [0, 2] [1, 3]) s1 1
    (1 - Real.exp (-1) * Real.exp (-1)) 1 b r hscan hb (by rw [hlen]; norm_num)
    (by rw [hv]; exact hu) hs1 hw hu hr
  exact ⟨b, r, hb, hr, by rw [hv]; exact hu, key.1, key.2⟩

/-- C20: for the order-1 filter (with any positive `sigsqr_` and `omega_`),
`Reset` writes a first variance whose process part `var_[0] - yerr_[0]^2` is
the stationary variance `sigsqr_ / (2 omega_)`, and an `Update` that reads an
entry `var_[i-1] > 0` whose process part `var_[i-1] - yerr_[i-1]^2` lies
between 0 and the stationary variance writes an entry `var_[i]` whose process
part `var_[i] - yerr_[i]^2` is at most the stationary variance. -/
theorem KalmanFilter1.process_var_le_stationary {K : Type} [LinearOrderedField K]
    (exp : K → K) (s : KalmanFilter1 K) (hσ : 0 < s.sigsqr_) (hω : 0 < s.omega_) :
    (∀ s0, s.Reset = some s0 → ∃ v e, s0.var_[0]? = some v ∧ s0.yerr_[0]? = some e ∧
        v - e * e = s.sigsqr_ / (2 * s.omega_) ∧ 0 < s.sigsqr_ / (2 * s.omega_)) ∧
    (∀ s' v e, KalmanFilter1.Update exp s = some s' →
        s.var_[s.current_index_ - 1]? = some v → s.yerr_[s.current_index_ - 1]? = some e →
        0 < v → 0 ≤ v - e * e → v - e * e ≤ s.sigsqr_ / (2 * s.omega_) →
        ∃ v' e', s'.var_[s.current_index_]? = some v' ∧
          s'.yerr_[s.current_index_]? = some e' ∧
          v' - e' * e' ≤ s.sigsqr_ / (2 * s.omega_)) := by
  constructor
  · intro s0 h0
    obtain ⟨hm, he, hv, rfl⟩ := KalmanFilter1.Reset_eq_some h0
    refine ⟨_, _, List.getElem?_set_self hv, List.getElem?_eq_getElem he, ?_, by positivity⟩
    ring
  · intro s' v e h hv1 he1 hv hp hS
    obtain ⟨hc, hdt, hm', hv', he', hy⟩ := KalmanFilter1.Update1_bounds h
    rw [KalmanFilter1.Update1_of_bounds exp s hc hdt hm' hv' he' hy] at h
    simp only [Option.some.injEq] at h
    subst h
    have h1 : s.current_index_ - 1 < s.var_.length := by omega
    have h2 : s.current_index_ - 1 < s.yerr_.length := by omega
    rw [List.getElem?_eq_getElem h1, Option.some.injEq] at hv1
    rw [List.getElem?_eq_getElem h2, Option.some.injEq] at he1
    refine ⟨_, _, List.getElem?_set_self hv', List.getElem?_eq_getElem he', ?_⟩
    rw [hv1, he1]
    have := kf1_var_le (s.sigsqr_ / (2 * s.omega_))
      (exp (-1 * s.omega_ * s.dt_[s.current_index_ - 1])) v e hv hp hS
    linarith

/-- On the sample series of three points (`sigsqr_ = 2`, `omega_ = 1`) `Reset`
gives the process variance 1, and the `Update` that follows reads the entry
`var_[0] = 1` and writes an entry `var_[1]` of process part at most 1. -/
theorem KalmanFilter1.process_var_le_stationary_witness :
    ∃ s0 s1 v, (sample1 ℝ).Reset = some s0 ∧ KalmanFilter1.Update Real.exp s0 = some s1 ∧
      s0.var_[0]? = some 1 ∧ s1.var_[1]? = some v ∧ v - 0 * 0 ≤ 1 := by
  have h0 : (sample1 ℝ).Reset = some
      { sample1 ℝ with mean_ := [0, 7, 7], var_ := [1, 7, 7], current_index_ := 1 } := by
    rw [KalmanFilter1.Reset1_of_bounds _ (by simp [sample1]) (by simp [sample1])
      (by simp [sample1])]
    simp [sample1]
  obtain ⟨s1, h1⟩ : ∃ s1, KalmanFilter1.Update Real.exp
      { sample1 ℝ with mean_ := [0, 7, 7], var_ := [1, 7, 7], current_index_ := 1 } = some s1 :=
    ⟨_, KalmanFilter1.Update1_of_bounds Real.exp _ (by simp) (by simp [sample1])
      (by simp) (by simp) (by simp [sample1]) (by simp [sample1])⟩
  obtain ⟨v', e', hv', he', hle⟩ :=
    (KalmanFilter1.process_var_le_stationary Real.exp
      { sample1 ℝ with mean_ := [0, 7, 7], var_ := [1, 7, 7], current_index_ := 1 }
      (by simp [sample1]) (by simp [sample1])).2 s1 1 0 h1 (by simp) (by simp [sample1])
      (by norm_num) (by norm_num) (by simp [sample1])
  have he0 : e' = 0 := by
    obtain ⟨-, -, -, -, f5, -⟩ := KalmanFilter1.Update1_frame h1
    rw [f5] at he'
    simpa [sample1] using he'.symm
  subst he0
  exact ⟨_, s1, v', h0, h1, by simp, hv', by simpa [sample1] using hle⟩

end Kfilter
